import Mathlib

/-!
Verification of the amortization and scenario-evaluation engine of the
loan-EMI forecast calculator.

The definitions below are a shallow embedding of the TypeScript source:

* `calculateLoanEMI` and its helpers embed `src/utils/loanCalculations.ts`
  (the validated variant of the function, lines 220-432): input validation,
  the closed-form EMI computation with its overflow guard, the expansion of
  recurring part-payment instructions, and the month-by-month simulation
  loop with the reduce-tenure / reduce-emi strategies.
* `calculateWeightedScore`-related definitions embed the scenario
  comparator of `LoanComparisonSection`.
* `affordability` embeds the eligibility computation of
  `LoanAffordabilityCalculator.tsx` (lines 56-90).

Modelling conventions:

* JavaScript numbers are modelled as exact rationals (`ℚ`).  Finiteness
  checks (`isFinite`) are vacuous in this model; `Number.isInteger q` is
  modelled as `q.den = 1`.  Division by zero yields `0` in `ℚ` where
  JavaScript would produce `NaN`/`Infinity`; every place where this
  matters is noted at the definition concerned.
* A JavaScript `Date` holding the first day of a month is modelled by its
  absolute month number `12 * year + (month - 1) : ℤ`.  `getTime`
  differences are modelled through exact proleptic-Gregorian day counts
  (`daysSinceEpoch`), matching the millisecond arithmetic of the source up
  to the irrelevant constant factor of 86400000; daylight-saving wobble of
  local-midnight timestamps is outside the model.
* `Math.ceil (Math.log x / Math.log b)` (used once, on arguments `b > 1`,
  `x > 1`) equals the least `k : ℕ` with `x ≤ b ^ k`; it is embedded as
  the executable bounded search `ceilLogMonths`.
* The `while` loop is embedded as a fuel-indexed iteration `simRun`; the
  fuel passed by `calculateLoanEMI` provably dominates both iteration
  bounds of the source, so the returned state always has its loop guard
  exhausted.
* `Math.pow base exp` with a non-integral rational `exp` is transcendental
  and not representable in `ℚ`; `computeEmi` returns a dedicated error in
  that case (only reachable for positive rates with a fractional number of
  total months).  Theorems about positive-rate runs carry the
  corresponding integrality hypothesis.
-/

/-- Payment frequency of a part-payment instruction
(`PartPaymentSection` union type). -/
inductive Frequency where
  | oneTime
  | monthly
  | quarterly
  | halfYearly
  | yearly
deriving DecidableEq, Repr

/-- Part-payment strategy (`reduce-tenure` or `reduce-emi`). -/
inductive Strategy where
  | reduceTenure
  | reduceEmi
deriving DecidableEq, Repr

/-- A user-authored part-payment instruction (the fields of `PartPayment`
consumed by the engine; `id` and `notes` are presentation-only). -/
structure PartPayment where
  month : ℤ
  year : ℤ
  amount : ℚ
  frequency : Frequency
  strategy : Strategy
deriving DecidableEq, Repr

/-- An expanded part-payment event: one concrete occurrence of an
instruction (element type of `expandedPartPayments` in the source). -/
structure PPEvent where
  month : ℤ
  year : ℤ
  amount : ℚ
  strategy : Strategy
deriving DecidableEq, Repr

/-- Absolute month number of `new Date(year, month - 1)`:
months since year 0. -/
def dateOf (year month : ℤ) : ℤ := 12 * year + (month - 1)

/-- `getFullYear` of an absolute month number. -/
def yearOf (d : ℤ) : ℤ := d.fdiv 12

/-- `getMonth() + 1` (1-based month) of an absolute month number. -/
def monthOf (d : ℤ) : ℤ := d - 12 * d.fdiv 12 + 1

/-- Gregorian leap-year predicate, as used by the JavaScript `Date`. -/
def isLeapYear (y : ℤ) : Bool := y % 4 == 0 && (y % 100 != 0 || y % 400 == 0)

/-- Number of leap years in the interval `[0, y)`. -/
def leapsBeforeYear (y : ℤ) : ℤ :=
  (y + 3).fdiv 4 - (y + 99).fdiv 100 + (y + 399).fdiv 400

/-- Cumulative day count before 0-based month `m` within a year. -/
def daysBeforeMonthInYear (leap : Bool) (m : ℤ) : ℤ :=
  ([0, 31, 59, 90, 120, 151, 181, 212, 243, 273, 304, 334].getD m.toNat 334) +
    (if leap ∧ 2 ≤ m then 1 else 0)

/-- Days from the epoch (Jan 1 of year 0) to the first day of absolute
month `d`.  Models `Date.prototype.getTime` of a first-of-month date, in
units of days. -/
def daysSinceEpoch (d : ℤ) : ℤ :=
  let y := d.fdiv 12
  365 * y + leapsBeforeYear y + daysBeforeMonthInYear (isLeapYear y) (d - 12 * y)

/-- Day difference between the first days of two absolute months
(`endTime - startTime`, in days). -/
def daysBetweenMonths (a b : ℤ) : ℤ := daysSinceEpoch b - daysSinceEpoch a

/-- `Math.ceil (days / 30)`: the 30-day-month approximation used by the
reduce-emi recomputation (source line 386). -/
def ceilDiv30 (days : ℤ) : ℤ := (days + 29).fdiv 30

/-- Bounded search for the least `k ≥ k0` with `x ≤ b ^ k`. -/
def searchPow (b x : ℚ) : ℕ → ℕ → ℕ
  | 0, k0 => k0
  | fuel + 1, k0 => if x ≤ b ^ k0 then k0 else searchPow b x fuel (k0 + 1)

/-- `Math.ceil (Math.log x / Math.log (1 + r))` for `r > 0`, `x > 1`
(source line 375): the least `k : ℕ` with `x ≤ (1 + r) ^ k`.  The fuel
dominates the answer because `(1 + r) ^ k ≥ 1 + k * r`. -/
def ceilLogMonths (r x : ℚ) : ℕ :=
  searchPow (1 + r) x ((⌊(x - 1) / r⌋).toNat + 2) 0

/-- The closed-form EMI formula `P * r * (1+r)^n / ((1+r)^n - 1)`
(source lines 265 and 388-389).  For `r = 0` the denominator is zero;
the source produces `NaN` there (the main entry point special-cases
`r = 0` before calling this, but the reduce-emi recomputation does not),
while this model yields `0` by the `ℚ` convention. -/
def emiFormulaQ (P r : ℚ) (n : ℕ) : ℚ :=
  P * r * (1 + r) ^ n / ((1 + r) ^ n - 1)

/-- Month increment of a recurring frequency (source lines 294-296:
monthly 1, quarterly 3, half-yearly 6, otherwise 12). -/
def monthIncrementOf : Frequency → ℤ
  | Frequency.monthly => 1
  | Frequency.quarterly => 3
  | Frequency.halfYearly => 6
  | _ => 12

/-- Sort/lookup key of an event: the absolute month of
`new Date(e.year, e.month - 1)`. -/
def eventDate (e : PPEvent) : ℤ := dateOf e.year e.month

/-- The `while (currentDate <= endDate)` expansion loop for a recurring
instruction (source lines 298-306), with explicit fuel.  Each emitted
event carries the calendar-normalized month/year of the current date. -/
def expandFrom (inc endD : ℤ) (amount : ℚ) (strategy : Strategy) :
    ℤ → ℕ → List PPEvent
  | _, 0 => []
  | d, fuel + 1 =>
    if d ≤ endD then
      { month := monthOf d, year := yearOf d, amount := amount,
        strategy := strategy } :: expandFrom inc endD amount strategy (d + inc) fuel
    else []

/-- Expansion of a single instruction (source lines 281-308).  A one-time
instruction contributes exactly its own event, with month/year taken
verbatim; a recurring instruction iterates from its start date to the
horizon end date `endD` (inclusive). -/
def expandPayment (endD : ℤ) (p : PartPayment) : List PPEvent :=
  match p.frequency with
  | Frequency.oneTime =>
    [{ month := p.month, year := p.year, amount := p.amount, strategy := p.strategy }]
  | f =>
    let startD := dateOf p.year p.month
    expandFrom (monthIncrementOf f) endD p.amount p.strategy startD
      ((endD - startD).toNat + 1)

/-- Expand all instructions and sort the events chronologically (source
lines 281-315; the JavaScript `sort` is stable, as is `mergeSort`). -/
def expandAllPayments (endD : ℤ) (pps : List PartPayment) : List PPEvent :=
  (pps.flatMap (expandPayment endD)).mergeSort
    (fun a b => decide (eventDate a ≤ eventDate b))

/-- One row of the amortization schedule. -/
structure ScheduleEntry where
  month : ℤ
  year : ℤ
  emiAmount : ℚ
  principalAmount : ℚ
  interestAmount : ℚ
  remainingBalance : ℚ
  partPayment : ℚ
deriving DecidableEq, Repr

/-- One element of the yearly chart roll-up. -/
structure ChartPoint where
  year : ℤ
  remainingBalance : ℚ
  principalPaid : ℚ
deriving DecidableEq, Repr

/-- The loop-carried state of the simulation (source lines 273-328):
all mutable locals of the `while` loop. -/
structure SimState where
  remainingBalance : ℚ
  totalInterestPaid : ℚ
  schedule : List ScheduleEntry
  chartData : List ChartPoint
  currentDate : ℤ
  monthCount : ℕ
  currentEMI : ℚ
  adjustedEndDate : Option ℤ
  principalPaidTotal : ℚ
deriving DecidableEq, Repr

/-- The loop-invariant context of the simulation: values fixed before the
`while` loop starts. -/
structure SimCtx where
  monthlyRate : ℚ
  totalMonths : ℚ
  originalEndDate : ℤ
  startYear : ℤ
  payments : List PPEvent
  hasReduceEMIPayments : Bool
deriving DecidableEq, Repr

/-- Adjusted-end-date update for a reduce-tenure month (source lines
373-377).  `none` models an `Invalid Date`: when `r = 0` or when the
installment does not cover the interest, the `Math.log` expression is
`NaN` and `setMonth(NaN)` invalidates the date. -/
def reduceTenureEnd (r emi bal : ℚ) (cur : ℤ) : Option ℤ :=
  if 0 < r ∧ bal * r < emi then
    some (cur + (ceilLogMonths r (emi / (emi - bal * r)) : ℤ))
  else none

/-- Installment recomputation for a reduce-emi month (source lines
384-393).  On an invalid adjusted end date every comparison with `NaN`
is false, so the installment is kept. -/
def reduceEmiRecalc (r emi bal : ℚ) (cur : ℤ) : Option ℤ → ℚ
  | none => emi
  | some d =>
    let remainingMonths := ceilDiv30 (daysBetweenMonths cur d)
    if 1 < remainingMonths ∧ 0 < bal then emiFormulaQ bal r remainingMonths.toNat
    else emi

/-- Does an expanded event land on the month being simulated
(source lines 339-341)? -/
def matchesMonth (y m : ℤ) (e : PPEvent) : Bool := e.year == y && e.month == m

/-- One iteration of the simulation loop (source lines 330-422). -/
def simStep (ctx : SimCtx) (s : SimState) : SimState :=
  let r := ctx.monthlyRate
  let cy := yearOf s.currentDate
  let cm := monthOf s.currentDate
  let interestAmount := s.remainingBalance * r
  let principal0 := s.currentEMI - interestAmount
  let ppm := ctx.payments.filter (matchesMonth cy cm)
  let partPaymentAmount := (ppm.map (fun e => e.amount)).sum
  let principalAmount :=
    if s.remainingBalance < principal0 then s.remainingBalance else principal0
  let emiForThisMonth :=
    if s.remainingBalance < principal0 then interestAmount + s.remainingBalance
    else s.currentEMI
  let effectivePartPayment :=
    min partPaymentAmount (max 0 (s.remainingBalance - principalAmount))
  let newBalance := s.remainingBalance - (principalAmount + effectivePartPayment)
  let hasReduceEMIPayment := ppm.any (fun e => e.strategy == Strategy.reduceEmi)
  let hasReduceTenurePayment := ppm.any (fun e => e.strategy == Strategy.reduceTenure)
  let adjEnd1 :=
    if 0 < partPaymentAmount ∧ hasReduceTenurePayment = true ∧ 0 < newBalance then
      reduceTenureEnd r s.currentEMI newBalance s.currentDate
    else s.adjustedEndDate
  let emi1 :=
    if 0 < partPaymentAmount ∧ hasReduceEMIPayment = true then
      reduceEmiRecalc r s.currentEMI newBalance s.currentDate adjEnd1
    else s.currentEMI
  let newPPT := s.principalPaidTotal + (principalAmount + effectivePartPayment)
  let entry : ScheduleEntry :=
    { month := cm, year := cy, emiAmount := emiForThisMonth,
      principalAmount := principalAmount, interestAmount := interestAmount,
      remainingBalance := max 0 newBalance, partPayment := partPaymentAmount }
  let chart1 :=
    if cm = 12 ∨ newBalance ≤ 1 / 100 then
      s.chartData ++ [{ year := cy - ctx.startYear + 1,
                        remainingBalance := max 0 newBalance,
                        principalPaid := newPPT }]
    else s.chartData
  { remainingBalance := newBalance
    totalInterestPaid := s.totalInterestPaid + interestAmount
    schedule := s.schedule ++ [entry]
    chartData := chart1
    currentDate := s.currentDate + 1
    monthCount := s.monthCount + 1
    currentEMI := emi1
    adjustedEndDate := adjEnd1
    principalPaidTotal := newPPT }

/-- The loop guard (source line 330): balance above the epsilon, and the
mode-dependent iteration bound. -/
def simGuard (ctx : SimCtx) (s : SimState) : Bool :=
  decide (1 / 100 < s.remainingBalance) &&
    (if ctx.hasReduceEMIPayments then decide (s.currentDate < ctx.originalEndDate)
     else decide ((s.monthCount : ℚ) < ctx.totalMonths))

/-- Fuel-indexed iteration of the loop. -/
def simRun (ctx : SimCtx) : ℕ → SimState → SimState
  | 0, s => s
  | fuel + 1, s => if simGuard ctx s then simRun ctx fuel (simStep ctx s) else s

/-- Input validation (source lines 229-243).  Finiteness checks are
vacuous over `ℚ`; `Number.isInteger` is `den = 1`. -/
def validateLoan (principal annualRate tenureYears startMonth startYear : ℚ) :
    Option String :=
  if principal ≤ 0 then some "Principal must be a positive number"
  else if annualRate < 0 then some "Annual rate must be a non-negative number"
  else if tenureYears ≤ 0 then some "Tenure must be a positive number"
  else if startMonth < 1 ∨ 12 < startMonth ∨ startMonth.den ≠ 1 then
    some "Start month must be an integer between 1 and 12"
  else if startYear.den ≠ 1 ∨ startYear < 1900 ∨ 2200 < startYear then
    some "Start year must be a valid year"
  else none

/-- Nominal EMI computation with overflow guard and final sanity check
(source lines 255-271).  The dedicated error for a fractional exponent
marks the model boundary described in the file header. -/
def computeEmi (safeP r tm : ℚ) : Except String ℚ :=
  (if r = 0 then Except.ok (safeP / tm)
   else if tm.den = 1 then
     let factor := (1 + r) ^ tm.num.toNat
     if factor ≤ 1 then
       Except.error "Invalid calculation parameters - values cause mathematical overflow"
     else Except.ok (safeP * r * factor / (factor - 1))
   else Except.error "model: fractional month exponent not representable").bind
    (fun emi =>
      if emi ≤ 0 then Except.error "Invalid EMI calculation result"
      else Except.ok emi)

/-- The monthly rate after the 100 percent cap (source lines 247, 250). -/
def loanMonthlyRate (annualRate : ℚ) : ℚ := min annualRate 100 / 12 / 100

/-- Total months after the 50-year cap (source lines 248, 251). -/
def loanTotalMonths (tenureYears : ℚ) : ℚ := min tenureYears 50 * 12

/-- Absolute month of the loan start date (source line 317). -/
def loanStartDate (startMonth startYear : ℚ) : ℤ := dateOf ⌊startYear⌋ ⌊startMonth⌋

/-- Absolute month of the original nominal end date (source lines
321-322; `setMonth` truncates a fractional month count). -/
def loanOriginalEnd (tenureYears startMonth startYear : ℚ) : ℤ :=
  loanStartDate startMonth startYear + ⌊loanTotalMonths tenureYears⌋

/-- Horizon end date of the part-payment expander (source line 283:
built from the uncapped tenure; the `Date` constructor truncates a
fractional year). -/
def loanExpandEnd (tenureYears startMonth startYear : ℚ) : ℤ :=
  dateOf ⌊startYear + tenureYears⌋ ⌊startMonth⌋

/-- The sorted expanded part-payment events of a loan. -/
def loanEvents (tenureYears startMonth startYear : ℚ)
    (pps : List PartPayment) : List PPEvent :=
  expandAllPayments (loanExpandEnd tenureYears startMonth startYear) pps

/-- The loop context of a loan (source lines 317-328). -/
def loanCtx (annualRate tenureYears startMonth startYear : ℚ)
    (pps : List PartPayment) : SimCtx :=
  { monthlyRate := loanMonthlyRate annualRate
    totalMonths := loanTotalMonths tenureYears
    originalEndDate := loanOriginalEnd tenureYears startMonth startYear
    startYear := ⌊startYear⌋
    payments := loanEvents tenureYears startMonth startYear pps
    hasReduceEMIPayments :=
      (loanEvents tenureYears startMonth startYear pps).any
        (fun e => e.strategy == Strategy.reduceEmi) }

/-- The initial loop state (source lines 273-328). -/
def loanInitState (principal tenureYears startMonth startYear emi : ℚ) : SimState :=
  { remainingBalance := min principal 1000000000000
    totalInterestPaid := 0
    schedule := []
    chartData := []
    currentDate := loanStartDate startMonth startYear
    monthCount := 0
    currentEMI := emi
    adjustedEndDate := some (loanOriginalEnd tenureYears startMonth startYear)
    principalPaidTotal := 0 }

/-- Fuel dominating both iteration bounds of the loop. -/
def loanFuel (tenureYears : ℚ) : ℕ := (⌊loanTotalMonths tenureYears⌋).toNat + 1

/-- The result record returned to callers. -/
structure LoanCalculationResult where
  emi : ℚ
  totalInterest : ℚ
  totalAmount : ℚ
  schedule : List ScheduleEntry
  chartData : List ChartPoint
deriving DecidableEq, Repr

/-- The full engine entry point `calculateLoanEMI` (source lines
220-432): validation, caps, nominal EMI, expansion, simulation, result. -/
def calculateLoanEMI (principal annualRate tenureYears startMonth startYear : ℚ)
    (partPayments : List PartPayment) : Except String LoanCalculationResult :=
  match validateLoan principal annualRate tenureYears startMonth startYear with
  | some msg => Except.error msg
  | none =>
    (computeEmi (min principal 1000000000000) (loanMonthlyRate annualRate)
        (loanTotalMonths tenureYears)).bind (fun emi =>
      let fin := simRun (loanCtx annualRate tenureYears startMonth startYear partPayments)
        (loanFuel tenureYears)
        (loanInitState principal tenureYears startMonth startYear emi)
      Except.ok
        { emi := emi
          totalInterest := fin.totalInterestPaid
          totalAmount := min principal 1000000000000 + fin.totalInterestPaid
          schedule := fin.schedule
          chartData := fin.chartData })

/-- Per-scenario results consumed by the comparator
(`ScenarioResult` in `LoanComparisonSection`). -/
structure ScenarioResult where
  emi : ℚ
  totalInterest : ℚ
  totalAmount : ℚ
  tenureMonths : ℚ
deriving DecidableEq, Repr

/-- `Math.min` over a non-empty list of values. -/
def listMin : List ℚ → ℚ
  | [] => 0
  | x :: xs => xs.foldl min x

/-- `Math.max` over a non-empty list of values. -/
def listMax : List ℚ → ℚ
  | [] => 0
  | x :: xs => xs.foldl max x

/-- Min-max normalization of one metric value to the 0-100 scale where the
minimum scores 100 (comparator source lines 211-213). -/
def normScore (mn mx x : ℚ) : ℚ :=
  if mx = mn then 100 else 100 - (x - mn) / (mx - mn) * 100

/-- The three normalized sub-scores of one scenario against the compared
population. -/
def subScores (rs : List ScenarioResult) (r : ScenarioResult) : ℚ × ℚ × ℚ :=
  (normScore (listMin (rs.map ScenarioResult.emi)) (listMax (rs.map ScenarioResult.emi)) r.emi,
   normScore (listMin (rs.map ScenarioResult.totalInterest))
     (listMax (rs.map ScenarioResult.totalInterest)) r.totalInterest,
   normScore (listMin (rs.map ScenarioResult.tenureMonths))
     (listMax (rs.map ScenarioResult.tenureMonths)) r.tenureMonths)

/-- Weighted fitness score of one scenario (comparator source line 216:
EMI 30 percent, interest 50 percent, tenure 20 percent). -/
def weightedScore (rs : List ScenarioResult) (r : ScenarioResult) : ℚ :=
  let sc := subScores rs r
  sc.1 * (3 / 10) + sc.2.1 * (5 / 10) + sc.2.2 * (2 / 10)

/-- All weighted scores, in scenario insertion order. -/
def weightedScores (rs : List ScenarioResult) : List ℚ :=
  rs.map (weightedScore rs)

/-- Winner selection (comparator source lines 224-233): start from the
first scenario and replace only on a strictly higher score, so ties keep
the earliest scenario. -/
def pickWinner (scores : List ℚ) : ℕ :=
  (scores.enum.foldl
    (fun best p => if best.2 < p.2 then p else best)
    (0, scores.headD 0)).1

/-- Employment-type multiplier table of the affordability estimator. -/
inductive EmploymentType where
  | salaried
  | selfEmployed
  | businessOwner
deriving DecidableEq, Repr

/-- `employmentMultipliers` (affordability source lines 21-25). -/
def employmentMultiplier : EmploymentType → ℚ
  | EmploymentType.salaried => 1
  | EmploymentType.selfEmployed => 85 / 100
  | EmploymentType.businessOwner => 9 / 10

/-- `getCreditScoreMultiplier` (affordability source lines 27-33). -/
def getCreditScoreMultiplier (score : ℚ) : ℚ :=
  if 800 ≤ score then 11 / 10
  else if 750 ≤ score then 1
  else if 700 ≤ score then 9 / 10
  else if 650 ≤ score then 8 / 10
  else 7 / 10

/-- Intermediate and final values of the affordability computation. -/
structure AffordabilityOutputs where
  maxEMI : ℚ
  baseLoanAmount : ℚ
  incomeBasedEligibility : ℚ
  ltvLimit : ℚ
  eligibleAmount : ℤ
deriving DecidableEq, Repr

/-- The affordability computation (`LoanAffordabilityCalculator` source
lines 56-89).  Note the zero-rate guard: with `monthlyRate = 0` the
reversed-EMI branch is skipped and `baseLoanAmount` stays 0.
`Math.round x` is modelled as `⌊x + 1/2⌋`. -/
def affordability (grossIncome : ℚ) (tenure : ℕ) (interestRate otherEMIs : ℚ)
    (hasCreditScore : Bool) (creditScore : ℚ) (employmentType : EmploymentType)
    (propertyValue : ℚ) : AffordabilityOutputs :=
  let baseFOIR : ℚ := 5 / 10
  let maxAllowedEMI := grossIncome * baseFOIR
  let availableForNewEMI := max 0 (maxAllowedEMI - otherEMIs)
  let monthlyRate := interestRate / 100 / 12
  let months := 12 * tenure
  let baseLoanAmount :=
    if 0 < monthlyRate ∧ 0 < months ∧ 0 < availableForNewEMI then
      availableForNewEMI * ((1 + monthlyRate) ^ months - 1) /
        (monthlyRate * (1 + monthlyRate) ^ months)
    else 0
  let creditMultiplier := if hasCreditScore then getCreditScoreMultiplier creditScore else 1
  let incomeBasedEligibility :=
    baseLoanAmount * creditMultiplier * employmentMultiplier employmentType
  let ltvRatio : ℚ := if hasCreditScore = true ∧ 750 ≤ creditScore then 85 / 100 else 75 / 100
  let ltvBasedLimit := propertyValue * ltvRatio
  { maxEMI := availableForNewEMI
    baseLoanAmount := baseLoanAmount
    incomeBasedEligibility := incomeBasedEligibility
    ltvLimit := ltvBasedLimit
    eligibleAmount := ⌊max 0 (min incomeBasedEligibility ltvBasedLimit) + 1 / 2⌋ }

/-! ## Basic run lemmas -/

theorem simRun_succ_of_guard {ctx : SimCtx} {s : SimState} {n : ℕ}
    (h : simGuard ctx s = true) :
    simRun ctx (n + 1) s = simRun ctx n (simStep ctx s) := by
  simp [simRun, h]

theorem simRun_stop {ctx : SimCtx} {s : SimState}
    (h : simGuard ctx s = false) : ∀ n, simRun ctx n s = s := by
  intro n
  cases n with
  | zero => rfl
  | succ n => simp [simRun, h]

theorem simStep_monthCount (ctx : SimCtx) (s : SimState) :
    (simStep ctx s).monthCount = s.monthCount + 1 := rfl

theorem simStep_currentDate (ctx : SimCtx) (s : SimState) :
    (simStep ctx s).currentDate = s.currentDate + 1 := rfl

theorem simStep_schedule_length (ctx : SimCtx) (s : SimState) :
    (simStep ctx s).schedule.length = s.schedule.length + 1 := by
  show (s.schedule ++ [_]).length = s.schedule.length + 1
  simp

theorem simRun_schedule_length (ctx : SimCtx) :
    ∀ (f : ℕ) (s : SimState), (simRun ctx f s).schedule.length + s.monthCount =
      (simRun ctx f s).monthCount + s.schedule.length := by
  intro f
  induction f with
  | zero => intro s; simp [simRun]; omega
  | succ f ih =>
    intro s
    by_cases h : simGuard ctx s = true
    · rw [simRun_succ_of_guard h]
      have := ih (simStep ctx s)
      rw [simStep_monthCount, simStep_schedule_length] at this
      omega
    · rw [simRun_stop (by simpa using h)]
      omega

theorem simRun_monthCount_le {ctx : SimCtx} :
    ∀ (f : ℕ) (s : SimState), s.monthCount ≤ (simRun ctx f s).monthCount := by
  intro f
  induction f with
  | zero => intro s; simp [simRun]
  | succ f ih =>
    intro s
    by_cases h : simGuard ctx s = true
    · rw [simRun_succ_of_guard h]
      have := ih (simStep ctx s)
      rw [simStep_monthCount] at this
      omega
    · rw [simRun_stop (by simpa using h)]

theorem simRun_currentDate_eq (ctx : SimCtx) :
    ∀ (f : ℕ) (s : SimState), (simRun ctx f s).currentDate + (s.monthCount : ℤ) =
      s.currentDate + ((simRun ctx f s).monthCount : ℤ) := by
  intro f
  induction f with
  | zero => intro s; simp [simRun]
  | succ f ih =>
    intro s
    by_cases h : simGuard ctx s = true
    · rw [simRun_succ_of_guard h]
      have := ih (simStep ctx s)
      rw [simStep_monthCount, simStep_currentDate] at this
      push_cast at this ⊢
      omega
    · rw [simRun_stop (by simpa using h)]

theorem simGuard_false_of_balance {ctx : SimCtx} {s : SimState}
    (h : s.remainingBalance ≤ 1 / 100) : simGuard ctx s = false := by
  simp only [simGuard, Bool.and_eq_false_iff, decide_eq_false_iff_not]
  left
  exact not_lt.mpr h

/-- A false guard means the balance fell to the epsilon or the
mode-dependent bound was exhausted. -/
theorem simGuard_false_iff (ctx : SimCtx) (s : SimState) :
    simGuard ctx s = false ↔ (s.remainingBalance ≤ 1 / 100 ∨
      (ctx.hasReduceEMIPayments = true ∧ ctx.originalEndDate ≤ s.currentDate) ∨
      (ctx.hasReduceEMIPayments = false ∧ ctx.totalMonths ≤ (s.monthCount : ℚ))) := by
  cases hm : ctx.hasReduceEMIPayments with
  | false =>
    simp only [simGuard, hm, Bool.false_eq_true, if_false, Bool.and_eq_false_iff,
      decide_eq_false_iff_not, not_lt, Bool.true_eq_false, false_and, false_or, and_true,
      true_and]
  | true =>
    simp only [simGuard, hm, if_true, Bool.and_eq_false_iff, decide_eq_false_iff_not,
      not_lt, Bool.true_eq_false, false_and, or_false, and_true, true_and]

/-- In counter mode (no reduce-emi event anywhere), the guard forces
`monthCount < totalMonths`, so enough fuel exhausts the guard. -/
theorem simRun_guard_false_counter {ctx : SimCtx}
    (hmode : ctx.hasReduceEMIPayments = false) :
    ∀ (f : ℕ) (s : SimState), ⌊ctx.totalMonths⌋ < (f : ℤ) + (s.monthCount : ℤ) →
      simGuard ctx (simRun ctx f s) = false := by
  intro f
  induction f with
  | zero =>
    intro s hf
    simp only [simRun]
    rw [simGuard_false_iff]
    right; right
    refine ⟨hmode, ?_⟩
    have h1 : (⌊ctx.totalMonths⌋ : ℚ) + 1 ≤ (s.monthCount : ℚ) := by
      exact_mod_cast (by omega : ⌊ctx.totalMonths⌋ + 1 ≤ (s.monthCount : ℤ))
    have h2 := Int.lt_floor_add_one ctx.totalMonths
    linarith
  | succ f ih =>
    intro s hf
    by_cases h : simGuard ctx s = true
    · rw [simRun_succ_of_guard h]
      apply ih
      rw [simStep_monthCount]
      push_cast at hf ⊢
      omega
    · rw [simRun_stop (by simpa using h)]
      simpa using h

/-- In date mode (a reduce-emi event exists), the guard forces
`currentDate < originalEndDate`, so enough fuel exhausts the guard. -/
theorem simRun_guard_false_date {ctx : SimCtx}
    (hmode : ctx.hasReduceEMIPayments = true) :
    ∀ (f : ℕ) (s : SimState), ctx.originalEndDate ≤ (f : ℤ) + s.currentDate →
      simGuard ctx (simRun ctx f s) = false := by
  intro f
  induction f with
  | zero =>
    intro s hf
    simp only [simRun]
    rw [simGuard_false_iff]
    right; left
    refine ⟨hmode, ?_⟩
    omega
  | succ f ih =>
    intro s hf
    by_cases h : simGuard ctx s = true
    · rw [simRun_succ_of_guard h]
      apply ih
      rw [simStep_currentDate]
      push_cast at hf ⊢
      omega
    · rw [simRun_stop (by simpa using h)]
      simpa using h

/-! ## Validation characterization -/

theorem validateLoan_eq_none_iff (P rate t sm sy : ℚ) :
    validateLoan P rate t sm sy = none ↔
      (0 < P ∧ 0 ≤ rate ∧ 0 < t ∧ 1 ≤ sm ∧ sm ≤ 12 ∧ sm.den = 1 ∧
        sy.den = 1 ∧ 1900 ≤ sy ∧ 2200 ≥ sy) := by
  unfold validateLoan
  split_ifs with h1 h2 h3 h4 h5
  · simp only [reduceCtorEq, false_iff]
    intro h
    exact absurd h.1 (not_lt.mpr h1)
  · simp only [reduceCtorEq, false_iff]
    intro h
    exact absurd h.2.1 (not_le.mpr h2)
  · simp only [reduceCtorEq, false_iff]
    intro h
    exact absurd h.2.2.1 (not_lt.mpr h3)
  · simp only [reduceCtorEq, false_iff]
    intro h
    rcases h4 with h4 | h4 | h4
    · exact absurd h.2.2.2.1 (not_le.mpr h4)
    · exact absurd h.2.2.2.2.1 (not_le.mpr h4)
    · exact h4 h.2.2.2.2.2.1
  · simp only [reduceCtorEq, false_iff]
    intro h
    rcases h5 with h5 | h5 | h5
    · exact h5 h.2.2.2.2.2.2.1
    · exact absurd h.2.2.2.2.2.2.2.1 (not_le.mpr h5)
    · exact absurd h.2.2.2.2.2.2.2.2 (not_le.mpr h5)
  · simp only [true_iff]
    push_neg at h1 h2 h3 h4 h5
    exact ⟨h1, h2, h3, h4.1, h4.2.1, h4.2.2, h5.1, h5.2.1, h5.2.2⟩

theorem loanTotalMonths_pos {t : ℚ} (h : 0 < t) : 0 < loanTotalMonths t := by
  unfold loanTotalMonths
  have : 0 < min t 50 := lt_min h (by norm_num)
  linarith

theorem loanMonthlyRate_pos {rate : ℚ} (h : 0 < rate) : 0 < loanMonthlyRate rate := by
  unfold loanMonthlyRate
  have : 0 < min rate 100 := lt_min h (by norm_num)
  linarith

theorem loanMonthlyRate_zero : loanMonthlyRate 0 = 0 := by
  norm_num [loanMonthlyRate, min_def]

/-- For validated inputs (and integral total months when the rate is
positive) the EMI computation succeeds. -/
theorem computeEmi_ok {P rate t : ℚ} (hP : 0 < P) (hr : 0 ≤ rate) (ht : 0 < t)
    (hmodel : rate = 0 ∨ (loanTotalMonths t).den = 1) :
    ∃ emi, computeEmi (min P 1000000000000) (loanMonthlyRate rate)
      (loanTotalMonths t) = Except.ok emi ∧ 0 < emi := by
  have hsafeP : 0 < min P 1000000000000 := lt_min hP (by norm_num)
  have htm : 0 < loanTotalMonths t := loanTotalMonths_pos ht
  rcases eq_or_lt_of_le hr with hr0 | hrpos
  · refine ⟨min P 1000000000000 / loanTotalMonths t, ?_, div_pos hsafeP htm⟩
    rw [← hr0, loanMonthlyRate_zero]
    have hemi : ¬ (min P 1000000000000 / loanTotalMonths t ≤ 0) :=
      not_le.mpr (div_pos hsafeP htm)
    simp [computeEmi, Except.bind, hemi]
  · have hrq : 0 < loanMonthlyRate rate := loanMonthlyRate_pos hrpos
    have hden : (loanTotalMonths t).den = 1 := by
      rcases hmodel with h | h
      · exact absurd h.symm (ne_of_lt hrpos)
      · exact h
    have hnum : 1 ≤ (loanTotalMonths t).num := Rat.num_pos.mpr htm
    have hne : (loanTotalMonths t).num.toNat ≠ 0 := by omega
    have hfac : 1 < (1 + loanMonthlyRate rate) ^ (loanTotalMonths t).num.toNat :=
      one_lt_pow₀ (by linarith) hne
    set factor := (1 + loanMonthlyRate rate) ^ (loanTotalMonths t).num.toNat with hfdef
    have hemi : 0 < min P 1000000000000 * loanMonthlyRate rate * factor / (factor - 1) :=
      div_pos (mul_pos (mul_pos hsafeP hrq) (by linarith)) (by linarith)
    refine ⟨_, ?_, hemi⟩
    rw [computeEmi]
    rw [if_neg (ne_of_gt hrq), if_pos hden]
    simp only [← hfdef]
    rw [if_neg (not_le.mpr hfac)]
    simp [Except.bind, not_le.mpr hemi]

/-- C6 counterexample: `tenureYears = 1/10` gives `n = 1.2` total months,
not a positive integer, yet `calculateLoanEMI` returns normally (with
rate 0, principal 1000, start 1/2024, no part payments). -/
theorem c6_counterexample :
    (calculateLoanEMI 1000 0 (1/10) 1 2024 []).isOk = true ∧
      (loanTotalMonths (1/10)).den ≠ 1 := by
  constructor
  · have h : ∃ emi, computeEmi (min 1000 1000000000000) (loanMonthlyRate 0)
        (loanTotalMonths (1/10)) = Except.ok emi ∧ 0 < emi :=
      computeEmi_ok (by norm_num) le_rfl (by norm_num) (Or.inl rfl)
    rcases h with ⟨emi, hemi, _⟩
    rw [calculateLoanEMI]
    rw [show validateLoan 1000 0 (1/10) 1 2024 = none from
      (validateLoan_eq_none_iff _ _ _ _ _).mpr (by norm_num)]
    rw [hemi]
    rfl
  · norm_num [loanTotalMonths, min_def]

/-- C6 (amended): for validated-domain questions over the rational model
(restricted to an integral month count when the rate is positive),
`calculateLoanEMI` reports an error exactly when the principal is not
positive, the rate is negative, the tenure is not positive, the start
month is not an integer in 1..12, or the start year is not an integer in
1900..2200.  Integrality of the term is not required, and the factor
guard never fires after bounding. -/
theorem c6_amended (P rate t sm sy : ℚ) (pps : List PartPayment)
    (hmodel : rate = 0 ∨ (loanTotalMonths t).den = 1) :
    (∃ msg, calculateLoanEMI P rate t sm sy pps = Except.error msg) ↔
      (P ≤ 0 ∨ rate < 0 ∨ t ≤ 0 ∨ sm < 1 ∨ 12 < sm ∨ sm.den ≠ 1 ∨
        sy.den ≠ 1 ∨ sy < 1900 ∨ 2200 < sy) := by
  cases hv : validateLoan P rate t sm sy with
  | some msg =>
    have hnotnone : ¬ (0 < P ∧ 0 ≤ rate ∧ 0 < t ∧ 1 ≤ sm ∧ sm ≤ 12 ∧ sm.den = 1 ∧
        sy.den = 1 ∧ 1900 ≤ sy ∧ 2200 ≥ sy) := by
      intro hc
      rw [← validateLoan_eq_none_iff] at hc
      rw [hv] at hc
      exact Option.some_ne_none msg hc
    constructor
    · intro _
      by_contra hdisj
      push_neg at hdisj
      exact hnotnone ⟨hdisj.1, hdisj.2.1, hdisj.2.2.1, hdisj.2.2.2.1, hdisj.2.2.2.2.1,
        hdisj.2.2.2.2.2.1, hdisj.2.2.2.2.2.2.1, hdisj.2.2.2.2.2.2.2.1,
        hdisj.2.2.2.2.2.2.2.2⟩
    · intro _
      exact ⟨msg, by rw [calculateLoanEMI, hv]⟩
  | none =>
    have hval := (validateLoan_eq_none_iff P rate t sm sy).mp hv
    obtain ⟨hP, hr, ht, hsm1, hsm2, hsmd, hsyd, hsy1, hsy2⟩ := hval
    rcases computeEmi_ok (t := t) hP hr ht hmodel with ⟨emi, hemi, _⟩
    constructor
    · rintro ⟨msg, hmsg⟩
      rw [calculateLoanEMI, hv, hemi] at hmsg
      exact absurd hmsg (by simp [Except.bind])
    · intro hdisj
      rcases hdisj with h | h | h | h | h | h | h | h | h
      · exact absurd hP (not_lt.mpr h)
      · exact absurd hr (not_le.mpr h)
      · exact absurd ht (not_lt.mpr h)
      · exact absurd hsm1 (not_le.mpr h)
      · exact absurd hsm2 (not_le.mpr h)
      · exact absurd hsmd h
      · exact absurd hsyd h
      · exact absurd hsy1 (not_le.mpr h)
      · exact absurd hsy2 (not_le.mpr h)

theorem c6_amended_witness :
    ((0 : ℚ) = 0 ∨ (loanTotalMonths 10).den = 1) ∧
      ((∃ msg, calculateLoanEMI (-5) 0 10 1 2024 [] = Except.error msg) ↔
        ((-5 : ℚ) ≤ 0 ∨ (0 : ℚ) < 0 ∨ (10 : ℚ) ≤ 0 ∨ (1 : ℚ) < 1 ∨ 12 < (1 : ℚ) ∨
          (1 : ℚ).den ≠ 1 ∨ (2024 : ℚ).den ≠ 1 ∨ (2024 : ℚ) < 1900 ∨ 2200 < (2024 : ℚ))) :=
  ⟨Or.inl rfl, c6_amended (-5) 0 10 1 2024 [] (Or.inl rfl)⟩

/-- C8 counterexample: at rate 0 with income 2000 (so 1000 available for
the new installment) and tenure 20 years, the code leaves
`baseLoanAmount = 0`, while the claimed zero-rate inversion demands
`1000 * 240 = 240000`. -/
theorem c8_counterexample :
    (affordability 2000 20 0 0 false 750 EmploymentType.salaried 5000000).baseLoanAmount
        = 0 ∧ (0 : ℚ) ≠ 240000 := by
  constructor
  · norm_num [affordability]
  · norm_num

/-- C8 (amended): the affordability estimator inverts the EMI formula
only on the guarded branch: for positive rate, positive tenure and
positive available installment, `baseLoanAmount` is the closed-form
inversion (and feeding it back through the EMI formula returns the
available installment); for rate 0 the guard fails and `baseLoanAmount`
is 0 rather than the zero-rate inversion. -/
theorem c8_amended (grossIncome : ℚ) (tenure : ℕ) (rate otherEMIs : ℚ)
    (hasSc : Bool) (sc : ℚ) (emp : EmploymentType) (pv : ℚ) :
    (rate = 0 →
      (affordability grossIncome tenure rate otherEMIs hasSc sc emp pv).baseLoanAmount = 0) ∧
    (0 < rate → 0 < tenure → 0 < max 0 (grossIncome * (5 / 10) - otherEMIs) →
      (affordability grossIncome tenure rate otherEMIs hasSc sc emp pv).baseLoanAmount =
        max 0 (grossIncome * (5 / 10) - otherEMIs) *
          ((1 + rate / 100 / 12) ^ (12 * tenure) - 1) /
          (rate / 100 / 12 * (1 + rate / 100 / 12) ^ (12 * tenure)) ∧
      emiFormulaQ
        ((affordability grossIncome tenure rate otherEMIs hasSc sc emp pv).baseLoanAmount)
        (rate / 100 / 12) (12 * tenure) =
        max 0 (grossIncome * (5 / 10) - otherEMIs)) := by
  constructor
  · intro h0
    simp only [affordability, h0]
    norm_num
  · intro hr ht havail
    have hrm : 0 < rate / 100 / 12 := by positivity
    have hm : 0 < 12 * tenure := by omega
    have hbase :
        (affordability grossIncome tenure rate otherEMIs hasSc sc emp pv).baseLoanAmount =
          max 0 (grossIncome * (5 / 10) - otherEMIs) *
            ((1 + rate / 100 / 12) ^ (12 * tenure) - 1) /
            (rate / 100 / 12 * (1 + rate / 100 / 12) ^ (12 * tenure)) := by
      simp only [affordability]
      rw [if_pos ⟨hrm, hm, havail⟩]
    refine ⟨hbase, ?_⟩
    have hfac : 1 < (1 + rate / 100 / 12) ^ (12 * tenure) :=
      one_lt_pow₀ (by linarith) (by omega)
    rw [hbase, emiFormulaQ]
    set R := rate / 100 / 12 with hR
    set F := (1 + R) ^ (12 * tenure) with hF
    have h1 : F - 1 ≠ 0 := by
      rw [hF]
      intro hc
      rw [sub_eq_zero] at hc
      exact absurd hc.symm (ne_of_lt hfac)
    have h2 : R ≠ 0 := ne_of_gt hrm
    have h3 : F ≠ 0 := by
      rw [hF]
      positivity
    field_simp
    ring

theorem c8_amended_witness :
    (0 : ℚ) < 17 / 2 ∧ 0 < 20 ∧ (0 : ℚ) < max 0 (100000 * (5 / 10) - 0) ∧
      ((affordability 100000 20 (17 / 2) 0 false 750 EmploymentType.salaried
          5000000).baseLoanAmount =
        max 0 ((100000 : ℚ) * (5 / 10) - 0) *
          ((1 + (17 / 2) / 100 / 12) ^ (12 * 20) - 1) /
          ((17 / 2) / 100 / 12 * (1 + (17 / 2) / 100 / 12) ^ (12 * 20)) ∧
      emiFormulaQ
        ((affordability 100000 20 (17 / 2) 0 false 750 EmploymentType.salaried
          5000000).baseLoanAmount) ((17 / 2) / 100 / 12) (12 * 20) =
        max 0 ((100000 : ℚ) * (5 / 10) - 0)) :=
  ⟨by norm_num, by norm_num, by norm_num,
    (c8_amended 100000 20 (17 / 2) 0 false 750 EmploymentType.salaried 5000000).2
      (by norm_num) (by norm_num) (by norm_num)⟩

/-! ## Expander lemmas -/

theorem mem_expandFrom {inc endD : ℤ} {amt : ℚ} {st : Strategy} (hinc : 1 ≤ inc) :
    ∀ (fuel : ℕ) (d0 : ℤ), (endD - d0).toNat < fuel → ∀ e : PPEvent,
      (e ∈ expandFrom inc endD amt st d0 fuel ↔ ∃ k : ℕ,
        d0 + inc * k ≤ endD ∧
        e = { month := monthOf (d0 + inc * k), year := yearOf (d0 + inc * k),
              amount := amt, strategy := st }) := by
  have hnil : ∀ (fuel : ℕ) (d : ℤ), ¬ d ≤ endD → expandFrom inc endD amt st d fuel = [] := by
    intro fuel d hd
    cases fuel with
    | zero => rfl
    | succ fuel => rw [expandFrom, if_neg hd]
  have hempty : ∀ (d : ℤ), ¬ d ≤ endD → ∀ e : PPEvent, ¬ ∃ k : ℕ,
      d + inc * k ≤ endD ∧
      e = { month := monthOf (d + inc * k), year := yearOf (d + inc * k),
            amount := amt, strategy := st } := by
    rintro d hd e ⟨k, hk, -⟩
    have hk0 : (0 : ℤ) ≤ inc * k := mul_nonneg (by linarith) (by positivity)
    exact hd (by linarith)
  intro fuel
  induction fuel with
  | zero =>
    intro d0 h
    exact absurd h (by omega)
  | succ fuel ih =>
    intro d0 h e
    by_cases hd : d0 ≤ endD
    · rw [expandFrom, if_pos hd]
      have hrest : e ∈ expandFrom inc endD amt st (d0 + inc) fuel ↔ ∃ k : ℕ,
          (d0 + inc) + inc * k ≤ endD ∧
          e = { month := monthOf ((d0 + inc) + inc * k),
                year := yearOf ((d0 + inc) + inc * k),
                amount := amt, strategy := st } := by
        by_cases hd2 : d0 + inc ≤ endD
        · apply ih
          have h0 : 0 ≤ endD - d0 := sub_nonneg.mpr hd
          have h2 : 0 ≤ endD - (d0 + inc) := sub_nonneg.mpr hd2
          have hlt : endD - d0 < (fuel : ℤ) + 1 := by
            rw [← Int.toNat_of_nonneg h0]
            exact_mod_cast h
          rw [Int.toNat_lt h2]
          linarith
        · rw [hnil fuel _ hd2]
          simp only [List.not_mem_nil, false_iff]
          exact hempty _ hd2 e
      simp only [List.mem_cons, hrest]
      constructor
      · rintro (he | ⟨k, hk, he⟩)
        · exact ⟨0, by simpa using hd, by simpa using he⟩
        · exact ⟨k + 1, by push_cast; push_cast at hk; linarith,
            by rw [he]; congr 1 <;> push_cast <;> ring_nf⟩
      · rintro ⟨k, hk, he⟩
        cases k with
        | zero => left; rw [he]; simp
        | succ k =>
          right
          refine ⟨k, by push_cast; push_cast at hk; linarith, ?_⟩
          rw [he]
          congr 1 <;> push_cast <;> ring_nf
    · rw [hnil _ _ hd]
      simp only [List.not_mem_nil, false_iff]
      exact hempty _ hd e

theorem expandAllPayments_pairwise (endD : ℤ) (pps : List PartPayment) :
    (expandAllPayments endD pps).Pairwise (fun a b => eventDate a ≤ eventDate b) := by
  have h := @List.sorted_mergeSort PPEvent
    (fun a b : PPEvent => decide (eventDate a ≤ eventDate b))
    (fun a b c hab hbc => by
      simp only [decide_eq_true_eq] at hab hbc ⊢
      exact le_trans hab hbc)
    (fun a b => by
      simp only [Bool.or_eq_true, decide_eq_true_eq]
      exact le_total _ _)
    (pps.flatMap (expandPayment endD))
  unfold expandAllPayments
  exact h.imp (fun hab => by simpa using hab)

/-- A one-time instruction dated far beyond the loan horizon, and its
expanded event (inputs of the C9 counterexample). -/
def c9OutsidePP : PartPayment :=
  { month := 6, year := 2090, amount := 1, frequency := Frequency.oneTime,
    strategy := Strategy.reduceTenure }

/-- The event produced for `c9OutsidePP`. -/
def c9OutsideEvent : PPEvent :=
  { month := 6, year := 2090, amount := 1, strategy := Strategy.reduceTenure }

/-- C9 counterexample: a one-time instruction dated June 2090 on a loan
starting Jan 2024 with a one-year horizon is expanded into an event
strictly beyond the loan horizon (so not every produced event lies
within the horizon). -/
theorem c9_counterexample :
    loanEvents 1 1 2024 [c9OutsidePP] = [c9OutsideEvent] ∧
      loanExpandEnd 1 1 2024 < eventDate c9OutsideEvent := by
  constructor
  · unfold loanEvents expandAllPayments
    rw [show [c9OutsidePP].flatMap (expandPayment (loanExpandEnd 1 1 2024)) =
      [c9OutsideEvent] from rfl]
    rw [List.mergeSort_of_sorted (List.pairwise_singleton _ _)]
  · norm_num [loanExpandEnd, eventDate, dateOf, c9OutsideEvent]

/-- C9 (amended): the expander yields exactly one verbatim event for a
one-time instruction (even when it lies outside the loan horizon); a
recurring instruction yields exactly the events at its start date and
every 1/3/6/12 months after it (monthly / quarterly / half-yearly /
yearly) up to the horizon end date inclusive; and the combined expanded
list is sorted chronologically.  Recurring events are horizon-bounded;
one-time events need not be. -/
theorem c9_amended (endD : ℤ) (p : PartPayment) (pps : List PartPayment) (e : PPEvent) :
    (p.frequency = Frequency.oneTime →
      expandPayment endD p =
        [{ month := p.month, year := p.year, amount := p.amount,
           strategy := p.strategy }]) ∧
    (p.frequency ≠ Frequency.oneTime →
      (e ∈ expandPayment endD p ↔ ∃ k : ℕ,
        dateOf p.year p.month + monthIncrementOf p.frequency * k ≤ endD ∧
        e = { month := monthOf (dateOf p.year p.month + monthIncrementOf p.frequency * k),
              year := yearOf (dateOf p.year p.month + monthIncrementOf p.frequency * k),
              amount := p.amount, strategy := p.strategy })) ∧
    (expandAllPayments endD pps).Pairwise (fun a b => eventDate a ≤ eventDate b) ∧
    monthIncrementOf Frequency.monthly = 1 ∧ monthIncrementOf Frequency.quarterly = 3 ∧
    monthIncrementOf Frequency.halfYearly = 6 ∧ monthIncrementOf Frequency.yearly = 12 := by
  refine ⟨?_, ?_, expandAllPayments_pairwise endD pps, rfl, rfl, rfl, rfl⟩
  · intro h1
    unfold expandPayment
    rw [h1]
  · intro h1
    have hfuel : (endD - dateOf p.year p.month).toNat < (endD - dateOf p.year p.month).toNat + 1 :=
      Nat.lt_succ_self _
    cases hf : p.frequency with
    | oneTime => exact absurd hf h1
    | monthly =>
      rw [show expandPayment endD p = expandFrom (monthIncrementOf Frequency.monthly) endD
          p.amount p.strategy (dateOf p.year p.month)
          ((endD - dateOf p.year p.month).toNat + 1) by rw [expandPayment, hf]]
      exact mem_expandFrom (by norm_num [monthIncrementOf]) _ _ hfuel e
    | quarterly =>
      rw [show expandPayment endD p = expandFrom (monthIncrementOf Frequency.quarterly) endD
          p.amount p.strategy (dateOf p.year p.month)
          ((endD - dateOf p.year p.month).toNat + 1) by rw [expandPayment, hf]]
      exact mem_expandFrom (by norm_num [monthIncrementOf]) _ _ hfuel e
    | halfYearly =>
      rw [show expandPayment endD p = expandFrom (monthIncrementOf Frequency.halfYearly) endD
          p.amount p.strategy (dateOf p.year p.month)
          ((endD - dateOf p.year p.month).toNat + 1) by rw [expandPayment, hf]]
      exact mem_expandFrom (by norm_num [monthIncrementOf]) _ _ hfuel e
    | yearly =>
      rw [show expandPayment endD p = expandFrom (monthIncrementOf Frequency.yearly) endD
          p.amount p.strategy (dateOf p.year p.month)
          ((endD - dateOf p.year p.month).toNat + 1) by rw [expandPayment, hf]]
      exact mem_expandFrom (by norm_num [monthIncrementOf]) _ _ hfuel e

/-- A quarterly instruction used by the C9 witness. -/
def c9QuarterlyPP : PartPayment :=
  { month := 1, year := 2024, amount := 5, frequency := Frequency.quarterly,
    strategy := Strategy.reduceTenure }

theorem c9_amended_witness :
    (c9QuarterlyPP.frequency ≠ Frequency.oneTime) ∧
      (({ month := 4, year := 2024, amount := 5, strategy := Strategy.reduceTenure } : PPEvent)
          ∈ expandPayment (dateOf 2025 1) c9QuarterlyPP ↔ ∃ k : ℕ,
        dateOf c9QuarterlyPP.year c9QuarterlyPP.month +
            monthIncrementOf c9QuarterlyPP.frequency * k ≤ dateOf 2025 1 ∧
        ({ month := 4, year := 2024, amount := 5, strategy := Strategy.reduceTenure } : PPEvent) =
          { month := monthOf (dateOf c9QuarterlyPP.year c9QuarterlyPP.month +
              monthIncrementOf c9QuarterlyPP.frequency * k),
            year := yearOf (dateOf c9QuarterlyPP.year c9QuarterlyPP.month +
              monthIncrementOf c9QuarterlyPP.frequency * k),
            amount := c9QuarterlyPP.amount, strategy := c9QuarterlyPP.strategy }) :=
  ⟨by decide,
    (c9_amended (dateOf 2025 1) c9QuarterlyPP []
      { month := 4, year := 2024, amount := 5, strategy := Strategy.reduceTenure }).2.1
      (by decide)⟩

/-! ## Comparator lemmas -/

theorem listMin_le {l : List ℚ} {x : ℚ} (hx : x ∈ l) : listMin l ≤ x := by
  have key : ∀ (t : List ℚ) (a : ℚ), (t.foldl min a ≤ a) ∧ ∀ y ∈ t, t.foldl min a ≤ y := by
    intro t
    induction t with
    | nil => intro a; exact ⟨le_refl a, by simp⟩
    | cons b t ih =>
      intro a
      have h1 := ih (min a b)
      refine ⟨le_trans h1.1 (min_le_left a b), ?_⟩
      intro y hy
      rcases List.mem_cons.mp hy with rfl | hy
      · exact le_trans h1.1 (min_le_right a y)
      · exact h1.2 y hy
  cases l with
  | nil => cases hx
  | cons a t =>
    rcases List.mem_cons.mp hx with rfl | hx
    · exact (key t x).1
    · exact (key t a).2 x hx

theorem le_listMax {l : List ℚ} {x : ℚ} (hx : x ∈ l) : x ≤ listMax l := by
  have key : ∀ (t : List ℚ) (a : ℚ), (a ≤ t.foldl max a) ∧ ∀ y ∈ t, y ≤ t.foldl max a := by
    intro t
    induction t with
    | nil => intro a; exact ⟨le_refl a, by simp⟩
    | cons b t ih =>
      intro a
      have h1 := ih (max a b)
      refine ⟨le_trans (le_max_left a b) h1.1, ?_⟩
      intro y hy
      rcases List.mem_cons.mp hy with rfl | hy
      · exact le_trans (le_max_right a y) h1.1
      · exact h1.2 y hy
  cases l with
  | nil => cases hx
  | cons a t =>
    rcases List.mem_cons.mp hx with rfl | hx
    · exact (key t x).1
    · exact (key t a).2 x hx

theorem normScore_nonneg {mn mx x : ℚ} (h1 : mn ≤ x) (h2 : x ≤ mx) :
    0 ≤ normScore mn mx x := by
  unfold normScore
  split_ifs with h
  · norm_num
  · have hlt : mn < mx := lt_of_le_of_ne (le_trans h1 h2) (Ne.symm h)
    have : (x - mn) / (mx - mn) ≤ 1 :=
      (div_le_one (by linarith)).mpr (by linarith)
    nlinarith

theorem normScore_le_100 {mn mx x : ℚ} (h1 : mn ≤ x) (h2 : x ≤ mx) :
    normScore mn mx x ≤ 100 := by
  unfold normScore
  split_ifs with h
  · norm_num
  · have hlt : mn < mx := lt_of_le_of_ne (le_trans h1 h2) (Ne.symm h)
    have : 0 ≤ (x - mn) / (mx - mn) := div_nonneg (by linarith) (by linarith)
    nlinarith

theorem normScore_min {mn mx : ℚ} : normScore mn mx mn = 100 := by
  unfold normScore
  split_ifs with h
  · rfl
  · norm_num

theorem normScore_flat {mn x : ℚ} : normScore mn mn x = 100 := by
  unfold normScore
  rw [if_pos rfl]

theorem listMin_const {l : List ℚ} {c : ℚ} (hne : l ≠ []) (h : ∀ x ∈ l, x = c) :
    listMin l = c := by
  have key : ∀ (t : List ℚ) (a : ℚ), (∀ x ∈ t, x = c) → a = c → t.foldl min a = c := by
    intro t
    induction t with
    | nil => intro a _ ha; exact ha
    | cons b t ih =>
      intro a ht ha
      have hb : b = c := ht b (List.mem_cons_self b t)
      exact ih (min a b) (fun x hx => ht x (List.mem_cons_of_mem b hx))
        (by rw [ha, hb, min_self])
  cases l with
  | nil => exact absurd rfl hne
  | cons a t =>
    exact key t a (fun x hx => h x (List.mem_cons_of_mem a hx)) (h a (List.mem_cons_self a t))

theorem listMax_const {l : List ℚ} {c : ℚ} (hne : l ≠ []) (h : ∀ x ∈ l, x = c) :
    listMax l = c := by
  have key : ∀ (t : List ℚ) (a : ℚ), (∀ x ∈ t, x = c) → a = c → t.foldl max a = c := by
    intro t
    induction t with
    | nil => intro a _ ha; exact ha
    | cons b t ih =>
      intro a ht ha
      have hb : b = c := ht b (List.mem_cons_self b t)
      exact ih (max a b) (fun x hx => ht x (List.mem_cons_of_mem b hx))
        (by rw [ha, hb, max_self])
  cases l with
  | nil => exact absurd rfl hne
  | cons a t =>
    exact key t a (fun x hx => h x (List.mem_cons_of_mem a hx)) (h a (List.mem_cons_self a t))

theorem pickWinner_aux (full : List ℚ) :
    ∀ (l2 : List ℚ) (i0 : ℕ) (b : ℕ × ℚ), full.drop i0 = l2 →
      b.1 < full.length → full.getD b.1 0 = b.2 →
      (∀ j < i0, full.getD j 0 ≤ b.2) → (∀ j < b.1, full.getD j 0 < b.2) →
      ((List.foldl (fun best p => if best.2 < p.2 then p else best) b
          (List.enumFrom i0 l2)).1 < full.length ∧
        full.getD (List.foldl (fun best p => if best.2 < p.2 then p else best) b
          (List.enumFrom i0 l2)).1 0 =
          (List.foldl (fun best p => if best.2 < p.2 then p else best) b
            (List.enumFrom i0 l2)).2 ∧
        (∀ j < full.length, full.getD j 0 ≤
          (List.foldl (fun best p => if best.2 < p.2 then p else best) b
            (List.enumFrom i0 l2)).2) ∧
        (∀ j < (List.foldl (fun best p => if best.2 < p.2 then p else best) b
            (List.enumFrom i0 l2)).1, full.getD j 0 <
          (List.foldl (fun best p => if best.2 < p.2 then p else best) b
            (List.enumFrom i0 l2)).2)) := by
  intro l2
  induction l2 with
  | nil =>
    intro i0 b hdrop hb1 hb2 hble hblt
    have hlen : full.length ≤ i0 := by
      have := List.length_drop i0 full
      rw [hdrop] at this
      simp at this
      omega
    simp only [List.enumFrom, List.foldl_nil]
    exact ⟨hb1, hb2, fun j hj => hble j (lt_of_lt_of_le hj hlen), hblt⟩
  | cons x rest ih =>
    intro i0 b hdrop hb1 hb2 hble hblt
    have hi0 : i0 < full.length := by
      by_contra hc
      rw [List.drop_eq_nil_of_le (le_of_not_lt hc)] at hdrop
      exact List.cons_ne_nil x rest hdrop.symm
    have hx : full.getD i0 0 = x := by
      have := List.drop_eq_getElem_cons hi0
      rw [hdrop] at this
      rw [List.getD_eq_getElem full 0 hi0]
      exact (List.cons.injEq _ _ _ _ ▸ this).1.symm
    have hrest : full.drop (i0 + 1) = rest := by
      have := List.drop_eq_getElem_cons hi0
      rw [hdrop] at this
      exact ((List.cons.injEq _ _ _ _ ▸ this).2).symm
    rw [List.enumFrom_cons, List.foldl_cons]
    by_cases hcmp : b.2 < x
    · rw [show (if b.2 < (i0, x).2 then (i0, x) else b) = (i0, x) from if_pos hcmp]
      apply ih (i0 + 1) (i0, x) hrest hi0 hx
      · intro j hj
        rcases Nat.lt_succ_iff_lt_or_eq.mp hj with hj | rfl
        · exact le_of_lt (lt_of_le_of_lt (hble j hj) hcmp)
        · exact le_of_eq hx
      · intro j hj
        exact lt_of_le_of_lt (hble j hj) hcmp
    · rw [show (if b.2 < (i0, x).2 then (i0, x) else b) = b from if_neg hcmp]
      apply ih (i0 + 1) b hrest hb1 hb2
      · intro j hj
        rcases Nat.lt_succ_iff_lt_or_eq.mp hj with hj | rfl
        · exact hble j hj
        · rw [hx]; exact le_of_not_lt hcmp
      · exact hblt

/-- Specification of the winner fold: it returns an index of the list
achieving the maximum score, and every earlier index scores strictly
less (ties are broken in favor of insertion order). -/
theorem pickWinner_spec (l : List ℚ) (hne : l ≠ []) :
    pickWinner l < l.length ∧
      (∀ j < l.length, l.getD j 0 ≤ l.getD (pickWinner l) 0) ∧
      (∀ j < pickWinner l, l.getD j 0 < l.getD (pickWinner l) 0) := by
  have hlen : 0 < l.length := List.length_pos.mpr hne
  have hhead : l.getD 0 0 = l.headD 0 := by
    cases l with
    | nil => exact absurd rfl hne
    | cons a t => rfl
  have h := pickWinner_aux l l 0 (0, l.headD 0) (List.drop_zero l) hlen hhead
    (fun j hj => absurd hj (Nat.not_lt_zero j)) (fun j hj => absurd hj (Nat.not_lt_zero j))
  rw [show List.enumFrom 0 l = l.enum from rfl] at h
  unfold pickWinner
  refine ⟨h.1, ?_, ?_⟩
  · intro j hj
    have := h.2.2.1 j hj
    rw [h.2.1]
    exact this
  · intro j hj
    have := h.2.2.2 j hj
    rw [h.2.1]
    exact this

theorem pickWinner_const {l : List ℚ} {c : ℚ} (h : ∀ x ∈ l, x = c) :
    pickWinner l = 0 := by
  have key : ∀ (t : List ℚ) (i0 : ℕ) (b : ℕ × ℚ), (∀ x ∈ t, x ≤ b.2) →
      List.foldl (fun best p => if best.2 < p.2 then p else best) b
        (List.enumFrom i0 t) = b := by
    intro t
    induction t with
    | nil => intro i0 b _; rfl
    | cons x rest ih =>
      intro i0 b ht
      rw [List.enumFrom_cons, List.foldl_cons]
      rw [show (if b.2 < (i0, x).2 then (i0, x) else b) = b from
        if_neg (not_lt.mpr (ht x (List.mem_cons_self x rest)))]
      exact ih (i0 + 1) b (fun y hy => ht y (List.mem_cons_of_mem x hy))
  unfold pickWinner
  cases l with
  | nil => rfl
  | cons a t =>
    have ha : a = c := h a (List.mem_cons_self a t)
    rw [show (a :: t).enum = List.enumFrom 0 (a :: t) from rfl, List.enumFrom_cons,
      List.foldl_cons]
    rw [show ((a :: t).headD 0) = a from rfl]
    rw [show (if ((0 : ℕ), a).2 < ((0 : ℕ), a).2 then ((0 : ℕ), a) else ((0 : ℕ), a)) =
      ((0 : ℕ), a) from if_neg (lt_irrefl a)]
    rw [key t 1 (0, a) (fun y hy => by rw [h y (List.mem_cons_of_mem a hy), ha])]

/-- C7: for 2 to 4 compared scenarios, each sub-score is a 0-100 min-max
normalization awarding 100 to the lowest value (and to every scenario
when min equals max); the weighted score is
0.3 x emi + 0.5 x interest + 0.2 x tenure; the winner attains the
maximum weighted score and every earlier scenario scores strictly less
(so ties go to insertion order); and when all scenarios are identical
every sub-score is 100 and the first scenario wins. -/
theorem c7_comparator (rs : List ScenarioResult) (h2 : 2 ≤ rs.length)
    (h4 : rs.length ≤ 4) :
    (∀ r ∈ rs,
      (0 ≤ (subScores rs r).1 ∧ (subScores rs r).1 ≤ 100 ∧
        (r.emi = listMin (rs.map ScenarioResult.emi) → (subScores rs r).1 = 100) ∧
        (listMax (rs.map ScenarioResult.emi) = listMin (rs.map ScenarioResult.emi) →
          (subScores rs r).1 = 100)) ∧
      (0 ≤ (subScores rs r).2.1 ∧ (subScores rs r).2.1 ≤ 100 ∧
        (r.totalInterest = listMin (rs.map ScenarioResult.totalInterest) →
          (subScores rs r).2.1 = 100) ∧
        (listMax (rs.map ScenarioResult.totalInterest) =
            listMin (rs.map ScenarioResult.totalInterest) → (subScores rs r).2.1 = 100)) ∧
      (0 ≤ (subScores rs r).2.2 ∧ (subScores rs r).2.2 ≤ 100 ∧
        (r.tenureMonths = listMin (rs.map ScenarioResult.tenureMonths) →
          (subScores rs r).2.2 = 100) ∧
        (listMax (rs.map ScenarioResult.tenureMonths) =
            listMin (rs.map ScenarioResult.tenureMonths) → (subScores rs r).2.2 = 100)) ∧
      weightedScore rs r = (subScores rs r).1 * (3 / 10) + (subScores rs r).2.1 * (5 / 10) +
        (subScores rs r).2.2 * (2 / 10)) ∧
    (pickWinner (weightedScores rs) < rs.length ∧
      (∀ j < rs.length, (weightedScores rs).getD j 0 ≤
        (weightedScores rs).getD (pickWinner (weightedScores rs)) 0) ∧
      (∀ j < pickWinner (weightedScores rs), (weightedScores rs).getD j 0 <
        (weightedScores rs).getD (pickWinner (weightedScores rs)) 0)) ∧
    (∀ r0 : ScenarioResult, (∀ r ∈ rs, r = r0) →
      (∀ r ∈ rs, subScores rs r = (100, 100, 100) ∧ weightedScore rs r = 100) ∧
      pickWinner (weightedScores rs) = 0) := by
  have hne : rs ≠ [] := by
    intro hc
    rw [hc] at h2
    simp at h2
  refine ⟨?_, ?_, ?_⟩
  · intro r hr
    have hmem1 : r.emi ∈ rs.map ScenarioResult.emi := List.mem_map_of_mem _ hr
    have hmem2 : r.totalInterest ∈ rs.map ScenarioResult.totalInterest :=
      List.mem_map_of_mem _ hr
    have hmem3 : r.tenureMonths ∈ rs.map ScenarioResult.tenureMonths :=
      List.mem_map_of_mem _ hr
    refine ⟨⟨normScore_nonneg (listMin_le hmem1) (le_listMax hmem1),
        normScore_le_100 (listMin_le hmem1) (le_listMax hmem1),
        fun hm => by rw [show (subScores rs r).1 = normScore _ _ r.emi from rfl, hm]; exact normScore_min,
        fun hm => by rw [show (subScores rs r).1 = normScore _ _ r.emi from rfl]; unfold normScore; rw [if_pos hm]⟩,
      ⟨normScore_nonneg (listMin_le hmem2) (le_listMax hmem2),
        normScore_le_100 (listMin_le hmem2) (le_listMax hmem2),
        fun hm => by rw [show (subScores rs r).2.1 = normScore _ _ r.totalInterest from rfl, hm]; exact normScore_min,
        fun hm => by rw [show (subScores rs r).2.1 = normScore _ _ r.totalInterest from rfl]; unfold normScore; rw [if_pos hm]⟩,
      ⟨normScore_nonneg (listMin_le hmem3) (le_listMax hmem3),
        normScore_le_100 (listMin_le hmem3) (le_listMax hmem3),
        fun hm => by rw [show (subScores rs r).2.2 = normScore _ _ r.tenureMonths from rfl, hm]; exact normScore_min,
        fun hm => by rw [show (subScores rs r).2.2 = normScore _ _ r.tenureMonths from rfl]; unfold normScore; rw [if_pos hm]⟩,
      rfl⟩
  · have hlen : weightedScores rs ≠ [] := by
      unfold weightedScores
      intro hc
      rw [List.map_eq_nil_iff] at hc
      exact hne hc
    have h := pickWinner_spec (weightedScores rs) hlen
    have hlen2 : (weightedScores rs).length = rs.length := List.length_map _ _
    exact ⟨hlen2 ▸ h.1, fun j hj => h.2.1 j (hlen2.symm ▸ hj), h.2.2⟩
  · intro r0 hall
    have hminmax1 : listMin (rs.map ScenarioResult.emi) = r0.emi :=
      listMin_const (by simpa using hne)
        (fun x hx => by
          rcases List.mem_map.mp hx with ⟨r, hr, rfl⟩
          rw [hall r hr])
    have hmax1 : listMax (rs.map ScenarioResult.emi) = r0.emi :=
      listMax_const (by simpa using hne)
        (fun x hx => by
          rcases List.mem_map.mp hx with ⟨r, hr, rfl⟩
          rw [hall r hr])
    have hminmax2 : listMin (rs.map ScenarioResult.totalInterest) = r0.totalInterest :=
      listMin_const (by simpa using hne)
        (fun x hx => by
          rcases List.mem_map.mp hx with ⟨r, hr, rfl⟩
          rw [hall r hr])
    have hmax2 : listMax (rs.map ScenarioResult.totalInterest) = r0.totalInterest :=
      listMax_const (by simpa using hne)
        (fun x hx => by
          rcases List.mem_map.mp hx with ⟨r, hr, rfl⟩
          rw [hall r hr])
    have hminmax3 : listMin (rs.map ScenarioResult.tenureMonths) = r0.tenureMonths :=
      listMin_const (by simpa using hne)
        (fun x hx => by
          rcases List.mem_map.mp hx with ⟨r, hr, rfl⟩
          rw [hall r hr])
    have hmax3 : listMax (rs.map ScenarioResult.tenureMonths) = r0.tenureMonths :=
      listMax_const (by simpa using hne)
        (fun x hx => by
          rcases List.mem_map.mp hx with ⟨r, hr, rfl⟩
          rw [hall r hr])
    have hsub : ∀ r ∈ rs, subScores rs r = (100, 100, 100) := by
      intro r hr
      unfold subScores
      rw [hminmax1, hmax1, hminmax2, hmax2, hminmax3, hmax3, normScore_flat,
        normScore_flat, normScore_flat]
    have hws : ∀ r ∈ rs, weightedScore rs r = 100 := by
      intro r hr
      unfold weightedScore
      rw [hsub r hr]
      norm_num
    refine ⟨fun r hr => ⟨hsub r hr, hws r hr⟩, ?_⟩
    apply pickWinner_const
    intro x hx
    rcases List.mem_map.mp hx with ⟨r, hr, rfl⟩
    exact hws r hr

theorem c7_comparator_witness :
    2 ≤ ([⟨100, 200, 300, 12⟩, ⟨100, 200, 300, 12⟩] : List ScenarioResult).length ∧
      ([⟨100, 200, 300, 12⟩, ⟨100, 200, 300, 12⟩] : List ScenarioResult).length ≤ 4 ∧
      pickWinner (weightedScores [⟨100, 200, 300, 12⟩, ⟨100, 200, 300, 12⟩]) = 0 :=
  ⟨by norm_num, by norm_num,
    ((c7_comparator [⟨100, 200, 300, 12⟩, ⟨100, 200, 300, 12⟩] (by norm_num)
      (by norm_num)).2.2 ⟨100, 200, 300, 12⟩ (by
        intro r hr
        rcases List.mem_cons.mp hr with rfl | hr2
        · rfl
        · rcases List.mem_cons.mp hr2 with rfl | hr3
          · rfl
          · cases hr3)).2⟩

/-! ## Amortization lemmas for runs without part payments -/

/-- Sum of the principal components over a schedule. -/
def listPrincipalSum (l : List ScheduleEntry) : ℚ :=
  (l.map (fun e => e.principalAmount)).sum

/-- The exact amortization recurrence `B(k+1) = B(k)*(1+r) - E`. -/
def amortBalance (P E a : ℚ) : ℕ → ℚ
  | 0 => P
  | k + 1 => amortBalance P E a k * a - E

theorem amortBalance_closed (P E a : ℚ) :
    ∀ k : ℕ, amortBalance P E a k = P * a ^ k - E * (∑ i ∈ Finset.range k, a ^ i) := by
  intro k
  induction k with
  | zero => simp [amortBalance]
  | succ k ih =>
    rw [amortBalance, ih, geom_sum_succ]
    ring

theorem amortBalance_one (P E : ℚ) : ∀ k : ℕ, amortBalance P E 1 k = P - k * E := by
  intro k
  induction k with
  | zero => simp [amortBalance]
  | succ k ih =>
    rw [amortBalance, ih]
    push_cast
    ring

/-- With the exact closed-form EMI, the balance hits zero exactly at the
last scheduled month. -/
theorem amortBalance_emi_zero {P r : ℚ} (n : ℕ) (hfac : (1 + r) ^ n ≠ 1) (hr : r ≠ 0) :
    amortBalance P (P * r * (1 + r) ^ n / ((1 + r) ^ n - 1)) (1 + r) n = 0 := by
  rw [amortBalance_closed]
  have hne : (1 + r) ^ n - 1 ≠ 0 := sub_ne_zero.mpr hfac
  have hgeom : (∑ i ∈ Finset.range n, (1 + r) ^ i) * r = (1 + r) ^ n - 1 := by
    have := geom_sum_mul (1 + r) n
    simpa using this
  have key : P * r * (1 + r) ^ n / ((1 + r) ^ n - 1) *
      (∑ i ∈ Finset.range n, (1 + r) ^ i) = P * (1 + r) ^ n := by
    rw [div_mul_eq_mul_div, div_eq_iff hne]
    calc P * r * (1 + r) ^ n * ∑ i ∈ Finset.range n, (1 + r) ^ i
        = P * (1 + r) ^ n * ((∑ i ∈ Finset.range n, (1 + r) ^ i) * r) := by ring
      _ = P * (1 + r) ^ n * ((1 + r) ^ n - 1) := by rw [hgeom]
  rw [key, sub_self]

theorem filter_nil_of_payments_nil {ctx : SimCtx} (hpp : ctx.payments = [])
    (y m : ℤ) : ctx.payments.filter (matchesMonth y m) = [] := by
  rw [hpp]
  rfl

theorem simStep_empty_balance_sum {ctx : SimCtx} (hpp : ctx.payments = [])
    (s : SimState) :
    (simStep ctx s).remainingBalance + listPrincipalSum (simStep ctx s).schedule =
      s.remainingBalance + listPrincipalSum s.schedule := by
  simp only [simStep, filter_nil_of_payments_nil hpp, List.map_nil, List.sum_nil,
    listPrincipalSum, List.map_append, List.sum_append]
  have hmax : (0 : ℚ) ≤ max 0 (s.remainingBalance -
      if s.remainingBalance < s.currentEMI - s.remainingBalance * ctx.monthlyRate
      then s.remainingBalance else s.currentEMI - s.remainingBalance * ctx.monthlyRate) :=
    le_max_left 0 _
  rw [min_eq_left hmax]
  simp

theorem simStep_empty_balance_nonneg {ctx : SimCtx} (hpp : ctx.payments = [])
    (s : SimState) : 0 ≤ (simStep ctx s).remainingBalance := by
  simp only [simStep, filter_nil_of_payments_nil hpp, List.map_nil, List.sum_nil]
  have hmax : (0 : ℚ) ≤ max 0 (s.remainingBalance -
      if s.remainingBalance < s.currentEMI - s.remainingBalance * ctx.monthlyRate
      then s.remainingBalance else s.currentEMI - s.remainingBalance * ctx.monthlyRate) :=
    le_max_left 0 _
  rw [min_eq_left hmax]
  by_cases hc : s.remainingBalance < s.currentEMI - s.remainingBalance * ctx.monthlyRate
  · rw [if_pos hc]
    simp
  · rw [if_neg hc]
    push_neg at hc
    linarith

theorem simStep_empty_currentEMI {ctx : SimCtx} (hpp : ctx.payments = [])
    (s : SimState) : (simStep ctx s).currentEMI = s.currentEMI := by
  simp only [simStep, filter_nil_of_payments_nil hpp, List.map_nil, List.sum_nil]
  rw [if_neg]
  intro hc
  exact absurd hc.1 (lt_irrefl 0)

theorem simStep_empty_amort {ctx : SimCtx} {P E : ℚ} (hpp : ctx.payments = [])
    (hE : 0 < E) (s : SimState) (hemi : s.currentEMI = E)
    (hinv : s.remainingBalance = amortBalance P E (1 + ctx.monthlyRate) s.monthCount ∨
      s.remainingBalance = 0) :
    (simStep ctx s).remainingBalance =
      amortBalance P E (1 + ctx.monthlyRate) (simStep ctx s).monthCount ∨
      (simStep ctx s).remainingBalance = 0 := by
  rw [simStep_monthCount]
  have hbal : (simStep ctx s).remainingBalance =
      if s.remainingBalance < s.currentEMI - s.remainingBalance * ctx.monthlyRate
      then 0 else s.remainingBalance * (1 + ctx.monthlyRate) - s.currentEMI := by
    simp only [simStep, filter_nil_of_payments_nil hpp, List.map_nil, List.sum_nil]
    have hmax : (0 : ℚ) ≤ max 0 (s.remainingBalance -
        if s.remainingBalance < s.currentEMI - s.remainingBalance * ctx.monthlyRate
        then s.remainingBalance else s.currentEMI - s.remainingBalance * ctx.monthlyRate) :=
      le_max_left 0 _
    rw [min_eq_left hmax]
    by_cases hc : s.remainingBalance < s.currentEMI - s.remainingBalance * ctx.monthlyRate
    · rw [if_pos hc, if_pos hc]
      ring
    · rw [if_neg hc, if_neg hc]
      ring
  by_cases hc : s.remainingBalance < s.currentEMI - s.remainingBalance * ctx.monthlyRate
  · right
    rw [hbal, if_pos hc]
  · rcases hinv with hb | hb
    · left
      rw [hbal, if_neg hc, amortBalance, ← hb, hemi]
    · exfalso
      rw [hb, hemi] at hc
      push_neg at hc
      simp only [zero_mul, sub_zero] at hc
      exact absurd hE (not_lt.mpr hc)

theorem simRun_empty_sum {ctx : SimCtx} (hpp : ctx.payments = []) :
    ∀ (f : ℕ) (s : SimState),
      (simRun ctx f s).remainingBalance + listPrincipalSum (simRun ctx f s).schedule =
        s.remainingBalance + listPrincipalSum s.schedule := by
  intro f
  induction f with
  | zero => intro s; simp [simRun]
  | succ f ih =>
    intro s
    by_cases h : simGuard ctx s = true
    · rw [simRun_succ_of_guard h, ih (simStep ctx s), simStep_empty_balance_sum hpp]
    · rw [simRun_stop (by simpa using h)]

theorem simRun_empty_nonneg {ctx : SimCtx} (hpp : ctx.payments = []) :
    ∀ (f : ℕ) (s : SimState), 0 ≤ s.remainingBalance →
      0 ≤ (simRun ctx f s).remainingBalance := by
  intro f
  induction f with
  | zero => intro s h; simpa [simRun] using h
  | succ f ih =>
    intro s h
    by_cases hg : simGuard ctx s = true
    · rw [simRun_succ_of_guard hg]
      exact ih (simStep ctx s) (simStep_empty_balance_nonneg hpp s)
    · rw [simRun_stop (by simpa using hg)]
      exact h

theorem simRun_empty_emi_amort (ctx : SimCtx) {P E : ℚ} (hpp : ctx.payments = [])
    (hE : 0 < E) :
    ∀ (f : ℕ) (s : SimState), s.currentEMI = E →
      (s.remainingBalance = amortBalance P E (1 + ctx.monthlyRate) s.monthCount ∨
        s.remainingBalance = 0) →
      (simRun ctx f s).currentEMI = E ∧
        ((simRun ctx f s).remainingBalance =
          amortBalance P E (1 + ctx.monthlyRate) (simRun ctx f s).monthCount ∨
          (simRun ctx f s).remainingBalance = 0) := by
  intro f
  induction f with
  | zero => intro s h1 h2; exact ⟨by simpa [simRun] using h1, by simpa [simRun] using h2⟩
  | succ f ih =>
    intro s h1 h2
    by_cases hg : simGuard ctx s = true
    · rw [simRun_succ_of_guard hg]
      exact ih (simStep ctx s) (by rw [simStep_empty_currentEMI hpp, h1])
        (simStep_empty_amort hpp hE s h1 h2)
    · rw [simRun_stop (by simpa using hg)]
      exact ⟨h1, h2⟩

theorem simGuard_true_counter {ctx : SimCtx} {s : SimState}
    (hmode : ctx.hasReduceEMIPayments = false) (h : simGuard ctx s = true) :
    1 / 100 < s.remainingBalance ∧ (s.monthCount : ℚ) < ctx.totalMonths := by
  simp only [simGuard, hmode, Bool.false_eq_true, if_false, Bool.and_eq_true,
    decide_eq_true_eq] at h
  exact h

theorem simRun_mc_le_fuel (ctx : SimCtx) :
    ∀ (f : ℕ) (s : SimState), (simRun ctx f s).monthCount ≤ s.monthCount + f := by
  intro f
  induction f with
  | zero => intro s; simp [simRun]
  | succ f ih =>
    intro s
    by_cases h : simGuard ctx s = true
    · rw [simRun_succ_of_guard h]
      have := ih (simStep ctx s)
      rw [simStep_monthCount] at this
      omega
    · rw [simRun_stop (by simpa using h)]
      omega

theorem simRun_mc_le_int {ctx : SimCtx} {n : ℕ}
    (hmode : ctx.hasReduceEMIPayments = false) (hn : ctx.totalMonths = (n : ℚ)) :
    ∀ (f : ℕ) (s : SimState), s.monthCount ≤ n → (simRun ctx f s).monthCount ≤ n := by
  intro f
  induction f with
  | zero => intro s h; simpa [simRun] using h
  | succ f ih =>
    intro s h
    by_cases hg : simGuard ctx s = true
    · rw [simRun_succ_of_guard hg]
      apply ih
      rw [simStep_monthCount]
      have := (simGuard_true_counter hmode hg).2
      rw [hn] at this
      exact_mod_cast this
    · rw [simRun_stop (by simpa using hg)]
      exact h

theorem computeEmi_ok_cases {safeP r tm emi : ℚ} (h : computeEmi safeP r tm = Except.ok emi) :
    (r = 0 ∧ emi = safeP / tm) ∨
    (r ≠ 0 ∧ tm.den = 1 ∧
      emi = safeP * r * (1 + r) ^ tm.num.toNat / ((1 + r) ^ tm.num.toNat - 1) ∧
      1 < (1 + r) ^ tm.num.toNat) := by
  by_cases h1 : r = 0
  · left
    refine ⟨h1, ?_⟩
    rw [computeEmi, if_pos h1] at h
    simp only [Except.bind] at h
    split_ifs at h
    injection h with h5
    exact h5.symm
  · right
    rw [computeEmi, if_neg h1] at h
    by_cases h2 : tm.den = 1
    · rw [if_pos h2] at h
      by_cases h3 : (1 + r) ^ tm.num.toNat ≤ 1
      · rw [if_pos h3] at h
        simp [Except.bind] at h
      · rw [if_neg h3] at h
        simp only [Except.bind] at h
        split_ifs at h
        injection h with h5
        exact ⟨h1, h2, h5.symm, not_le.mp h3⟩
    · rw [if_neg h2] at h
      simp [Except.bind] at h

/-- The cast of an integral nonnegative rational through `num.toNat`. -/
theorem ratCast_num_toNat {q : ℚ} (hq : 0 ≤ q) (hden : q.den = 1) :
    ((q.num.toNat : ℕ) : ℚ) = q := by
  have hnum : 0 ≤ q.num := Rat.num_nonneg.mpr hq
  have h1 : ((q.num.toNat : ℤ) : ℚ) = (q.num : ℚ) := by
    rw [Int.toNat_of_nonneg hnum]
  have h2 : (q.num : ℚ) = q := by
    conv_rhs => rw [← Rat.num_div_den q]
    rw [hden]
    simp
  rw [← h2, ← h1]
  norm_cast

theorem loanEvents_nil (t sm sy : ℚ) : loanEvents t sm sy [] = [] := by
  unfold loanEvents expandAllPayments
  rw [show ([] : List PartPayment).flatMap
    (expandPayment (loanExpandEnd t sm sy)) = [] from rfl]
  exact List.mergeSort_nil

/-- C1 counterexample: principal 1/1000, rate 0, one-year tenure, start
1/2024, no part payments: the initial balance is already at most the
0.01 epsilon, so the loop never runs and the schedule has 0 entries, not
tenureYears*12 = 12. -/
theorem c1_counterexample :
    (calculateLoanEMI (1 / 1000) 0 1 1 2024 []).map (fun r => r.schedule.length) =
      Except.ok 0 ∧ (0 : ℕ) ≠ 12 := by
  constructor
  · norm_num [calculateLoanEMI, validateLoan, computeEmi, loanMonthlyRate, loanTotalMonths,
      loanCtx, loanEvents, loanExpandEnd, expandAllPayments, loanFuel, loanInitState,
      loanStartDate, loanOriginalEnd, dateOf, simRun, simGuard, Except.bind,
      Except.map, min_def]
  · norm_num

/-- C1 (amended): for every validated `LoanTerms` (with an integral
month count when the rate is positive, as required by the rational
model) and no part payments, `calculateLoanEMI` returns a schedule of at
most `floor(totalMonths) + 1` entries - at most `totalMonths` when the
month count is integral - and the sum of the principal components
equals the (capped) principal to within the 0.01 epsilon.  The length
claim of C1 (`exactly tenureYears*12 entries`) fails for small
principals, where the epsilon test ends the loop early. -/
theorem c1_amended (P rate t sm sy : ℚ) (hP : 0 < P) (hr : 0 ≤ rate) (ht : 0 < t)
    (hsm1 : 1 ≤ sm) (hsm2 : sm ≤ 12) (hsmd : sm.den = 1)
    (hsyd : sy.den = 1) (hsy1 : 1900 ≤ sy) (hsy2 : sy ≤ 2200)
    (hmodel : rate = 0 ∨ (loanTotalMonths t).den = 1) :
    ∃ res, calculateLoanEMI P rate t sm sy [] = Except.ok res ∧
      res.schedule.length ≤ loanFuel t ∧
      ((loanTotalMonths t).den = 1 →
        (res.schedule.length : ℚ) ≤ loanTotalMonths t) ∧
      |min P 1000000000000 - listPrincipalSum res.schedule| ≤ 1 / 100 := by
  obtain ⟨emi, hemi, hemipos⟩ := computeEmi_ok hP hr ht hmodel
  have hval : validateLoan P rate t sm sy = none :=
    (validateLoan_eq_none_iff _ _ _ _ _).mpr ⟨hP, hr, ht, hsm1, hsm2, hsmd, hsyd, hsy1, hsy2⟩
  have hpp : (loanCtx rate t sm sy []).payments = [] := loanEvents_nil t sm sy
  have hmode : (loanCtx rate t sm sy []).hasReduceEMIPayments = false := by
    show (loanEvents t sm sy []).any _ = false
    rw [loanEvents_nil t sm sy]
    rfl
  have htm : 0 < loanTotalMonths t := loanTotalMonths_pos ht
  have hsafeP : 0 < min P 1000000000000 := lt_min hP (by norm_num)
  set fin := simRun (loanCtx rate t sm sy []) (loanFuel t)
    (loanInitState P t sm sy emi) with hfin
  have hcalc : calculateLoanEMI P rate t sm sy [] = Except.ok
      { emi := emi, totalInterest := fin.totalInterestPaid,
        totalAmount := min P 1000000000000 + fin.totalInterestPaid,
        schedule := fin.schedule, chartData := fin.chartData } := by
    rw [calculateLoanEMI, hval, hemi]
    rfl
  have hlen_mc : fin.schedule.length = fin.monthCount := by
    have h := simRun_schedule_length (loanCtx rate t sm sy []) (loanFuel t)
      (loanInitState P t sm sy emi)
    rw [← hfin] at h
    simpa [loanInitState] using h
  have hmcle : fin.monthCount ≤ loanFuel t := by
    have h := simRun_mc_le_fuel (loanCtx rate t sm sy []) (loanFuel t)
      (loanInitState P t sm sy emi)
    rw [← hfin] at h
    simpa [loanInitState] using h
  have hinv := simRun_empty_emi_amort (loanCtx rate t sm sy [])
    (P := min P 1000000000000) hpp hemipos (loanFuel t) (loanInitState P t sm sy emi)
    rfl (Or.inl rfl)
  rw [← hfin] at hinv
  have hsum : fin.remainingBalance + listPrincipalSum fin.schedule =
      min P 1000000000000 := by
    have h := simRun_empty_sum hpp (loanFuel t) (loanInitState P t sm sy emi)
    rw [← hfin] at h
    simpa [loanInitState, listPrincipalSum] using h
  have hnn : 0 ≤ fin.remainingBalance := by
    have h := simRun_empty_nonneg hpp (loanFuel t) (loanInitState P t sm sy emi)
      (le_of_lt hsafeP)
    rwa [← hfin] at h
  have hfloor_nn : 0 ≤ ⌊loanTotalMonths t⌋ := Int.floor_nonneg.mpr (le_of_lt htm)
  have hguardF : simGuard (loanCtx rate t sm sy []) fin = false := by
    rw [hfin]
    apply simRun_guard_false_counter hmode
    show ⌊loanTotalMonths t⌋ < ((⌊loanTotalMonths t⌋.toNat + 1 : ℕ) : ℤ) + ((0 : ℕ) : ℤ)
    push_cast
    rw [Int.toNat_of_nonneg hfloor_nn]
    omega
  have hub : fin.remainingBalance ≤ 1 / 100 := by
    rcases (simGuard_false_iff _ _).mp hguardF with hB | ⟨hm', _⟩ | ⟨_, htmle⟩
    · exact hB
    · rw [hmode] at hm'
      cases hm'
    · rcases computeEmi_ok_cases hemi with ⟨hr0, hEval⟩ | ⟨hrne, hden, hEval, hfac⟩
      · rcases hinv.2 with hBeq | hB0
        · rw [show (loanCtx rate t sm sy []).monthlyRate = loanMonthlyRate rate from rfl,
            hr0, add_zero, amortBalance_one] at hBeq
          have hmc : loanTotalMonths t ≤ (fin.monthCount : ℚ) := htmle
          have hkey : min P 1000000000000 ≤
              (fin.monthCount : ℚ) * (min P 1000000000000 / loanTotalMonths t) := by
            have hdiv : 0 ≤ min P 1000000000000 / loanTotalMonths t :=
              le_of_lt (div_pos hsafeP htm)
            calc min P 1000000000000
                = loanTotalMonths t * (min P 1000000000000 / loanTotalMonths t) := by
                  field_simp
              _ ≤ (fin.monthCount : ℚ) * (min P 1000000000000 / loanTotalMonths t) :=
                  mul_le_mul_of_nonneg_right hmc hdiv
          rw [hBeq, hEval]
          linarith
        · rw [hB0]
          norm_num
      · have hnq : (((loanTotalMonths t).num.toNat : ℕ) : ℚ) = loanTotalMonths t :=
          ratCast_num_toNat (le_of_lt htm) hden
        have hmcn : fin.monthCount ≤ (loanTotalMonths t).num.toNat := by
          have h := simRun_mc_le_int hmode hnq.symm (loanFuel t)
            (loanInitState P t sm sy emi) (Nat.zero_le _)
          rwa [← hfin] at h
        have hmge : (loanTotalMonths t).num.toNat ≤ fin.monthCount := by
          have : (((loanTotalMonths t).num.toNat : ℕ) : ℚ) ≤ (fin.monthCount : ℚ) := by
            rw [hnq]
            exact htmle
          exact_mod_cast this
        have hmc_eq : fin.monthCount = (loanTotalMonths t).num.toNat := le_antisymm hmcn hmge
        rcases hinv.2 with hBeq | hB0
        · rw [hmc_eq, hEval] at hBeq
          rw [show (loanCtx rate t sm sy []).monthlyRate = loanMonthlyRate rate from rfl]
            at hBeq
          rw [amortBalance_emi_zero _ (ne_of_gt hfac) hrne] at hBeq
          rw [hBeq]
          norm_num
        · rw [hB0]
          norm_num
  refine ⟨_, hcalc, ?_, ?_, ?_⟩
  · show fin.schedule.length ≤ loanFuel t
    omega
  · intro hden
    show ((fin.schedule.length : ℕ) : ℚ) ≤ loanTotalMonths t
    have hnq : (((loanTotalMonths t).num.toNat : ℕ) : ℚ) = loanTotalMonths t :=
      ratCast_num_toNat (le_of_lt htm) hden
    have hmcn : fin.monthCount ≤ (loanTotalMonths t).num.toNat := by
      have h := simRun_mc_le_int hmode hnq.symm (loanFuel t)
        (loanInitState P t sm sy emi) (Nat.zero_le _)
      rwa [← hfin] at h
    rw [hlen_mc, ← hnq]
    exact_mod_cast hmcn
  · show |min P 1000000000000 - listPrincipalSum fin.schedule| ≤ 1 / 100
    rw [abs_le]
    constructor <;> linarith

theorem c1_amended_witness :
    ((0 : ℚ) < 1200 ∧ (0 : ℚ) ≤ 0 ∧ (0 : ℚ) < 1 / 4 ∧ (1 : ℚ).den = 1 ∧
      (2024 : ℚ).den = 1 ∧ ((0 : ℚ) = 0 ∨ (loanTotalMonths (1 / 4)).den = 1)) ∧
    (∃ res, calculateLoanEMI 1200 0 (1 / 4) 1 2024 [] = Except.ok res ∧
      res.schedule.length ≤ loanFuel (1 / 4) ∧
      ((loanTotalMonths (1 / 4)).den = 1 →
        (res.schedule.length : ℚ) ≤ loanTotalMonths (1 / 4)) ∧
      |min 1200 1000000000000 - listPrincipalSum res.schedule| ≤ 1 / 100) :=
  ⟨⟨by norm_num, le_refl 0, by norm_num, rfl, rfl, Or.inl rfl⟩,
    c1_amended 1200 0 (1 / 4) 1 2024 (by norm_num) (le_refl 0) (by norm_num)
      (by norm_num) (by norm_num) rfl rfl (by norm_num) (by norm_num) (Or.inl rfl)⟩

/-! ## Schedule date lemmas -/

theorem dateOf_yearOf_monthOf (d : ℤ) : dateOf (yearOf d) (monthOf d) = d := by
  unfold dateOf yearOf monthOf
  ring

theorem mem_simStep_schedule {ctx : SimCtx} {s : SimState} {e : ScheduleEntry}
    (h : e ∈ (simStep ctx s).schedule) :
    e ∈ s.schedule ∨ dateOf e.year e.month = s.currentDate := by
  have hsched : (simStep ctx s).schedule = s.schedule ++
      [{ month := monthOf s.currentDate, year := yearOf s.currentDate,
         emiAmount := _, principalAmount := _, interestAmount := _,
         remainingBalance := _, partPayment := _ }] := rfl
  rw [hsched] at h
  rcases List.mem_append.mp h with h1 | h1
  · exact Or.inl h1
  · right
    rcases List.mem_singleton.mp h1 with rfl
    exact dateOf_yearOf_monthOf s.currentDate

theorem simGuard_true_date {ctx : SimCtx} {s : SimState}
    (hmode : ctx.hasReduceEMIPayments = true) (h : simGuard ctx s = true) :
    1 / 100 < s.remainingBalance ∧ s.currentDate < ctx.originalEndDate := by
  simp only [simGuard, hmode, if_true, Bool.and_eq_true, decide_eq_true_eq] at h
  exact h

theorem simRun_dates_datemode {ctx : SimCtx}
    (hmode : ctx.hasReduceEMIPayments = true) :
    ∀ (f : ℕ) (s : SimState),
      (∀ e ∈ s.schedule, dateOf e.year e.month < ctx.originalEndDate) →
      ∀ e ∈ (simRun ctx f s).schedule, dateOf e.year e.month < ctx.originalEndDate := by
  intro f
  induction f with
  | zero => intro s h; simpa [simRun] using h
  | succ f ih =>
    intro s h
    by_cases hg : simGuard ctx s = true
    · rw [simRun_succ_of_guard hg]
      apply ih
      intro e he
      rcases mem_simStep_schedule he with he1 | he1
      · exact h e he1
      · rw [he1]
        exact (simGuard_true_date hmode hg).2
    · rw [simRun_stop (by simpa using hg)]
      exact h

theorem simRun_dates_countermode {ctx : SimCtx} {n : ℕ} (c0 : ℤ)
    (hmode : ctx.hasReduceEMIPayments = false) (hn : ctx.totalMonths = (n : ℚ)) :
    ∀ (f : ℕ) (s : SimState), s.currentDate = c0 + s.monthCount →
      (∀ e ∈ s.schedule, dateOf e.year e.month < c0 + n) →
      ∀ e ∈ (simRun ctx f s).schedule, dateOf e.year e.month < c0 + n := by
  intro f
  induction f with
  | zero => intro s _ h; simpa [simRun] using h
  | succ f ih =>
    intro s hcur h
    by_cases hg : simGuard ctx s = true
    · rw [simRun_succ_of_guard hg]
      apply ih
      · rw [simStep_currentDate, simStep_monthCount, hcur]
        push_cast
        ring
      · intro e he
        rcases mem_simStep_schedule he with he1 | he1
        · exact h e he1
        · rw [he1, hcur]
          have hlt := (simGuard_true_counter hmode hg).2
          rw [hn] at hlt
          have : s.monthCount < n := by exact_mod_cast hlt
          omega
    · rw [simRun_stop (by simpa using hg)]
      exact h

theorem simRun_cur_le_datemode {ctx : SimCtx}
    (hmode : ctx.hasReduceEMIPayments = true) :
    ∀ (f : ℕ) (s : SimState), s.currentDate ≤ ctx.originalEndDate →
      (simRun ctx f s).currentDate ≤ ctx.originalEndDate := by
  intro f
  induction f with
  | zero => intro s h; simpa [simRun] using h
  | succ f ih =>
    intro s h
    by_cases hg : simGuard ctx s = true
    · rw [simRun_succ_of_guard hg]
      apply ih
      rw [simStep_currentDate]
      have := (simGuard_true_date hmode hg).2
      omega
    · rw [simRun_stop (by simpa using hg)]
      exact h

theorem rat_den_one_cast_num {q : ℚ} (hden : q.den = 1) : ((q.num : ℤ) : ℚ) = q := by
  conv_rhs => rw [← Rat.num_div_den q]
  rw [hden]
  simp

theorem floor_of_den_one {q : ℚ} (hden : q.den = 1) : ⌊q⌋ = q.num := by
  rw [← rat_den_one_cast_num hden]
  exact Int.floor_intCast q.num

/-! ## Core-state projection

The schedule, chart and totals are write-only accumulators: the loop
guard and the next state depend only on the balance, current date, month
counter, installment and adjusted end date.  `coreStep` is that
projection of `simStep`, with a definitional correspondence proof; it
lets concrete runs be evaluated on small states. -/

structure CoreState where
  remainingBalance : ℚ
  currentDate : ℤ
  monthCount : ℕ
  currentEMI : ℚ
  adjustedEndDate : Option ℤ
deriving DecidableEq, Repr

def coreOf (s : SimState) : CoreState :=
  { remainingBalance := s.remainingBalance
    currentDate := s.currentDate
    monthCount := s.monthCount
    currentEMI := s.currentEMI
    adjustedEndDate := s.adjustedEndDate }

def coreStep (ctx : SimCtx) (c : CoreState) : CoreState :=
  let r := ctx.monthlyRate
  let cy := yearOf c.currentDate
  let cm := monthOf c.currentDate
  let interestAmount := c.remainingBalance * r
  let principal0 := c.currentEMI - interestAmount
  let ppm := ctx.payments.filter (matchesMonth cy cm)
  let partPaymentAmount := (ppm.map (fun e => e.amount)).sum
  let principalAmount :=
    if c.remainingBalance < principal0 then c.remainingBalance else principal0
  let effectivePartPayment :=
    min partPaymentAmount (max 0 (c.remainingBalance - principalAmount))
  let newBalance := c.remainingBalance - (principalAmount + effectivePartPayment)
  let hasReduceEMIPayment := ppm.any (fun e => e.strategy == Strategy.reduceEmi)
  let hasReduceTenurePayment := ppm.any (fun e => e.strategy == Strategy.reduceTenure)
  let adjEnd1 :=
    if 0 < partPaymentAmount ∧ hasReduceTenurePayment = true ∧ 0 < newBalance then
      reduceTenureEnd r c.currentEMI newBalance c.currentDate
    else c.adjustedEndDate
  let emi1 :=
    if 0 < partPaymentAmount ∧ hasReduceEMIPayment = true then
      reduceEmiRecalc r c.currentEMI newBalance c.currentDate adjEnd1
    else c.currentEMI
  { remainingBalance := newBalance
    currentDate := c.currentDate + 1
    monthCount := c.monthCount + 1
    currentEMI := emi1
    adjustedEndDate := adjEnd1 }

def coreGuard (ctx : SimCtx) (c : CoreState) : Bool :=
  decide (1 / 100 < c.remainingBalance) &&
    (if ctx.hasReduceEMIPayments then decide (c.currentDate < ctx.originalEndDate)
     else decide ((c.monthCount : ℚ) < ctx.totalMonths))

def coreRun (ctx : SimCtx) : ℕ → CoreState → CoreState
  | 0, c => c
  | fuel + 1, c => if coreGuard ctx c then coreRun ctx fuel (coreStep ctx c) else c

theorem coreOf_simStep (ctx : SimCtx) (s : SimState) :
    coreOf (simStep ctx s) = coreStep ctx (coreOf s) := rfl

theorem coreGuard_coreOf (ctx : SimCtx) (s : SimState) :
    simGuard ctx s = coreGuard ctx (coreOf s) := rfl

theorem coreOf_simRun (ctx : SimCtx) :
    ∀ (f : ℕ) (s : SimState), coreOf (simRun ctx f s) = coreRun ctx f (coreOf s) := by
  intro f
  induction f with
  | zero => intro s; rfl
  | succ f ih =>
    intro s
    by_cases h : simGuard ctx s = true
    · rw [simRun_succ_of_guard h, coreRun, if_pos (by rw [← coreGuard_coreOf]; exact h),
        ih, coreOf_simStep]
    · rw [simRun_stop (by simpa using h), coreRun,
        if_neg (by rw [← coreGuard_coreOf]; simpa using h)]

/-- A placeholder schedule row (used as the default of `List.getD`). -/
def dummyEntry : ScheduleEntry :=
  { month := 0, year := 0, emiAmount := 0, principalAmount := 0, interestAmount := 0,
    remainingBalance := 0, partPayment := 0 }

/-- Along any run, the i-th schedule entry carries the i-th simulated
month: its date is `currentDate - length + i`. -/
theorem simRun_entry_dates_affine (ctx : SimCtx) :
    ∀ (f : ℕ) (s : SimState),
      (∀ i : ℕ, i < s.schedule.length →
        dateOf (s.schedule.getD i dummyEntry).year (s.schedule.getD i dummyEntry).month =
          s.currentDate - s.schedule.length + i) →
      ∀ i : ℕ, i < (simRun ctx f s).schedule.length →
        dateOf ((simRun ctx f s).schedule.getD i dummyEntry).year
            ((simRun ctx f s).schedule.getD i dummyEntry).month =
          (simRun ctx f s).currentDate - (simRun ctx f s).schedule.length + i := by
  intro f
  induction f with
  | zero => intro s h; simpa [simRun] using h
  | succ f ih =>
    intro s h
    by_cases hg : simGuard ctx s = true
    · rw [simRun_succ_of_guard hg]
      apply ih
      intro i hi
      rw [simStep_schedule_length] at hi
      have hsched : (simStep ctx s).schedule = s.schedule ++
          [{ month := monthOf s.currentDate, year := yearOf s.currentDate,
             emiAmount := _, principalAmount := _, interestAmount := _,
             remainingBalance := _, partPayment := _ }] := rfl
      rw [simStep_currentDate, simStep_schedule_length, hsched]
      rcases Nat.lt_succ_iff_lt_or_eq.mp hi with hi1 | rfl
      · rw [List.getD_append _ _ _ _ hi1]
        have := h i hi1
        rw [this]
        push_cast
        ring
      · rw [List.getD_append_right _ _ _ _ (le_refl _)]
        simp only [Nat.sub_self, List.getD_cons_zero]
        rw [dateOf_yearOf_monthOf]
        push_cast
        ring
    · rw [simRun_stop (by simpa using hg)]
      exact h

/-! ## Concrete run evaluation for the fractional-tenure scenarios

The 21/20-year (12.6-month) zero-rate loan of principal 1000: without
part payments the counter-bounded loop runs 13 months; with a single
far-future reduce-emi instruction the loop switches to the date bound
and runs only 12 months. -/

theorem coreRun_succ_of_guard {ctx : SimCtx} {c c' : CoreState} {n : ℕ}
    (h : coreGuard ctx c = true) (hs : coreStep ctx c = c') :
    coreRun ctx (n + 1) c = coreRun ctx n c' := by
  rw [coreRun, if_pos h, hs]

theorem coreRun_stop {ctx : SimCtx} {c : CoreState}
    (h : coreGuard ctx c = false) : ∀ n, coreRun ctx n c = c := by
  intro n
  cases n with
  | zero => rfl
  | succ n => simp [coreRun, h]

/-- The far-future reduce-emi event of the C10 counterexample. -/
def evFar2090 : PPEvent :=
  { month := 6, year := 2090, amount := 1, strategy := Strategy.reduceEmi }

/-- Loop context of the 21/20-year zero-rate loan without part payments. -/
def cxNoPP : SimCtx :=
  { monthlyRate := 0, totalMonths := 63 / 5, originalEndDate := 24300,
    startYear := 2024, payments := [], hasReduceEMIPayments := false }

/-- Loop context of the same loan with the far-future reduce-emi event. -/
def cxWithPP : SimCtx :=
  { monthlyRate := 0, totalMonths := 63 / 5, originalEndDate := 24300,
    startYear := 2024, payments := [evFar2090], hasReduceEMIPayments := true }


/-- Core state after 0 months of the 21/20-year zero-rate loan. -/
def nst0 : CoreState := ⟨1000, 24288, 0, 5000/63, some 24300⟩

/-- Core state after 1 months of the 21/20-year zero-rate loan. -/
def nst1 : CoreState := ⟨58000/63, 24289, 1, 5000/63, some 24300⟩

/-- Core state after 2 months of the 21/20-year zero-rate loan. -/
def nst2 : CoreState := ⟨53000/63, 24290, 2, 5000/63, some 24300⟩

/-- Core state after 3 months of the 21/20-year zero-rate loan. -/
def nst3 : CoreState := ⟨16000/21, 24291, 3, 5000/63, some 24300⟩

/-- Core state after 4 months of the 21/20-year zero-rate loan. -/
def nst4 : CoreState := ⟨43000/63, 24292, 4, 5000/63, some 24300⟩

/-- Core state after 5 months of the 21/20-year zero-rate loan. -/
def nst5 : CoreState := ⟨38000/63, 24293, 5, 5000/63, some 24300⟩

/-- Core state after 6 months of the 21/20-year zero-rate loan. -/
def nst6 : CoreState := ⟨11000/21, 24294, 6, 5000/63, some 24300⟩

/-- Core state after 7 months of the 21/20-year zero-rate loan. -/
def nst7 : CoreState := ⟨4000/9, 24295, 7, 5000/63, some 24300⟩

/-- Core state after 8 months of the 21/20-year zero-rate loan. -/
def nst8 : CoreState := ⟨23000/63, 24296, 8, 5000/63, some 24300⟩

/-- Core state after 9 months of the 21/20-year zero-rate loan. -/
def nst9 : CoreState := ⟨2000/7, 24297, 9, 5000/63, some 24300⟩

/-- Core state after 10 months of the 21/20-year zero-rate loan. -/
def nst10 : CoreState := ⟨13000/63, 24298, 10, 5000/63, some 24300⟩

/-- Core state after 11 months of the 21/20-year zero-rate loan. -/
def nst11 : CoreState := ⟨8000/63, 24299, 11, 5000/63, some 24300⟩

/-- Core state after 12 months of the 21/20-year zero-rate loan. -/
def nst12 : CoreState := ⟨1000/21, 24300, 12, 5000/63, some 24300⟩

/-- Core state after 13 months of the 21/20-year zero-rate loan. -/
def nst13 : CoreState := ⟨0, 24301, 13, 5000/63, some 24300⟩


theorem nstep0 : coreStep cxNoPP nst0 = nst1 := by
  norm_num [coreStep, cxNoPP, cxWithPP, evFar2090, matchesMonth, yearOf, monthOf, Int.fdiv, min_def, max_def, nst0, nst1, nst2, nst3, nst4, nst5, nst6, nst7, nst8, nst9, nst10, nst11, nst12, nst13]

theorem nstep1 : coreStep cxNoPP nst1 = nst2 := by
  norm_num [coreStep, cxNoPP, cxWithPP, evFar2090, matchesMonth, yearOf, monthOf, Int.fdiv, min_def, max_def, nst0, nst1, nst2, nst3, nst4, nst5, nst6, nst7, nst8, nst9, nst10, nst11, nst12, nst13]

theorem nstep2 : coreStep cxNoPP nst2 = nst3 := by
  norm_num [coreStep, cxNoPP, cxWithPP, evFar2090, matchesMonth, yearOf, monthOf, Int.fdiv, min_def, max_def, nst0, nst1, nst2, nst3, nst4, nst5, nst6, nst7, nst8, nst9, nst10, nst11, nst12, nst13]

theorem nstep3 : coreStep cxNoPP nst3 = nst4 := by
  norm_num [coreStep, cxNoPP, cxWithPP, evFar2090, matchesMonth, yearOf, monthOf, Int.fdiv, min_def, max_def, nst0, nst1, nst2, nst3, nst4, nst5, nst6, nst7, nst8, nst9, nst10, nst11, nst12, nst13]

theorem nstep4 : coreStep cxNoPP nst4 = nst5 := by
  norm_num [coreStep, cxNoPP, cxWithPP, evFar2090, matchesMonth, yearOf, monthOf, Int.fdiv, min_def, max_def, nst0, nst1, nst2, nst3, nst4, nst5, nst6, nst7, nst8, nst9, nst10, nst11, nst12, nst13]

theorem nstep5 : coreStep cxNoPP nst5 = nst6 := by
  norm_num [coreStep, cxNoPP, cxWithPP, evFar2090, matchesMonth, yearOf, monthOf, Int.fdiv, min_def, max_def, nst0, nst1, nst2, nst3, nst4, nst5, nst6, nst7, nst8, nst9, nst10, nst11, nst12, nst13]

theorem nstep6 : coreStep cxNoPP nst6 = nst7 := by
  norm_num [coreStep, cxNoPP, cxWithPP, evFar2090, matchesMonth, yearOf, monthOf, Int.fdiv, min_def, max_def, nst0, nst1, nst2, nst3, nst4, nst5, nst6, nst7, nst8, nst9, nst10, nst11, nst12, nst13]

theorem nstep7 : coreStep cxNoPP nst7 = nst8 := by
  norm_num [coreStep, cxNoPP, cxWithPP, evFar2090, matchesMonth, yearOf, monthOf, Int.fdiv, min_def, max_def, nst0, nst1, nst2, nst3, nst4, nst5, nst6, nst7, nst8, nst9, nst10, nst11, nst12, nst13]

theorem nstep8 : coreStep cxNoPP nst8 = nst9 := by
  norm_num [coreStep, cxNoPP, cxWithPP, evFar2090, matchesMonth, yearOf, monthOf, Int.fdiv, min_def, max_def, nst0, nst1, nst2, nst3, nst4, nst5, nst6, nst7, nst8, nst9, nst10, nst11, nst12, nst13]

theorem nstep9 : coreStep cxNoPP nst9 = nst10 := by
  norm_num [coreStep, cxNoPP, cxWithPP, evFar2090, matchesMonth, yearOf, monthOf, Int.fdiv, min_def, max_def, nst0, nst1, nst2, nst3, nst4, nst5, nst6, nst7, nst8, nst9, nst10, nst11, nst12, nst13]

theorem nstep10 : coreStep cxNoPP nst10 = nst11 := by
  norm_num [coreStep, cxNoPP, cxWithPP, evFar2090, matchesMonth, yearOf, monthOf, Int.fdiv, min_def, max_def, nst0, nst1, nst2, nst3, nst4, nst5, nst6, nst7, nst8, nst9, nst10, nst11, nst12, nst13]

theorem nstep11 : coreStep cxNoPP nst11 = nst12 := by
  norm_num [coreStep, cxNoPP, cxWithPP, evFar2090, matchesMonth, yearOf, monthOf, Int.fdiv, min_def, max_def, nst0, nst1, nst2, nst3, nst4, nst5, nst6, nst7, nst8, nst9, nst10, nst11, nst12, nst13]

theorem nstep12 : coreStep cxNoPP nst12 = nst13 := by
  norm_num [coreStep, cxNoPP, cxWithPP, evFar2090, matchesMonth, yearOf, monthOf, Int.fdiv, min_def, max_def, nst0, nst1, nst2, nst3, nst4, nst5, nst6, nst7, nst8, nst9, nst10, nst11, nst12, nst13]

theorem wstep0 : coreStep cxWithPP nst0 = nst1 := by
  norm_num [coreStep, cxNoPP, cxWithPP, evFar2090, matchesMonth, yearOf, monthOf, Int.fdiv, min_def, max_def, nst0, nst1, nst2, nst3, nst4, nst5, nst6, nst7, nst8, nst9, nst10, nst11, nst12, nst13]

theorem wstep1 : coreStep cxWithPP nst1 = nst2 := by
  norm_num [coreStep, cxNoPP, cxWithPP, evFar2090, matchesMonth, yearOf, monthOf, Int.fdiv, min_def, max_def, nst0, nst1, nst2, nst3, nst4, nst5, nst6, nst7, nst8, nst9, nst10, nst11, nst12, nst13]

theorem wstep2 : coreStep cxWithPP nst2 = nst3 := by
  norm_num [coreStep, cxNoPP, cxWithPP, evFar2090, matchesMonth, yearOf, monthOf, Int.fdiv, min_def, max_def, nst0, nst1, nst2, nst3, nst4, nst5, nst6, nst7, nst8, nst9, nst10, nst11, nst12, nst13]

theorem wstep3 : coreStep cxWithPP nst3 = nst4 := by
  norm_num [coreStep, cxNoPP, cxWithPP, evFar2090, matchesMonth, yearOf, monthOf, Int.fdiv, min_def, max_def, nst0, nst1, nst2, nst3, nst4, nst5, nst6, nst7, nst8, nst9, nst10, nst11, nst12, nst13]

theorem wstep4 : coreStep cxWithPP nst4 = nst5 := by
  norm_num [coreStep, cxNoPP, cxWithPP, evFar2090, matchesMonth, yearOf, monthOf, Int.fdiv, min_def, max_def, nst0, nst1, nst2, nst3, nst4, nst5, nst6, nst7, nst8, nst9, nst10, nst11, nst12, nst13]

theorem wstep5 : coreStep cxWithPP nst5 = nst6 := by
  norm_num [coreStep, cxNoPP, cxWithPP, evFar2090, matchesMonth, yearOf, monthOf, Int.fdiv, min_def, max_def, nst0, nst1, nst2, nst3, nst4, nst5, nst6, nst7, nst8, nst9, nst10, nst11, nst12, nst13]

theorem wstep6 : coreStep cxWithPP nst6 = nst7 := by
  norm_num [coreStep, cxNoPP, cxWithPP, evFar2090, matchesMonth, yearOf, monthOf, Int.fdiv, min_def, max_def, nst0, nst1, nst2, nst3, nst4, nst5, nst6, nst7, nst8, nst9, nst10, nst11, nst12, nst13]

theorem wstep7 : coreStep cxWithPP nst7 = nst8 := by
  norm_num [coreStep, cxNoPP, cxWithPP, evFar2090, matchesMonth, yearOf, monthOf, Int.fdiv, min_def, max_def, nst0, nst1, nst2, nst3, nst4, nst5, nst6, nst7, nst8, nst9, nst10, nst11, nst12, nst13]

theorem wstep8 : coreStep cxWithPP nst8 = nst9 := by
  norm_num [coreStep, cxNoPP, cxWithPP, evFar2090, matchesMonth, yearOf, monthOf, Int.fdiv, min_def, max_def, nst0, nst1, nst2, nst3, nst4, nst5, nst6, nst7, nst8, nst9, nst10, nst11, nst12, nst13]

theorem wstep9 : coreStep cxWithPP nst9 = nst10 := by
  norm_num [coreStep, cxNoPP, cxWithPP, evFar2090, matchesMonth, yearOf, monthOf, Int.fdiv, min_def, max_def, nst0, nst1, nst2, nst3, nst4, nst5, nst6, nst7, nst8, nst9, nst10, nst11, nst12, nst13]

theorem wstep10 : coreStep cxWithPP nst10 = nst11 := by
  norm_num [coreStep, cxNoPP, cxWithPP, evFar2090, matchesMonth, yearOf, monthOf, Int.fdiv, min_def, max_def, nst0, nst1, nst2, nst3, nst4, nst5, nst6, nst7, nst8, nst9, nst10, nst11, nst12, nst13]

theorem wstep11 : coreStep cxWithPP nst11 = nst12 := by
  norm_num [coreStep, cxNoPP, cxWithPP, evFar2090, matchesMonth, yearOf, monthOf, Int.fdiv, min_def, max_def, nst0, nst1, nst2, nst3, nst4, nst5, nst6, nst7, nst8, nst9, nst10, nst11, nst12, nst13]

theorem ng0 : coreGuard cxNoPP nst0 = true := by
  norm_num [coreGuard, cxNoPP, nst0]

theorem ng1 : coreGuard cxNoPP nst1 = true := by
  norm_num [coreGuard, cxNoPP, nst1]

theorem ng2 : coreGuard cxNoPP nst2 = true := by
  norm_num [coreGuard, cxNoPP, nst2]

theorem ng3 : coreGuard cxNoPP nst3 = true := by
  norm_num [coreGuard, cxNoPP, nst3]

theorem ng4 : coreGuard cxNoPP nst4 = true := by
  norm_num [coreGuard, cxNoPP, nst4]

theorem ng5 : coreGuard cxNoPP nst5 = true := by
  norm_num [coreGuard, cxNoPP, nst5]

theorem ng6 : coreGuard cxNoPP nst6 = true := by
  norm_num [coreGuard, cxNoPP, nst6]

theorem ng7 : coreGuard cxNoPP nst7 = true := by
  norm_num [coreGuard, cxNoPP, nst7]

theorem ng8 : coreGuard cxNoPP nst8 = true := by
  norm_num [coreGuard, cxNoPP, nst8]

theorem ng9 : coreGuard cxNoPP nst9 = true := by
  norm_num [coreGuard, cxNoPP, nst9]

theorem ng10 : coreGuard cxNoPP nst10 = true := by
  norm_num [coreGuard, cxNoPP, nst10]

theorem ng11 : coreGuard cxNoPP nst11 = true := by
  norm_num [coreGuard, cxNoPP, nst11]

theorem ng12 : coreGuard cxNoPP nst12 = true := by
  norm_num [coreGuard, cxNoPP, nst12]

theorem ng13 : coreGuard cxNoPP nst13 = false := by
  norm_num [coreGuard, cxNoPP, nst13]

theorem wg0 : coreGuard cxWithPP nst0 = true := by
  norm_num [coreGuard, cxWithPP, nst0]

theorem wg1 : coreGuard cxWithPP nst1 = true := by
  norm_num [coreGuard, cxWithPP, nst1]

theorem wg2 : coreGuard cxWithPP nst2 = true := by
  norm_num [coreGuard, cxWithPP, nst2]

theorem wg3 : coreGuard cxWithPP nst3 = true := by
  norm_num [coreGuard, cxWithPP, nst3]

theorem wg4 : coreGuard cxWithPP nst4 = true := by
  norm_num [coreGuard, cxWithPP, nst4]

theorem wg5 : coreGuard cxWithPP nst5 = true := by
  norm_num [coreGuard, cxWithPP, nst5]

theorem wg6 : coreGuard cxWithPP nst6 = true := by
  norm_num [coreGuard, cxWithPP, nst6]

theorem wg7 : coreGuard cxWithPP nst7 = true := by
  norm_num [coreGuard, cxWithPP, nst7]

theorem wg8 : coreGuard cxWithPP nst8 = true := by
  norm_num [coreGuard, cxWithPP, nst8]

theorem wg9 : coreGuard cxWithPP nst9 = true := by
  norm_num [coreGuard, cxWithPP, nst9]

theorem wg10 : coreGuard cxWithPP nst10 = true := by
  norm_num [coreGuard, cxWithPP, nst10]

theorem wg11 : coreGuard cxWithPP nst11 = true := by
  norm_num [coreGuard, cxWithPP, nst11]

theorem wg12 : coreGuard cxWithPP nst12 = false := by
  norm_num [coreGuard, cxWithPP, nst12]

theorem cxNoPP_eval : coreRun cxNoPP 13 nst0 = nst13 := by
  rw [coreRun_succ_of_guard ng0 nstep0, coreRun_succ_of_guard ng1 nstep1, coreRun_succ_of_guard ng2 nstep2, coreRun_succ_of_guard ng3 nstep3, coreRun_succ_of_guard ng4 nstep4, coreRun_succ_of_guard ng5 nstep5, coreRun_succ_of_guard ng6 nstep6, coreRun_succ_of_guard ng7 nstep7, coreRun_succ_of_guard ng8 nstep8, coreRun_succ_of_guard ng9 nstep9, coreRun_succ_of_guard ng10 nstep10, coreRun_succ_of_guard ng11 nstep11, coreRun_succ_of_guard ng12 nstep12]
  rfl

theorem cxWithPP_eval : coreRun cxWithPP 13 nst0 = nst12 := by
  rw [coreRun_succ_of_guard wg0 wstep0, coreRun_succ_of_guard wg1 wstep1, coreRun_succ_of_guard wg2 wstep2, coreRun_succ_of_guard wg3 wstep3, coreRun_succ_of_guard wg4 wstep4, coreRun_succ_of_guard wg5 wstep5, coreRun_succ_of_guard wg6 wstep6, coreRun_succ_of_guard wg7 wstep7, coreRun_succ_of_guard wg8 wstep8, coreRun_succ_of_guard wg9 wstep9, coreRun_succ_of_guard wg10 wstep10, coreRun_succ_of_guard wg11 wstep11, coreRun_stop wg12]

/-- C5 counterexample: with the fractional tenure 21/20 years (12.6
total months), rate 0, principal 1000 and no part payments, the
counter-bounded loop runs 13 months, and the 13th schedule entry (index
12) is dated exactly at the truncated original end date 24300 (Jan
2025) - the schedule is not confined to months before the original
nominal end date. -/
theorem c5_counterexample :
    (calculateLoanEMI 1000 0 (21 / 20) 1 2024 []).map
        (fun r => (r.schedule.length,
          dateOf (r.schedule.getD 12 dummyEntry).year
            (r.schedule.getD 12 dummyEntry).month)) =
      Except.ok (13, 24300) ∧ loanOriginalEnd (21 / 20) 1 2024 = 24300 := by
  have hval : validateLoan 1000 0 (21 / 20) 1 2024 = none := by
    norm_num [validateLoan]
  have hemi : computeEmi (min 1000 1000000000000) (loanMonthlyRate 0)
      (loanTotalMonths (21 / 20)) = Except.ok (5000 / 63) := by
    norm_num [computeEmi, loanMonthlyRate, loanTotalMonths, min_def, Except.bind]
  have hctx : loanCtx 0 (21 / 20) 1 2024 [] = cxNoPP := by
    unfold loanCtx cxNoPP
    rw [loanEvents_nil]
    norm_num [loanMonthlyRate, loanTotalMonths, loanOriginalEnd, loanStartDate, dateOf,
      min_def, SimCtx.mk.injEq]
  have hfuel : loanFuel (21 / 20) = 13 := by
    norm_num [loanFuel, loanTotalMonths, min_def]
    decide
  have hs0 : coreOf (loanInitState 1000 (21 / 20) 1 2024 (5000 / 63)) = nst0 := by
    norm_num [coreOf, loanInitState, loanStartDate, loanOriginalEnd, loanTotalMonths,
      dateOf, min_def, nst0, CoreState.mk.injEq]
  set fin := simRun (loanCtx 0 (21 / 20) 1 2024 []) (loanFuel (21 / 20))
    (loanInitState 1000 (21 / 20) 1 2024 (5000 / 63)) with hfin
  have hcore : coreOf fin = nst13 := by
    rw [hfin, coreOf_simRun, hctx, hfuel, hs0, cxNoPP_eval]
  have hmc : fin.monthCount = 13 := congrArg CoreState.monthCount hcore
  have hcur : fin.currentDate = 24301 := congrArg CoreState.currentDate hcore
  have hlen : fin.schedule.length = 13 := by
    have h := simRun_schedule_length (loanCtx 0 (21 / 20) 1 2024 [])
      (loanFuel (21 / 20)) (loanInitState 1000 (21 / 20) 1 2024 (5000 / 63))
    rw [← hfin] at h
    simpa [loanInitState, hmc] using h
  have hdate : dateOf (fin.schedule.getD 12 dummyEntry).year
      (fin.schedule.getD 12 dummyEntry).month = 24300 := by
    have h := simRun_entry_dates_affine (loanCtx 0 (21 / 20) 1 2024 [])
      (loanFuel (21 / 20)) (loanInitState 1000 (21 / 20) 1 2024 (5000 / 63))
      (by intro i hi; simp [loanInitState] at hi) 12
    rw [← hfin] at h
    have h12 : 12 < fin.schedule.length := by omega
    have := h h12
    rw [hcur, hlen] at this
    rw [this]
    norm_num
  have hcalc : calculateLoanEMI 1000 0 (21 / 20) 1 2024 [] = Except.ok
      { emi := 5000 / 63, totalInterest := fin.totalInterestPaid,
        totalAmount := min 1000 1000000000000 + fin.totalInterestPaid,
        schedule := fin.schedule, chartData := fin.chartData } := by
    rw [calculateLoanEMI, hval, hemi]
    rfl
  constructor
  · rw [hcalc]
    simp only [Except.map]
    rw [hlen, hdate]
  · norm_num [loanOriginalEnd, loanStartDate, loanTotalMonths, dateOf, min_def]

/-- C5 (amended): for every validated input of the rational model, the
loop exhausts its guard within the provided fuel: at the final state
either the balance is at or below the 0.01 epsilon or the
mode-dependent bound is spent - the date bound `currentDate <
originalEndDate` when any reduce-emi event exists anywhere in the
expanded plan, the month counter bound otherwise.  Every schedule entry
is dated no later than the (truncated) original nominal end date and
the schedule never exceeds the fuel; when the month count is integral
the containment is strict and the length is bounded by the month count
itself.  (For fractional month counts the counter-mode schedule may
include one month dated exactly at the truncated end date - see the
counterexample.) -/
theorem c5_amended (P rate t sm sy : ℚ) (pps : List PartPayment)
    (hP : 0 < P) (hr : 0 ≤ rate) (ht : 0 < t)
    (hsm1 : 1 ≤ sm) (hsm2 : sm ≤ 12) (hsmd : sm.den = 1)
    (hsyd : sy.den = 1) (hsy1 : 1900 ≤ sy) (hsy2 : sy ≤ 2200)
    (hmodel : rate = 0 ∨ (loanTotalMonths t).den = 1) :
    ∃ emi, computeEmi (min P 1000000000000) (loanMonthlyRate rate)
        (loanTotalMonths t) = Except.ok emi ∧
      (calculateLoanEMI P rate t sm sy pps).isOk = true ∧
      ((loanCtx rate t sm sy pps).hasReduceEMIPayments = true ↔
        ∃ e ∈ loanEvents t sm sy pps, e.strategy = Strategy.reduceEmi) ∧
      (simGuard (loanCtx rate t sm sy pps)
        (simRun (loanCtx rate t sm sy pps) (loanFuel t)
          (loanInitState P t sm sy emi)) = false) ∧
      (∀ e ∈ (simRun (loanCtx rate t sm sy pps) (loanFuel t)
          (loanInitState P t sm sy emi)).schedule,
        dateOf e.year e.month ≤ loanOriginalEnd t sm sy) ∧
      (simRun (loanCtx rate t sm sy pps) (loanFuel t)
          (loanInitState P t sm sy emi)).schedule.length ≤ loanFuel t ∧
      ((loanTotalMonths t).den = 1 →
        (∀ e ∈ (simRun (loanCtx rate t sm sy pps) (loanFuel t)
            (loanInitState P t sm sy emi)).schedule,
          dateOf e.year e.month < (loanCtx rate t sm sy pps).originalEndDate) ∧
        (simRun (loanCtx rate t sm sy pps) (loanFuel t)
            (loanInitState P t sm sy emi)).schedule.length ≤
          (loanTotalMonths t).num.toNat) := by
  obtain ⟨emi, hemi, hemipos⟩ := computeEmi_ok hP hr ht hmodel
  have hval : validateLoan P rate t sm sy = none :=
    (validateLoan_eq_none_iff _ _ _ _ _).mpr ⟨hP, hr, ht, hsm1, hsm2, hsmd, hsyd, hsy1, hsy2⟩
  have htm : 0 < loanTotalMonths t := loanTotalMonths_pos ht
  have hfloor_nn : 0 ≤ ⌊loanTotalMonths t⌋ := Int.floor_nonneg.mpr (le_of_lt htm)
  have htnn : ((⌊loanTotalMonths t⌋.toNat : ℕ) : ℤ) = ⌊loanTotalMonths t⌋ :=
    Int.toNat_of_nonneg hfloor_nn
  set ctx := loanCtx rate t sm sy pps with hctx
  set s0 := loanInitState P t sm sy emi with hs0
  have hcur0 : s0.currentDate = loanStartDate sm sy := rfl
  have hmc0 : s0.monthCount = 0 := rfl
  have hsch0 : s0.schedule = [] := rfl
  have hend0 : ctx.originalEndDate = loanStartDate sm sy + ⌊loanTotalMonths t⌋ := rfl
  have hfuelz : (loanFuel t : ℤ) = ⌊loanTotalMonths t⌋ + 1 := by
    unfold loanFuel
    push_cast
    omega
  have hlen_mc : (simRun ctx (loanFuel t) s0).schedule.length =
      (simRun ctx (loanFuel t) s0).monthCount := by
    have h := simRun_schedule_length ctx (loanFuel t) s0
    rw [hmc0, hsch0] at h
    simpa using h
  have hmcle : (simRun ctx (loanFuel t) s0).monthCount ≤ loanFuel t := by
    have h := simRun_mc_le_fuel ctx (loanFuel t) s0
    rw [hmc0] at h
    simpa using h
  have haff := simRun_currentDate_eq ctx (loanFuel t) s0
  rw [hcur0, hmc0] at haff
  have hdates : ∀ i : ℕ, i < (simRun ctx (loanFuel t) s0).schedule.length →
      dateOf ((simRun ctx (loanFuel t) s0).schedule.getD i dummyEntry).year
        ((simRun ctx (loanFuel t) s0).schedule.getD i dummyEntry).month =
      loanStartDate sm sy + i := by
    intro i hi
    have h := simRun_entry_dates_affine ctx (loanFuel t) s0
      (by intro j hj; rw [hsch0] at hj; simp at hj) i hi
    rw [h, hlen_mc]
    push_cast at haff ⊢
    omega
  have hcontain : ∀ e ∈ (simRun ctx (loanFuel t) s0).schedule,
      dateOf e.year e.month ≤ loanOriginalEnd t sm sy := by
    intro e he
    obtain ⟨i, hi, hie⟩ := List.mem_iff_getElem.mp he
    have hgd : (simRun ctx (loanFuel t) s0).schedule.getD i dummyEntry = e := by
      rw [List.getD_eq_getElem _ _ hi, hie]
    have hd := hdates i hi
    rw [hgd] at hd
    have hilt : i < loanFuel t := by
      rw [hlen_mc] at hi
      exact lt_of_lt_of_le hi hmcle
    have hiz : (i : ℤ) < (loanFuel t : ℤ) := by exact_mod_cast hilt
    show dateOf e.year e.month ≤ loanStartDate sm sy + ⌊loanTotalMonths t⌋
    omega
  refine ⟨emi, hemi, ?_, ?_, ?_, hcontain, ?_, ?_⟩
  · rw [calculateLoanEMI, hval, hemi]
    rfl
  · show ctx.hasReduceEMIPayments = true ↔ _
    rw [hctx]
    show (loanEvents t sm sy pps).any _ = true ↔ _
    rw [List.any_eq_true]
    constructor
    · rintro ⟨e, he, hs⟩
      exact ⟨e, he, by simpa using hs⟩
    · rintro ⟨e, he, hs⟩
      exact ⟨e, he, by simpa using hs⟩
  · cases hm : ctx.hasReduceEMIPayments with
    | false =>
      apply simRun_guard_false_counter hm
      have hctm : ctx.totalMonths = loanTotalMonths t := rfl
      rw [hmc0, hctm]
      push_cast
      omega
    | true =>
      apply simRun_guard_false_date hm
      rw [hcur0, hend0]
      omega
  · rw [hlen_mc]
    exact hmcle
  · intro hden
    have hfloor_num : ⌊loanTotalMonths t⌋ = (loanTotalMonths t).num := floor_of_den_one hden
    have hnum_nn : 0 ≤ (loanTotalMonths t).num := by rw [← hfloor_num]; exact hfloor_nn
    have hnq : (((loanTotalMonths t).num.toNat : ℕ) : ℚ) = loanTotalMonths t :=
      ratCast_num_toNat (le_of_lt htm) hden
    set n := (loanTotalMonths t).num.toNat with hn
    have hend : ctx.originalEndDate = loanStartDate sm sy + (n : ℤ) := by
      rw [hend0, hfloor_num, hn, Int.toNat_of_nonneg hnum_nn]
    constructor
    · cases hm : ctx.hasReduceEMIPayments with
      | false =>
        have hdatesc := simRun_dates_countermode (loanStartDate sm sy) hm
          (by show loanTotalMonths t = _; rw [hnq]) (loanFuel t) s0
          (by rw [hcur0, hmc0]; push_cast; ring)
          (by intro e he; simp [hs0, loanInitState] at he)
        intro e he
        rw [hend]
        exact hdatesc e he
      | true =>
        exact simRun_dates_datemode hm (loanFuel t) s0
          (by intro e he; simp [hs0, loanInitState] at he)
    · rw [hlen_mc]
      cases hm : ctx.hasReduceEMIPayments with
      | false =>
        exact simRun_mc_le_int hm (by show loanTotalMonths t = _; rw [hnq]) (loanFuel t) s0
          (by rw [hmc0]; exact Nat.zero_le _)
      | true =>
        have hcurle := simRun_cur_le_datemode hm (loanFuel t) s0
          (by rw [hcur0, hend]; omega)
        have haff2 := simRun_currentDate_eq ctx (loanFuel t) s0
        rw [hcur0, hmc0] at haff2
        rw [hend] at hcurle
        omega

/-- C5 amended witness: the amended theorem instantiated on 1200 at
rate 0 over a quarter year from January 2024 with no part payments. -/
theorem c5_amended_witness :
    ((0 : ℚ) < 1200 ∧ (0 : ℚ) ≤ 0 ∧ (0 : ℚ) < 1 / 4 ∧
      ((0 : ℚ) = 0 ∨ (loanTotalMonths (1 / 4)).den = 1)) ∧
    (∃ emi, computeEmi (min 1200 1000000000000) (loanMonthlyRate 0)
        (loanTotalMonths (1 / 4)) = Except.ok emi ∧
      (calculateLoanEMI 1200 0 (1 / 4) 1 2024 []).isOk = true ∧
      ((loanCtx 0 (1 / 4) 1 2024 []).hasReduceEMIPayments = true ↔
        ∃ e ∈ loanEvents (1 / 4) 1 2024 [], e.strategy = Strategy.reduceEmi) ∧
      (simGuard (loanCtx 0 (1 / 4) 1 2024 [])
        (simRun (loanCtx 0 (1 / 4) 1 2024 []) (loanFuel (1 / 4))
          (loanInitState 1200 (1 / 4) 1 2024 emi)) = false) ∧
      (∀ e ∈ (simRun (loanCtx 0 (1 / 4) 1 2024 []) (loanFuel (1 / 4))
          (loanInitState 1200 (1 / 4) 1 2024 emi)).schedule,
        dateOf e.year e.month ≤ loanOriginalEnd (1 / 4) 1 2024) ∧
      (simRun (loanCtx 0 (1 / 4) 1 2024 []) (loanFuel (1 / 4))
          (loanInitState 1200 (1 / 4) 1 2024 emi)).schedule.length ≤
        loanFuel (1 / 4) ∧
      ((loanTotalMonths (1 / 4)).den = 1 →
        (∀ e ∈ (simRun (loanCtx 0 (1 / 4) 1 2024 []) (loanFuel (1 / 4))
            (loanInitState 1200 (1 / 4) 1 2024 emi)).schedule,
          dateOf e.year e.month < (loanCtx 0 (1 / 4) 1 2024 []).originalEndDate) ∧
        (simRun (loanCtx 0 (1 / 4) 1 2024 []) (loanFuel (1 / 4))
            (loanInitState 1200 (1 / 4) 1 2024 emi)).schedule.length ≤
          (loanTotalMonths (1 / 4)).num.toNat)) :=
  ⟨⟨by norm_num, le_refl 0, by norm_num, Or.inl rfl⟩,
    c5_amended 1200 0 (1 / 4) 1 2024 [] (by norm_num) (le_refl 0) (by norm_num)
      (by norm_num) (by norm_num) rfl rfl (by norm_num) (by norm_num) (Or.inl rfl)⟩


/-- The far-future one-time reduce-emi instruction of the C10
counterexample. -/
def ppFar2090 : PartPayment :=
  { month := 6, year := 2090, amount := 1, frequency := Frequency.oneTime,
    strategy := Strategy.reduceEmi }

/-- C10 counterexample: on the 21/20-year zero-rate loan, adding a
one-time reduce-emi instruction dated June 2090 - far outside every
simulated month - changes the schedule length from 13 to 12, because its
mere existence switches the loop bound from the month counter to the
(truncated) date bound. -/
theorem c10_counterexample :
    (calculateLoanEMI 1000 0 (21 / 20) 1 2024 []).map (fun r => r.schedule.length) =
      Except.ok 13 ∧
    (calculateLoanEMI 1000 0 (21 / 20) 1 2024 [ppFar2090]).map
        (fun r => r.schedule.length) = Except.ok 12 := by
  have hval : validateLoan 1000 0 (21 / 20) 1 2024 = none := by
    norm_num [validateLoan]
  have hemi : computeEmi (min 1000 1000000000000) (loanMonthlyRate 0)
      (loanTotalMonths (21 / 20)) = Except.ok (5000 / 63) := by
    norm_num [computeEmi, loanMonthlyRate, loanTotalMonths, min_def, Except.bind]
  have hfuel : loanFuel (21 / 20) = 13 := by
    norm_num [loanFuel, loanTotalMonths, min_def]
    decide
  constructor
  · have hctx : loanCtx 0 (21 / 20) 1 2024 [] = cxNoPP := by
      unfold loanCtx cxNoPP
      rw [loanEvents_nil]
      norm_num [loanMonthlyRate, loanTotalMonths, loanOriginalEnd, loanStartDate, dateOf,
        min_def, SimCtx.mk.injEq]
    have hs0 : coreOf (loanInitState 1000 (21 / 20) 1 2024 (5000 / 63)) = nst0 := by
      norm_num [coreOf, loanInitState, loanStartDate, loanOriginalEnd, loanTotalMonths,
        dateOf, min_def, nst0, CoreState.mk.injEq]
    set fin := simRun (loanCtx 0 (21 / 20) 1 2024 []) (loanFuel (21 / 20))
      (loanInitState 1000 (21 / 20) 1 2024 (5000 / 63)) with hfin
    have hcore : coreOf fin = nst13 := by
      rw [hfin, coreOf_simRun, hctx, hfuel, hs0, cxNoPP_eval]
    have hmc : fin.monthCount = 13 := congrArg CoreState.monthCount hcore
    have hlen : fin.schedule.length = 13 := by
      have h := simRun_schedule_length (loanCtx 0 (21 / 20) 1 2024 [])
        (loanFuel (21 / 20)) (loanInitState 1000 (21 / 20) 1 2024 (5000 / 63))
      rw [← hfin] at h
      simpa [loanInitState, hmc] using h
    have hcalc : calculateLoanEMI 1000 0 (21 / 20) 1 2024 [] = Except.ok
        { emi := 5000 / 63, totalInterest := fin.totalInterestPaid,
          totalAmount := min 1000 1000000000000 + fin.totalInterestPaid,
          schedule := fin.schedule, chartData := fin.chartData } := by
      rw [calculateLoanEMI, hval, hemi]
      rfl
    rw [hcalc]
    simp only [Except.map]
    rw [hlen]
  · have hevents : loanEvents (21 / 20) 1 2024 [ppFar2090] = [evFar2090] := by
      unfold loanEvents expandAllPayments
      rw [show [ppFar2090].flatMap (expandPayment (loanExpandEnd (21 / 20) 1 2024)) =
        [evFar2090] from rfl]
      rw [List.mergeSort_of_sorted (List.pairwise_singleton _ _)]
    have hctx : loanCtx 0 (21 / 20) 1 2024 [ppFar2090] = cxWithPP := by
      unfold loanCtx cxWithPP
      rw [hevents]
      norm_num [loanMonthlyRate, loanTotalMonths, loanOriginalEnd, loanStartDate, dateOf,
        min_def, SimCtx.mk.injEq, evFar2090]
    have hs0 : coreOf (loanInitState 1000 (21 / 20) 1 2024 (5000 / 63)) = nst0 := by
      norm_num [coreOf, loanInitState, loanStartDate, loanOriginalEnd, loanTotalMonths,
        dateOf, min_def, nst0, CoreState.mk.injEq]
    set fin := simRun (loanCtx 0 (21 / 20) 1 2024 [ppFar2090]) (loanFuel (21 / 20))
      (loanInitState 1000 (21 / 20) 1 2024 (5000 / 63)) with hfin
    have hcore : coreOf fin = nst12 := by
      rw [hfin, coreOf_simRun, hctx, hfuel, hs0, cxWithPP_eval]
    have hmc : fin.monthCount = 12 := congrArg CoreState.monthCount hcore
    have hlen : fin.schedule.length = 12 := by
      have h := simRun_schedule_length (loanCtx 0 (21 / 20) 1 2024 [ppFar2090])
        (loanFuel (21 / 20)) (loanInitState 1000 (21 / 20) 1 2024 (5000 / 63))
      rw [← hfin] at h
      simpa [loanInitState, hmc] using h
    have hcalc : calculateLoanEMI 1000 0 (21 / 20) 1 2024 [ppFar2090] = Except.ok
        { emi := 5000 / 63, totalInterest := fin.totalInterestPaid,
          totalAmount := min 1000 1000000000000 + fin.totalInterestPaid,
          schedule := fin.schedule, chartData := fin.chartData } := by
      rw [calculateLoanEMI, hval, hemi]
      rfl
    rw [hcalc]
    simp only [Except.map]
    rw [hlen]

/-! ## Run congruence: out-of-window events are invisible -/

/-- The expanded events consulted for the month of absolute date `d`. -/
def monthEvents (payments : List PPEvent) (d : ℤ) : List PPEvent :=
  payments.filter (matchesMonth (yearOf d) (monthOf d))

theorem eventDate_of_matches {e : PPEvent} {d : ℤ}
    (h : matchesMonth (yearOf d) (monthOf d) e = true) : eventDate e = d := by
  simp only [matchesMonth, Bool.and_eq_true, beq_iff_eq] at h
  unfold eventDate dateOf
  rw [h.1, h.2]
  unfold yearOf monthOf
  ring

theorem perm_any_eq {α : Type} {l1 l2 : List α} (h : l1.Perm l2) (p : α → Bool) :
    l1.any p = l2.any p := by
  cases hb : l2.any p with
  | false =>
    rw [List.any_eq_false] at hb ⊢
    intro x hx
    exact hb x (h.mem_iff.mp hx)
  | true =>
    rw [List.any_eq_true] at hb ⊢
    rcases hb with ⟨x, hx, hp⟩
    exact ⟨x, h.mem_iff.mpr hx, hp⟩

/-- The step reads the month's events only through their amount-sum and
the two strategy flags. -/
theorem simStep_congr {ctx1 ctx2 : SimCtx} (s : SimState)
    (hr : ctx1.monthlyRate = ctx2.monthlyRate)
    (hsy : ctx1.startYear = ctx2.startYear)
    (hsum : ((monthEvents ctx1.payments s.currentDate).map (fun e => e.amount)).sum =
      ((monthEvents ctx2.payments s.currentDate).map (fun e => e.amount)).sum)
    (hanyE : (monthEvents ctx1.payments s.currentDate).any
        (fun e => e.strategy == Strategy.reduceEmi) =
      (monthEvents ctx2.payments s.currentDate).any
        (fun e => e.strategy == Strategy.reduceEmi))
    (hanyT : (monthEvents ctx1.payments s.currentDate).any
        (fun e => e.strategy == Strategy.reduceTenure) =
      (monthEvents ctx2.payments s.currentDate).any
        (fun e => e.strategy == Strategy.reduceTenure)) :
    simStep ctx1 s = simStep ctx2 s := by
  simp only [simStep]
  unfold monthEvents at hsum hanyE hanyT
  rw [hr, hsy, hsum, hanyE, hanyT]

theorem simGuard_congr {ctx1 ctx2 : SimCtx} (s : SimState)
    (htm : ctx1.totalMonths = ctx2.totalMonths)
    (hend : ctx1.originalEndDate = ctx2.originalEndDate)
    (hmode : ctx1.hasReduceEMIPayments = ctx2.hasReduceEMIPayments) :
    simGuard ctx1 s = simGuard ctx2 s := by
  unfold simGuard
  rw [htm, hend, hmode]

theorem simRun_congr {ctx1 ctx2 : SimCtx}
    (hr : ctx1.monthlyRate = ctx2.monthlyRate)
    (hsy : ctx1.startYear = ctx2.startYear)
    (htm : ctx1.totalMonths = ctx2.totalMonths)
    (hend : ctx1.originalEndDate = ctx2.originalEndDate)
    (hmode : ctx1.hasReduceEMIPayments = ctx2.hasReduceEMIPayments) :
    ∀ (f : ℕ) (s : SimState),
      (∀ d : ℤ, s.currentDate ≤ d → d < s.currentDate + f →
        ((monthEvents ctx1.payments d).map (fun e => e.amount)).sum =
            ((monthEvents ctx2.payments d).map (fun e => e.amount)).sum ∧
          (monthEvents ctx1.payments d).any (fun e => e.strategy == Strategy.reduceEmi) =
            (monthEvents ctx2.payments d).any (fun e => e.strategy == Strategy.reduceEmi) ∧
          (monthEvents ctx1.payments d).any (fun e => e.strategy == Strategy.reduceTenure) =
            (monthEvents ctx2.payments d).any
              (fun e => e.strategy == Strategy.reduceTenure)) →
      simRun ctx1 f s = simRun ctx2 f s := by
  intro f
  induction f with
  | zero => intro s _; rfl
  | succ f ih =>
    intro s hwin
    have hcur := hwin s.currentDate (le_refl _) (by push_cast; omega)
    have hguard : simGuard ctx1 s = simGuard ctx2 s := simGuard_congr s htm hend hmode
    by_cases hg : simGuard ctx1 s = true
    · rw [simRun_succ_of_guard hg, simRun_succ_of_guard (hguard ▸ hg)]
      rw [simStep_congr s hr hsy hcur.1 hcur.2.1 hcur.2.2]
      apply ih
      intro d hd1 hd2
      apply hwin
      · rw [simStep_currentDate] at hd1
        omega
      · rw [simStep_currentDate] at hd2
        push_cast at hd2 ⊢
        omega
    · have hg2 : simGuard ctx2 s = false := by rw [← hguard]; simpa using hg
      rw [simRun_stop (by simpa using hg), simRun_stop hg2]

/-- When validation passes and the EMI computation succeeds,
`calculateLoanEMI` returns the record built from the final simulation
state. -/
theorem calculateLoanEMI_ok_eq (P rate t sm sy : ℚ) (pps : List PartPayment) (emi : ℚ)
    (hval : validateLoan P rate t sm sy = none)
    (hemi : computeEmi (min P 1000000000000) (loanMonthlyRate rate)
      (loanTotalMonths t) = Except.ok emi) :
    calculateLoanEMI P rate t sm sy pps = Except.ok
      { emi := emi,
        totalInterest := (simRun (loanCtx rate t sm sy pps) (loanFuel t)
          (loanInitState P t sm sy emi)).totalInterestPaid,
        totalAmount := min P 1000000000000 + (simRun (loanCtx rate t sm sy pps)
          (loanFuel t) (loanInitState P t sm sy emi)).totalInterestPaid,
        schedule := (simRun (loanCtx rate t sm sy pps) (loanFuel t)
          (loanInitState P t sm sy emi)).schedule,
        chartData := (simRun (loanCtx rate t sm sy pps) (loanFuel t)
          (loanInitState P t sm sy emi)).chartData } := by
  rw [calculateLoanEMI, hval, hemi]
  rfl

/-- C10 (amended): for validated terms, `calculateLoanEMI` returns
normally for every part-payment list, and an instruction whose expanded
events all fall outside the simulated window is silently ignored
PROVIDED it does not change the reduce-emi mode flag of the plan; an
out-of-window reduce-emi instruction added to a plan with no other
reduce-emi events can still change the result by switching the loop
bound (see the counterexample). -/
theorem c10_amended (P rate t sm sy : ℚ) (pps : List PartPayment) (inst : PartPayment)
    (hP : 0 < P) (hr : 0 ≤ rate) (ht : 0 < t)
    (hsm1 : 1 ≤ sm) (hsm2 : sm ≤ 12) (hsmd : sm.den = 1)
    (hsyd : sy.den = 1) (hsy1 : 1900 ≤ sy) (hsy2 : sy ≤ 2200)
    (hmodel : rate = 0 ∨ (loanTotalMonths t).den = 1)
    (hout : ∀ e ∈ expandPayment (loanExpandEnd t sm sy) inst,
      eventDate e < loanStartDate sm sy ∨
        loanStartDate sm sy + (loanFuel t : ℤ) ≤ eventDate e)
    (hflag : (loanCtx rate t sm sy (pps ++ [inst])).hasReduceEMIPayments =
      (loanCtx rate t sm sy pps).hasReduceEMIPayments) :
    (∃ res, calculateLoanEMI P rate t sm sy (pps ++ [inst]) = Except.ok res) ∧
      calculateLoanEMI P rate t sm sy (pps ++ [inst]) =
        calculateLoanEMI P rate t sm sy pps := by
  obtain ⟨emi, hemi, _⟩ := computeEmi_ok hP hr ht hmodel
  have hval : validateLoan P rate t sm sy = none :=
    (validateLoan_eq_none_iff _ _ _ _ _).mpr ⟨hP, hr, ht, hsm1, hsm2, hsmd, hsyd, hsy1, hsy2⟩
  have hsplit : loanEvents t sm sy (pps ++ [inst]) =
      ((pps.flatMap (expandPayment (loanExpandEnd t sm sy))) ++
        expandPayment (loanExpandEnd t sm sy) inst).mergeSort
        (fun a b => decide (eventDate a ≤ eventDate b)) := by
    unfold loanEvents expandAllPayments
    rw [List.flatMap_append]
    simp [List.flatMap_cons, List.flatMap_nil]
  have hrun : simRun (loanCtx rate t sm sy (pps ++ [inst])) (loanFuel t)
      (loanInitState P t sm sy emi) =
      simRun (loanCtx rate t sm sy pps) (loanFuel t)
      (loanInitState P t sm sy emi) := by
    refine simRun_congr ?_ ?_ ?_ ?_ hflag (loanFuel t) (loanInitState P t sm sy emi) ?_
    · rfl
    · rfl
    · rfl
    · rfl
    intro d hd1 hd2
    have hd1s : loanStartDate sm sy ≤ d := hd1
    have hd2s : d < loanStartDate sm sy + (loanFuel t : ℤ) := by
      have : (loanInitState P t sm sy emi).currentDate = loanStartDate sm sy := rfl
      rw [this] at hd2
      exact_mod_cast hd2
    have hBnil : monthEvents (expandPayment (loanExpandEnd t sm sy) inst) d = [] := by
      unfold monthEvents
      rw [List.filter_eq_nil_iff]
      intro e he hp
      have hdate := eventDate_of_matches hp
      rcases hout e he with hlt | hge <;> omega
    have hperm1 : (loanCtx rate t sm sy (pps ++ [inst])).payments.Perm
        ((pps.flatMap (expandPayment (loanExpandEnd t sm sy))) ++
          expandPayment (loanExpandEnd t sm sy) inst) := by
      show (loanEvents t sm sy (pps ++ [inst])).Perm _
      rw [hsplit]
      exact List.mergeSort_perm _ _
    have hperm2 : (loanCtx rate t sm sy pps).payments.Perm
        (pps.flatMap (expandPayment (loanExpandEnd t sm sy))) := by
      show (loanEvents t sm sy pps).Perm _
      unfold loanEvents expandAllPayments
      exact List.mergeSort_perm _ _
    have hp1 : (monthEvents (loanCtx rate t sm sy (pps ++ [inst])).payments d).Perm
        (monthEvents (pps.flatMap (expandPayment (loanExpandEnd t sm sy))) d) := by
      have h := hperm1.filter (matchesMonth (yearOf d) (monthOf d))
      unfold monthEvents
      rw [List.filter_append] at h
      rw [show List.filter (matchesMonth (yearOf d) (monthOf d))
        (expandPayment (loanExpandEnd t sm sy) inst) = [] from hBnil] at h
      simpa using h
    have hp2 : (monthEvents (loanCtx rate t sm sy pps).payments d).Perm
        (monthEvents (pps.flatMap (expandPayment (loanExpandEnd t sm sy))) d) :=
      hperm2.filter (matchesMonth (yearOf d) (monthOf d))
    refine ⟨?_, ?_, ?_⟩
    · exact ((hp1.map (fun e => e.amount)).sum_eq).trans
        ((hp2.map (fun e => e.amount)).sum_eq).symm
    · exact (perm_any_eq hp1 _).trans (perm_any_eq hp2 _).symm
    · exact (perm_any_eq hp1 _).trans (perm_any_eq hp2 _).symm
  constructor
  · exact ⟨_, calculateLoanEMI_ok_eq P rate t sm sy (pps ++ [inst]) emi hval hemi⟩
  · rw [calculateLoanEMI_ok_eq P rate t sm sy (pps ++ [inst]) emi hval hemi,
      calculateLoanEMI_ok_eq P rate t sm sy pps emi hval hemi, hrun]

/-- A one-time reduce-tenure instruction dated June 2090, far outside
any contemporary loan window. -/
def ppFar2090T : PartPayment :=
  { month := 6, year := 2090, amount := 1, frequency := Frequency.oneTime,
    strategy := Strategy.reduceTenure }

/-- The single event expanded from `ppFar2090T`. -/
def evFar2090T : PPEvent :=
  { month := 6, year := 2090, amount := 1, strategy := Strategy.reduceTenure }

/-- C10 amended witness: on a 1-year zero-rate loan started January 2024,
appending the out-of-window reduce-tenure instruction `ppFar2090T`
leaves the result unchanged. -/
theorem c10_amended_witness :
    (∃ res, calculateLoanEMI 1000 0 1 1 2024 ([] ++ [ppFar2090T]) = Except.ok res) ∧
      calculateLoanEMI 1000 0 1 1 2024 ([] ++ [ppFar2090T]) =
        calculateLoanEMI 1000 0 1 1 2024 [] := by
  have hev : loanEvents 1 1 2024 [ppFar2090T] = [evFar2090T] := by
    unfold loanEvents expandAllPayments
    rw [show [ppFar2090T].flatMap (expandPayment (loanExpandEnd 1 1 2024)) =
      [evFar2090T] from rfl]
    rw [List.mergeSort_of_sorted (List.pairwise_singleton _ _)]
  refine c10_amended 1000 0 1 1 2024 [] ppFar2090T (by norm_num) (le_refl 0)
    (by norm_num) (by norm_num) (by norm_num) rfl rfl (by norm_num) (by norm_num)
    (Or.inl rfl) ?_ ?_
  · intro e he
    have he1 : e = evFar2090T := by
      simpa [expandPayment, ppFar2090T, evFar2090T] using he
    subst he1
    right
    have h1 : eventDate evFar2090T = 25085 := by norm_num [eventDate, evFar2090T, dateOf]
    have h2 : loanStartDate 1 2024 = 24288 := by norm_num [loanStartDate, dateOf]
    have h3 : loanFuel 1 = 13 := by
      norm_num [loanFuel, loanTotalMonths, min_def]
      decide
    rw [h1, h2, h3]
    decide
  · show (loanEvents 1 1 2024 ([] ++ [ppFar2090T])).any
        (fun e => e.strategy == Strategy.reduceEmi) =
      (loanEvents 1 1 2024 []).any (fun e => e.strategy == Strategy.reduceEmi)
    rw [loanEvents_nil, show ([] ++ [ppFar2090T] : List PartPayment) = [ppFar2090T] from rfl,
      hev]
    rfl

/-! ## C2: zero-rate reduce-emi months freeze the balance -/

theorem simStep_schedule_append (ctx : SimCtx) (s : SimState) :
    ∃ e, (simStep ctx s).schedule = s.schedule ++ [e] := ⟨_, rfl⟩

/-- Entries already recorded are never altered by further iterations. -/
theorem simRun_schedule_getD (ctx : SimCtx) :
    ∀ (f : ℕ) (s : SimState) (i : ℕ), i < s.schedule.length →
      (simRun ctx f s).schedule.getD i dummyEntry = s.schedule.getD i dummyEntry := by
  intro f
  induction f with
  | zero => intro s i hi; rfl
  | succ f ih =>
    intro s i hi
    by_cases hg : simGuard ctx s = true
    · rw [simRun_succ_of_guard hg]
      obtain ⟨e, he⟩ := simStep_schedule_append ctx s
      have hlen : i < (simStep ctx s).schedule.length := by
        rw [he, List.length_append]
        omega
      rw [ih (simStep ctx s) i hlen, he, List.getD_append _ _ _ _ hi]
    · rw [simRun_stop (Bool.eq_false_iff.mpr hg)]

/-- The one-time reduce-emi instruction of the C2 scenario: 100 in
February 2024. -/
def ppRedEmiFeb : PartPayment :=
  { month := 2, year := 2024, amount := 100, frequency := Frequency.oneTime,
    strategy := Strategy.reduceEmi }

/-- The single event expanded from `ppRedEmiFeb`. -/
def evRedEmiFeb : PPEvent :=
  { month := 2, year := 2024, amount := 100, strategy := Strategy.reduceEmi }

/-- Loop context of the C2 scenario (1200 at rate 0 over one year from
January 2024, with `ppRedEmiFeb`). -/
def c2ctx : SimCtx :=
  { monthlyRate := 0, totalMonths := 12, originalEndDate := 24300,
    startYear := 2024, payments := [evRedEmiFeb], hasReduceEMIPayments := true }

/-- January 2024 entry of the C2 scenario. -/
def c2e1 : ScheduleEntry :=
  { month := 1, year := 2024, emiAmount := 100, principalAmount := 100,
    interestAmount := 0, remainingBalance := 1100, partPayment := 0 }

/-- February 2024 entry of the C2 scenario. -/
def c2e2 : ScheduleEntry :=
  { month := 2, year := 2024, emiAmount := 100, principalAmount := 100,
    interestAmount := 0, remainingBalance := 900, partPayment := 100 }

/-- March 2024 entry of the C2 scenario. -/
def c2e3 : ScheduleEntry :=
  { month := 3, year := 2024, emiAmount := 0, principalAmount := 0,
    interestAmount := 0, remainingBalance := 900, partPayment := 0 }

/-- Initial state of the C2 scenario. -/
def c2s0 : SimState := ⟨1200, 0, [], [], 24288, 0, 100, some 24300, 0⟩

/-- State after January 2024. -/
def c2s1 : SimState := ⟨1100, 0, [c2e1], [], 24289, 1, 100, some 24300, 100⟩

/-- State after February 2024: the reduce-emi recomputation at rate 0
divides zero by zero and the installment becomes 0. -/
def c2s2 : SimState := ⟨900, 0, [c2e1, c2e2], [], 24290, 2, 0, some 24300, 300⟩

/-- State after March 2024: with installment 0 the balance is frozen. -/
def c2s3 : SimState := ⟨900, 0, [c2e1, c2e2, c2e3], [], 24291, 3, 0, some 24300, 300⟩

theorem strat_ne_ET : ¬ (Strategy.reduceEmi = Strategy.reduceTenure) := by decide

theorem strat_ne_TE : ¬ (Strategy.reduceTenure = Strategy.reduceEmi) := by decide

theorem c2g1 : simGuard c2ctx c2s0 = true := by norm_num [simGuard, c2ctx, c2s0]

theorem c2step1 : simStep c2ctx c2s0 = c2s1 := by
  norm_num [simStep, c2ctx, evRedEmiFeb, matchesMonth, yearOf, monthOf, Int.fdiv,
    min_def, max_def, c2s0, c2s1, c2e1, SimState.mk.injEq, ScheduleEntry.mk.injEq]

theorem c2g2 : simGuard c2ctx c2s1 = true := by norm_num [simGuard, c2ctx, c2s1]

theorem c2step2 : simStep c2ctx c2s1 = c2s2 := by
  norm_num [simStep, c2ctx, evRedEmiFeb, matchesMonth, yearOf, monthOf, Int.fdiv,
    min_def, max_def, c2s1, c2s2, c2e1, c2e2, SimState.mk.injEq, ScheduleEntry.mk.injEq,
    reduceEmiRecalc, ceilDiv30, daysBetweenMonths, daysSinceEpoch, leapsBeforeYear,
    daysBeforeMonthInYear, isLeapYear, emiFormulaQ, strat_ne_ET, strat_ne_TE]

theorem c2g3 : simGuard c2ctx c2s2 = true := by norm_num [simGuard, c2ctx, c2s2]

theorem c2step3 : simStep c2ctx c2s2 = c2s3 := by
  norm_num [simStep, c2ctx, evRedEmiFeb, matchesMonth, yearOf, monthOf, Int.fdiv,
    min_def, max_def, c2s2, c2s3, c2e1, c2e2, c2e3, SimState.mk.injEq, ScheduleEntry.mk.injEq]

/-- C2: the code does not satisfy the claimed invariant - it is a code
bug at a concrete input.  On the loan of 1200 at rate 0 over one year
from January 2024 with a single one-time reduce-emi part payment of 100
in February 2024, the installment recomputation divides zero by zero
(source lines 386-389 with monthlyRate 0: in JavaScript the installment
becomes NaN, in the rational model 0), so from March 2024 on the
recorded balances are frozen at 900: entry 1 and entry 2 both record
remaining balance 900, a positive balance that does not decrease. -/
theorem c2_code_bug :
    ∃ r, calculateLoanEMI 1200 0 1 1 2024 [ppRedEmiFeb] = Except.ok r ∧
      (r.schedule.getD 1 dummyEntry).remainingBalance = 900 ∧
      (r.schedule.getD 2 dummyEntry).remainingBalance = 900 ∧
      ¬ ((r.schedule.getD 2 dummyEntry).remainingBalance <
          (r.schedule.getD 1 dummyEntry).remainingBalance) ∧
      0 < (r.schedule.getD 1 dummyEntry).remainingBalance := by
  have hval : validateLoan 1200 0 1 1 2024 = none := by
    norm_num [validateLoan]
  have hemi : computeEmi (min 1200 1000000000000) (loanMonthlyRate 0)
      (loanTotalMonths 1) = Except.ok 100 := by
    norm_num [computeEmi, loanMonthlyRate, loanTotalMonths, min_def, Except.bind]
  have hev : loanEvents 1 1 2024 [ppRedEmiFeb] = [evRedEmiFeb] := by
    unfold loanEvents expandAllPayments
    rw [show [ppRedEmiFeb].flatMap (expandPayment (loanExpandEnd 1 1 2024)) =
      [evRedEmiFeb] from rfl]
    rw [List.mergeSort_of_sorted (List.pairwise_singleton _ _)]
  have hctx : loanCtx 0 1 1 2024 [ppRedEmiFeb] = c2ctx := by
    unfold loanCtx c2ctx
    rw [hev]
    norm_num [loanMonthlyRate, loanTotalMonths, loanOriginalEnd, loanStartDate, dateOf,
      min_def, SimCtx.mk.injEq, evRedEmiFeb]
  have hs0 : loanInitState 1200 1 1 2024 100 = c2s0 := by
    norm_num [loanInitState, loanStartDate, loanOriginalEnd, loanTotalMonths, dateOf,
      min_def, c2s0, SimState.mk.injEq]
  have hfuel : loanFuel 1 = 13 := by
    norm_num [loanFuel, loanTotalMonths, min_def]
    decide
  have hchain : simRun c2ctx 13 c2s0 = simRun c2ctx 10 c2s3 := by
    rw [simRun_succ_of_guard c2g1, c2step1, simRun_succ_of_guard c2g2, c2step2,
      simRun_succ_of_guard c2g3, c2step3]
  have hg1 : ((simRun c2ctx 13 c2s0).schedule.getD 1 dummyEntry) = c2e2 := by
    rw [hchain, simRun_schedule_getD c2ctx 10 c2s3 1 (by norm_num [c2s3])]
    rfl
  have hg2 : ((simRun c2ctx 13 c2s0).schedule.getD 2 dummyEntry) = c2e3 := by
    rw [hchain, simRun_schedule_getD c2ctx 10 c2s3 2 (by norm_num [c2s3])]
    rfl
  refine ⟨_, calculateLoanEMI_ok_eq 1200 0 1 1 2024 [ppRedEmiFeb] 100 hval hemi,
    ?_, ?_, ?_, ?_⟩ <;>
    simp only [hctx, hs0, hfuel, hg1, hg2] <;> norm_num [c2e2, c2e3]

/-! ## C3: reduce-tenure only plans -/

theorem mem_expandFrom_fields {inc endD : ℤ} {amt : ℚ} {st : Strategy} :
    ∀ (fuel : ℕ) (d0 : ℤ) (e : PPEvent), e ∈ expandFrom inc endD amt st d0 fuel →
      e.strategy = st ∧ e.amount = amt := by
  intro fuel
  induction fuel with
  | zero => intro d0 e he; cases he
  | succ fuel ih =>
    intro d0 e he
    rw [expandFrom] at he
    by_cases hd : d0 ≤ endD
    · rw [if_pos hd] at he
      rcases List.mem_cons.mp he with h | h
      · subst h; exact ⟨rfl, rfl⟩
      · exact ih _ _ h
    · rw [if_neg hd] at he; cases he

theorem mem_expandPayment_fields {endD : ℤ} {p : PartPayment} {e : PPEvent}
    (he : e ∈ expandPayment endD p) : e.strategy = p.strategy ∧ e.amount = p.amount := by
  obtain ⟨pm, py, pam, pf, pst⟩ := p
  cases pf
  · simp only [expandPayment, List.mem_singleton] at he
    subst he; exact ⟨rfl, rfl⟩
  all_goals
    simp only [expandPayment] at he
    exact mem_expandFrom_fields _ _ _ he

/-- Every expanded event of a loan inherits the strategy and amount of
one of the raw instructions. -/
theorem mem_loanEvents_fields {t sm sy : ℚ} {pps : List PartPayment} {e : PPEvent}
    (he : e ∈ loanEvents t sm sy pps) :
    ∃ p ∈ pps, e.strategy = p.strategy ∧ e.amount = p.amount := by
  unfold loanEvents expandAllPayments at he
  have hperm := List.mergeSort_perm (pps.flatMap (expandPayment (loanExpandEnd t sm sy)))
    (fun a b => decide (eventDate a ≤ eventDate b))
  have he2 : e ∈ pps.flatMap (expandPayment (loanExpandEnd t sm sy)) := hperm.mem_iff.mp he
  obtain ⟨p, hp, hep⟩ := List.mem_flatMap.mp he2
  exact ⟨p, hp, mem_expandPayment_fields hep⟩

/-- The part payments consulted in any single month sum to a
non-negative amount whenever every event amount is non-negative. -/
theorem month_pa_nonneg (ctx : SimCtx) (ha : ∀ e ∈ ctx.payments, 0 ≤ e.amount) (d : ℤ) :
    0 ≤ ((ctx.payments.filter (matchesMonth (yearOf d) (monthOf d))).map
      (fun e => e.amount)).sum := by
  apply List.sum_nonneg
  intro x hx
  obtain ⟨e, he, hex⟩ := List.mem_map.mp hx
  rw [← hex]
  exact ha e (List.mem_filter.mp he).1

/-- Closed form of the stored balance after one iteration when the month
part-payment sum is non-negative: the post-EMI balance, floored at zero,
minus the part payment, floored at zero again. -/
theorem simStep_balance_max (ctx : SimCtx) (s : SimState)
    (hpa : 0 ≤ ((ctx.payments.filter (matchesMonth (yearOf s.currentDate)
        (monthOf s.currentDate))).map (fun e => e.amount)).sum) :
    (simStep ctx s).remainingBalance =
      max 0 (max 0 (s.remainingBalance * (1 + ctx.monthlyRate) - s.currentEMI) -
        ((ctx.payments.filter (matchesMonth (yearOf s.currentDate)
          (monthOf s.currentDate))).map (fun e => e.amount)).sum) := by
  simp only [simStep]
  set pa := ((ctx.payments.filter (matchesMonth (yearOf s.currentDate)
    (monthOf s.currentDate))).map (fun e => e.amount)).sum with hpadef
  set b := s.remainingBalance with hbdef
  set E := s.currentEMI with hEdef
  set r := ctx.monthlyRate with hrdef
  by_cases hc : b < E - b * r
  · rw [if_pos hc]
    have h1 : max 0 (b - b) = 0 := by rw [sub_self, max_self]
    have h2 : max 0 (b * (1 + r) - E) = 0 := max_eq_left (by nlinarith)
    rw [h1, h2, min_eq_right hpa, max_eq_left (by linarith)]
    ring
  · rw [if_neg hc]
    push_neg at hc
    have h1 : max 0 (b - (E - b * r)) = b * (1 + r) - E := by
      rw [max_eq_right (by linarith)]; ring
    have h2 : max 0 (b * (1 + r) - E) = b * (1 + r) - E :=
      max_eq_right (by nlinarith)
    rw [h1, h2]
    by_cases hle : pa ≤ b * (1 + r) - E
    · rw [min_eq_left hle, max_eq_right (by linarith)]
      ring
    · push_neg at hle
      rw [min_eq_right (le_of_lt hle), max_eq_left (by linarith)]
      ring

/-- When no event anywhere carries the reduce-emi strategy, the
installment is never recomputed. -/
theorem simStep_emi_noRedEmi (ctx : SimCtx) (s : SimState)
    (h : ∀ e ∈ ctx.payments, e.strategy ≠ Strategy.reduceEmi) :
    (simStep ctx s).currentEMI = s.currentEMI := by
  simp only [simStep]
  have hany : ((ctx.payments.filter (matchesMonth (yearOf s.currentDate)
      (monthOf s.currentDate))).any (fun e => e.strategy == Strategy.reduceEmi)) = false := by
    rw [List.any_eq_false]
    intro e he
    simp only [beq_iff_eq]
    exact h e (List.mem_filter.mp he).1
  rw [hany, if_neg]
  intro hcon
  exact Bool.false_ne_true hcon.2

theorem simRun_mc_ge (ctx : SimCtx) :
    ∀ (f : ℕ) (s : SimState), s.monthCount ≤ (simRun ctx f s).monthCount := by
  intro f
  induction f with
  | zero => intro s; simp [simRun]
  | succ f ih =>
    intro s
    by_cases hg : simGuard ctx s = true
    · rw [simRun_succ_of_guard hg]
      have h := ih (simStep ctx s)
      rw [simStep_monthCount] at h
      omega
    · rw [simRun_stop (Bool.eq_false_iff.mpr hg)]

/-- Coupled induction: against a part-payment-free baseline with the
same rate, month bound and installment, a counter-mode plan whose events
are all non-negative never runs for more months than the baseline. -/
theorem simRun_mc_coupled (ctx1 ctx2 : SimCtx) (E : ℚ)
    (hm1 : ctx1.hasReduceEMIPayments = false) (hm2 : ctx2.hasReduceEMIPayments = false)
    (hr : ctx1.monthlyRate = ctx2.monthlyRate) (hrn : 0 ≤ ctx1.monthlyRate)
    (htm : ctx1.totalMonths = ctx2.totalMonths)
    (hs1 : ∀ e ∈ ctx1.payments, e.strategy ≠ Strategy.reduceEmi)
    (ha1 : ∀ e ∈ ctx1.payments, 0 ≤ e.amount)
    (hpp2 : ctx2.payments = []) :
    ∀ (f : ℕ) (s1 s2 : SimState), s1.currentEMI = E → s2.currentEMI = E →
      s1.monthCount = s2.monthCount →
      s1.remainingBalance ≤ s2.remainingBalance →
      (simRun ctx1 f s1).monthCount ≤ (simRun ctx2 f s2).monthCount := by
  intro f
  induction f with
  | zero => intro s1 s2 _ _ hmc _; simp [simRun, hmc]
  | succ f ih =>
    intro s1 s2 he1 he2 hmc hb
    by_cases hg1 : simGuard ctx1 s1 = true
    · have hg2 : simGuard ctx2 s2 = true := by
        simp only [simGuard, hm1, Bool.and_eq_true, decide_eq_true_eq,
          Bool.if_false_left, if_false] at hg1
        simp only [simGuard, hm2, Bool.and_eq_true, decide_eq_true_eq,
          Bool.if_false_left, if_false]
        obtain ⟨hb1, hmc1⟩ := hg1
        exact ⟨lt_of_lt_of_le hb1 hb, by rw [← hmc, ← htm]; exact hmc1⟩
      rw [simRun_succ_of_guard hg1, simRun_succ_of_guard hg2]
      apply ih
      · rw [simStep_emi_noRedEmi ctx1 s1 hs1]; exact he1
      · rw [simStep_empty_currentEMI hpp2]; exact he2
      · rw [simStep_monthCount, simStep_monthCount, hmc]
      · have hpa1 := month_pa_nonneg ctx1 ha1 s1.currentDate
        rw [simStep_balance_max ctx1 s1 hpa1,
          simStep_balance_max ctx2 s2 (by
            simp [filter_nil_of_payments_nil hpp2])]
        simp only [filter_nil_of_payments_nil hpp2, List.map_nil, List.sum_nil, sub_zero]
        rw [max_eq_right (le_max_left _ _)]
        apply max_le (le_max_left _ _)
        have hM : max 0 (s1.remainingBalance * (1 + ctx1.monthlyRate) - s1.currentEMI) ≤
            max 0 (s2.remainingBalance * (1 + ctx2.monthlyRate) - s2.currentEMI) := by
          apply max_le_max (le_refl 0)
          rw [he1, he2, ← hr]
          have : s1.remainingBalance * (1 + ctx1.monthlyRate) ≤
              s2.remainingBalance * (1 + ctx1.monthlyRate) := by nlinarith
          linarith
        linarith
    · rw [simRun_stop (Bool.eq_false_iff.mpr hg1), hmc]
      exact simRun_mc_ge ctx2 (f + 1) s2

/-- The entry recorded by a non-clamping iteration carries the current
installment. -/
theorem simStep_last_emi (ctx : SimCtx) (s : SimState)
    (hnc : ¬ s.remainingBalance < s.currentEMI - s.remainingBalance * ctx.monthlyRate) :
    ((simStep ctx s).schedule.getD s.schedule.length dummyEntry).emiAmount =
      s.currentEMI := by
  simp only [simStep]
  rw [List.getD_append_right _ _ _ _ (le_refl _), Nat.sub_self, List.getD_cons_zero]
  exact if_neg hnc

/-- In a plan with no reduce-emi events and non-negative amounts, every
schedule entry except possibly the last records the running installment:
a clamping month zeroes the balance and is therefore final. -/
theorem simRun_entries_emi (ctx : SimCtx) (E : ℚ)
    (hs : ∀ e ∈ ctx.payments, e.strategy ≠ Strategy.reduceEmi)
    (ha : ∀ e ∈ ctx.payments, 0 ≤ e.amount) :
    ∀ (f : ℕ) (s : SimState), s.currentEMI = E →
      (∀ i, i + 1 < s.schedule.length → (s.schedule.getD i dummyEntry).emiAmount = E) →
      (simGuard ctx s = true → ∀ i, i < s.schedule.length →
        (s.schedule.getD i dummyEntry).emiAmount = E) →
      ∀ i, i + 1 < (simRun ctx f s).schedule.length →
        ((simRun ctx f s).schedule.getD i dummyEntry).emiAmount = E := by
  intro f
  induction f with
  | zero => intro s _ h1 _ i hi; exact h1 i hi
  | succ f ih =>
    intro s he h1 h2
    by_cases hg : simGuard ctx s = true
    · rw [simRun_succ_of_guard hg]
      obtain ⟨e0, he0⟩ := simStep_schedule_append ctx s
      have hlen : (simStep ctx s).schedule.length = s.schedule.length + 1 := by
        rw [he0, List.length_append, List.length_singleton]
      apply ih (simStep ctx s)
      · rw [simStep_emi_noRedEmi ctx s hs]; exact he
      · intro i hi
        rw [hlen] at hi
        have hilt : i < s.schedule.length := by omega
        rw [he0, List.getD_append _ _ _ _ hilt]
        exact h2 hg i hilt
      · intro hg' i hi
        rw [hlen] at hi
        have hnc : ¬ s.remainingBalance <
            s.currentEMI - s.remainingBalance * ctx.monthlyRate := by
          intro hc
          have hb' : (simStep ctx s).remainingBalance = 0 := by
            rw [simStep_balance_max ctx s (month_pa_nonneg ctx ha s.currentDate)]
            have hin : max 0 (s.remainingBalance * (1 + ctx.monthlyRate) -
                s.currentEMI) = 0 := max_eq_left (by nlinarith)
            rw [hin, max_eq_left (by linarith [month_pa_nonneg ctx ha s.currentDate])]
          have hgb : 1 / 100 < (simStep ctx s).remainingBalance := by
            have h := hg'
            simp only [simGuard, Bool.and_eq_true, decide_eq_true_eq] at h
            exact h.1
          rw [hb'] at hgb
          norm_num at hgb
        by_cases hcase : i < s.schedule.length
        · rw [he0, List.getD_append _ _ _ _ hcase]
          exact h2 hg i hcase
        · have hieq : i = s.schedule.length := by omega
          subst hieq
          rw [← he]
          exact simStep_last_emi ctx s hnc
    · rw [simRun_stop (Bool.eq_false_iff.mpr hg)]
      exact h1

/-- C3 (amended): for validated terms and a plan consisting only of
reduce-tenure instructions with non-negative amounts, the schedule is
never longer than the no-part-payment baseline (it need not be strictly
shorter - see the counterexample), and every entry except possibly the
final one records the original nominal installment. -/
theorem c3_amended (P rate t sm sy : ℚ) (pps : List PartPayment)
    (hP : 0 < P) (hr : 0 ≤ rate) (ht : 0 < t)
    (hsm1 : 1 ≤ sm) (hsm2 : sm ≤ 12) (hsmd : sm.den = 1)
    (hsyd : sy.den = 1) (hsy1 : 1900 ≤ sy) (hsy2 : sy ≤ 2200)
    (hmodel : rate = 0 ∨ (loanTotalMonths t).den = 1)
    (hstrat : ∀ p ∈ pps, p.strategy = Strategy.reduceTenure)
    (hamt : ∀ p ∈ pps, 0 ≤ p.amount) :
    ∃ emi res res0,
      computeEmi (min P 1000000000000) (loanMonthlyRate rate) (loanTotalMonths t) =
        Except.ok emi ∧
      calculateLoanEMI P rate t sm sy pps = Except.ok res ∧
      calculateLoanEMI P rate t sm sy [] = Except.ok res0 ∧
      res.schedule.length ≤ res0.schedule.length ∧
      (∀ i, i + 1 < res.schedule.length →
        (res.schedule.getD i dummyEntry).emiAmount = emi) := by
  obtain ⟨emi, hemi, hemipos⟩ := computeEmi_ok hP hr ht hmodel
  have hval : validateLoan P rate t sm sy = none :=
    (validateLoan_eq_none_iff _ _ _ _ _).mpr ⟨hP, hr, ht, hsm1, hsm2, hsmd, hsyd, hsy1, hsy2⟩
  have hsev : ∀ e ∈ (loanCtx rate t sm sy pps).payments,
      e.strategy ≠ Strategy.reduceEmi := by
    intro e he hcon
    obtain ⟨p, hp, hst, _⟩ := mem_loanEvents_fields
      (show e ∈ loanEvents t sm sy pps from he)
    rw [hst, hstrat p hp] at hcon
    cases hcon
  have haev : ∀ e ∈ (loanCtx rate t sm sy pps).payments, 0 ≤ e.amount := by
    intro e he
    obtain ⟨p, hp, _, hat⟩ := mem_loanEvents_fields
      (show e ∈ loanEvents t sm sy pps from he)
    rw [hat]
    exact hamt p hp
  have hm1 : (loanCtx rate t sm sy pps).hasReduceEMIPayments = false := by
    show (loanEvents t sm sy pps).any (fun e => e.strategy == Strategy.reduceEmi) = false
    rw [List.any_eq_false]
    intro e he
    simp only [beq_iff_eq]
    exact hsev e he
  have hpp2 : (loanCtx rate t sm sy []).payments = [] := loanEvents_nil t sm sy
  have hm2 : (loanCtx rate t sm sy []).hasReduceEMIPayments = false := by
    show (loanEvents t sm sy []).any (fun e => e.strategy == Strategy.reduceEmi) = false
    rw [loanEvents_nil]
    rfl
  have hrn : 0 ≤ (loanCtx rate t sm sy pps).monthlyRate := by
    show 0 ≤ min rate 100 / 12 / 100
    have h0 : 0 ≤ min rate 100 := le_min hr (by norm_num)
    positivity
  have hmc := simRun_mc_coupled (loanCtx rate t sm sy pps) (loanCtx rate t sm sy [])
    emi hm1 hm2 rfl hrn rfl hsev haev hpp2 (loanFuel t)
    (loanInitState P t sm sy emi) (loanInitState P t sm sy emi) rfl rfl rfl (le_refl _)
  have hl1 := simRun_schedule_length (loanCtx rate t sm sy pps) (loanFuel t)
    (loanInitState P t sm sy emi)
  have hl2 := simRun_schedule_length (loanCtx rate t sm sy []) (loanFuel t)
    (loanInitState P t sm sy emi)
  have h0m : (loanInitState P t sm sy emi).monthCount = 0 := rfl
  have h0s : (loanInitState P t sm sy emi).schedule.length = 0 := rfl
  rw [h0m, h0s] at hl1 hl2
  have hent := simRun_entries_emi (loanCtx rate t sm sy pps) emi hsev haev (loanFuel t)
    (loanInitState P t sm sy emi) rfl
    (by intro i hi; rw [h0s] at hi; omega)
    (by intro _ i hi; rw [h0s] at hi; omega)
  refine ⟨emi, _, _, hemi,
    calculateLoanEMI_ok_eq P rate t sm sy pps emi hval hemi,
    calculateLoanEMI_ok_eq P rate t sm sy [] emi hval hemi, ?_, hent⟩
  show (simRun (loanCtx rate t sm sy pps) (loanFuel t)
      (loanInitState P t sm sy emi)).schedule.length ≤
    (simRun (loanCtx rate t sm sy []) (loanFuel t)
      (loanInitState P t sm sy emi)).schedule.length
  omega

/-- The one-time reduce-tenure instruction of the C3 counterexample:
1/1000 in February 2024. -/
def ppTinyFeb : PartPayment :=
  { month := 2, year := 2024, amount := 1 / 1000, frequency := Frequency.oneTime,
    strategy := Strategy.reduceTenure }

/-- The single event expanded from `ppTinyFeb`. -/
def evTinyFeb : PPEvent :=
  { month := 2, year := 2024, amount := 1 / 1000, strategy := Strategy.reduceTenure }

/-- Loop context of the C3 scenario with the tiny instruction. -/
def c3ctx1 : SimCtx :=
  { monthlyRate := 1 / 100, totalMonths := 3, originalEndDate := 24291,
    startYear := 2024, payments := [evTinyFeb], hasReduceEMIPayments := false }

/-- Loop context of the C3 baseline. -/
def c3ctx2 : SimCtx :=
  { monthlyRate := 1 / 100, totalMonths := 3, originalEndDate := 24291,
    startYear := 2024, payments := [], hasReduceEMIPayments := false }

/-- Initial core state of the C3 scenario. -/
def c3p0 : CoreState := ⟨1000, 24288, 0, 10303010 / 30301, some 24291⟩

/-- Core state after January 2024 (either run). -/
def c3p1 : CoreState := ⟨20301000 / 30301, 24289, 1, 10303010 / 30301, some 24291⟩

/-- Core state after February 2024 with the tiny part payment. -/
def c3p2 : CoreState :=
  ⟨10200969699 / 30301000, 24290, 2, 10303010 / 30301, some 24290⟩

/-- Final core state of the part-payment run. -/
def c3p3 : CoreState := ⟨0, 24291, 3, 10303010 / 30301, some 24290⟩

/-- Core state after February 2024 in the baseline. -/
def c3b2 : CoreState := ⟨10201000 / 30301, 24290, 2, 10303010 / 30301, some 24291⟩

/-- Final core state of the baseline run. -/
def c3b3 : CoreState := ⟨0, 24291, 3, 10303010 / 30301, some 24291⟩

theorem c3g10 : coreGuard c3ctx1 c3p0 = true := by norm_num [coreGuard, c3ctx1, c3p0]

theorem c3st10 : coreStep c3ctx1 c3p0 = c3p1 := by
  norm_num [coreStep, c3ctx1, evTinyFeb, matchesMonth, yearOf, monthOf, Int.fdiv,
    min_def, max_def, c3p0, c3p1, CoreState.mk.injEq]

theorem c3g11 : coreGuard c3ctx1 c3p1 = true := by norm_num [coreGuard, c3ctx1, c3p1]

theorem c3st11 : coreStep c3ctx1 c3p1 = c3p2 := by
  norm_num [coreStep, c3ctx1, evTinyFeb, matchesMonth, yearOf, monthOf, Int.fdiv,
    min_def, max_def, c3p1, c3p2, CoreState.mk.injEq, strat_ne_ET, strat_ne_TE,
    reduceTenureEnd, ceilLogMonths, searchPow, Int.toNat_zero, reduceEmiRecalc]

theorem c3g12 : coreGuard c3ctx1 c3p2 = true := by norm_num [coreGuard, c3ctx1, c3p2]

theorem c3st12 : coreStep c3ctx1 c3p2 = c3p3 := by
  norm_num [coreStep, c3ctx1, evTinyFeb, matchesMonth, yearOf, monthOf, Int.fdiv,
    min_def, max_def, c3p2, c3p3, CoreState.mk.injEq]

theorem c3g13 : coreGuard c3ctx1 c3p3 = false := by norm_num [coreGuard, c3ctx1, c3p3]

theorem c3chain1 : coreRun c3ctx1 4 c3p0 = c3p3 := by
  rw [coreRun_succ_of_guard c3g10 c3st10, coreRun_succ_of_guard c3g11 c3st11,
    coreRun_succ_of_guard c3g12 c3st12, coreRun_stop c3g13]

theorem c3g20 : coreGuard c3ctx2 c3p0 = true := by norm_num [coreGuard, c3ctx2, c3p0]

theorem c3st20 : coreStep c3ctx2 c3p0 = c3p1 := by
  norm_num [coreStep, c3ctx2, matchesMonth, yearOf, monthOf, Int.fdiv,
    min_def, max_def, c3p0, c3p1, CoreState.mk.injEq]

theorem c3g21 : coreGuard c3ctx2 c3p1 = true := by norm_num [coreGuard, c3ctx2, c3p1]

theorem c3st21 : coreStep c3ctx2 c3p1 = c3b2 := by
  norm_num [coreStep, c3ctx2, matchesMonth, yearOf, monthOf, Int.fdiv,
    min_def, max_def, c3p1, c3b2, CoreState.mk.injEq]

theorem c3g22 : coreGuard c3ctx2 c3b2 = true := by norm_num [coreGuard, c3ctx2, c3b2]

theorem c3st22 : coreStep c3ctx2 c3b2 = c3b3 := by
  norm_num [coreStep, c3ctx2, matchesMonth, yearOf, monthOf, Int.fdiv,
    min_def, max_def, c3b2, c3b3, CoreState.mk.injEq]

theorem c3g23 : coreGuard c3ctx2 c3b3 = false := by norm_num [coreGuard, c3ctx2, c3b3]

theorem c3chain2 : coreRun c3ctx2 4 c3p0 = c3b3 := by
  rw [coreRun_succ_of_guard c3g20 c3st20, coreRun_succ_of_guard c3g21 c3st21,
    coreRun_succ_of_guard c3g22 c3st22, coreRun_stop c3g23]

/-- C3 counterexample: on the loan of 1000 at 12 percent over 3 months
from January 2024, a one-time reduce-tenure part payment of 1/1000 in
February 2024 - positive and landing inside the schedule - leaves the
schedule length at 3, exactly the no-part-payment baseline: the schedule
is not strictly shorter. -/
theorem c3_counterexample :
    (calculateLoanEMI 1000 12 (1 / 4) 1 2024 [ppTinyFeb]).map
      (fun r => r.schedule.length) = Except.ok 3 ∧
    (calculateLoanEMI 1000 12 (1 / 4) 1 2024 []).map
      (fun r => r.schedule.length) = Except.ok 3 ∧
    (0 : ℚ) < ppTinyFeb.amount ∧ ppTinyFeb.strategy = Strategy.reduceTenure ∧
    loanStartDate 1 2024 ≤ eventDate evTinyFeb ∧
    eventDate evTinyFeb < loanOriginalEnd (1 / 4) 1 2024 := by
  have hval : validateLoan 1000 12 (1 / 4) 1 2024 = none := by
    norm_num [validateLoan]
  have hlr : loanMonthlyRate 12 = 1 / 100 := by norm_num [loanMonthlyRate, min_def]
  have htm : loanTotalMonths (1 / 4) = 3 := by norm_num [loanTotalMonths, min_def]
  have hemi : computeEmi (min 1000 1000000000000) (loanMonthlyRate 12)
      (loanTotalMonths (1 / 4)) = Except.ok (10303010 / 30301) := by
    rw [hlr, htm]
    have h3 : Int.toNat 3 = 3 := rfl
    norm_num [computeEmi, Except.bind, h3]
  have hfuel : loanFuel (1 / 4) = 4 := by
    norm_num [loanFuel, loanTotalMonths, min_def]
    decide
  have hs0 : coreOf (loanInitState 1000 (1 / 4) 1 2024 (10303010 / 30301)) = c3p0 := by
    norm_num [coreOf, loanInitState, loanStartDate, loanOriginalEnd, loanTotalMonths,
      dateOf, min_def, c3p0, CoreState.mk.injEq]
  refine ⟨?_, ?_, by norm_num [ppTinyFeb], rfl,
    by norm_num [loanStartDate, dateOf, eventDate, evTinyFeb],
    by norm_num [loanOriginalEnd, loanStartDate, loanTotalMonths, dateOf, min_def,
      eventDate, evTinyFeb]⟩
  · have hev : loanEvents (1 / 4) 1 2024 [ppTinyFeb] = [evTinyFeb] := by
      unfold loanEvents expandAllPayments
      rw [show [ppTinyFeb].flatMap (expandPayment (loanExpandEnd (1 / 4) 1 2024)) =
        [evTinyFeb] from rfl]
      rw [List.mergeSort_of_sorted (List.pairwise_singleton _ _)]
    have hctx : loanCtx 12 (1 / 4) 1 2024 [ppTinyFeb] = c3ctx1 := by
      unfold loanCtx c3ctx1
      rw [hev]
      norm_num [loanMonthlyRate, loanTotalMonths, loanOriginalEnd, loanStartDate, dateOf,
        min_def, SimCtx.mk.injEq, evTinyFeb, strat_ne_TE]
    set fin := simRun (loanCtx 12 (1 / 4) 1 2024 [ppTinyFeb]) (loanFuel (1 / 4))
      (loanInitState 1000 (1 / 4) 1 2024 (10303010 / 30301)) with hfin
    have hcore : coreOf fin = c3p3 := by
      rw [hfin, coreOf_simRun, hctx, hfuel, hs0, c3chain1]
    have hmc : fin.monthCount = 3 := congrArg CoreState.monthCount hcore
    have hlen : fin.schedule.length = 3 := by
      have h := simRun_schedule_length (loanCtx 12 (1 / 4) 1 2024 [ppTinyFeb])
        (loanFuel (1 / 4)) (loanInitState 1000 (1 / 4) 1 2024 (10303010 / 30301))
      rw [← hfin] at h
      simpa [loanInitState, hmc] using h
    rw [calculateLoanEMI_ok_eq 1000 12 (1 / 4) 1 2024 [ppTinyFeb] (10303010 / 30301)
      hval hemi]
    simp only [Except.map, ← hfin]
    rw [hlen]
  · have hctx : loanCtx 12 (1 / 4) 1 2024 [] = c3ctx2 := by
      unfold loanCtx c3ctx2
      rw [loanEvents_nil]
      norm_num [loanMonthlyRate, loanTotalMonths, loanOriginalEnd, loanStartDate, dateOf,
        min_def, SimCtx.mk.injEq]
    set fin := simRun (loanCtx 12 (1 / 4) 1 2024 []) (loanFuel (1 / 4))
      (loanInitState 1000 (1 / 4) 1 2024 (10303010 / 30301)) with hfin
    have hcore : coreOf fin = c3b3 := by
      rw [hfin, coreOf_simRun, hctx, hfuel, hs0, c3chain2]
    have hmc : fin.monthCount = 3 := congrArg CoreState.monthCount hcore
    have hlen : fin.schedule.length = 3 := by
      have h := simRun_schedule_length (loanCtx 12 (1 / 4) 1 2024 [])
        (loanFuel (1 / 4)) (loanInitState 1000 (1 / 4) 1 2024 (10303010 / 30301))
      rw [← hfin] at h
      simpa [loanInitState, hmc] using h
    rw [calculateLoanEMI_ok_eq 1000 12 (1 / 4) 1 2024 [] (10303010 / 30301) hval hemi]
    simp only [Except.map, ← hfin]
    rw [hlen]

/-- C3 amended witness: the amended theorem instantiated on the loan of
1000 at 12 percent over 3 months with the tiny reduce-tenure
instruction. -/
theorem c3_amended_witness :
    ∃ emi res res0,
      computeEmi (min 1000 1000000000000) (loanMonthlyRate 12) (loanTotalMonths (1 / 4)) =
        Except.ok emi ∧
      calculateLoanEMI 1000 12 (1 / 4) 1 2024 [ppTinyFeb] = Except.ok res ∧
      calculateLoanEMI 1000 12 (1 / 4) 1 2024 [] = Except.ok res0 ∧
      res.schedule.length ≤ res0.schedule.length ∧
      (∀ i, i + 1 < res.schedule.length →
        (res.schedule.getD i dummyEntry).emiAmount = emi) :=
  c3_amended 1000 12 (1 / 4) 1 2024 [ppTinyFeb] (by norm_num) (by norm_num) (by norm_num)
    (by norm_num) (by norm_num) rfl rfl (by norm_num) (by norm_num)
    (Or.inr (by norm_num [loanTotalMonths, min_def]))
    (by intro p hp; rw [List.mem_singleton] at hp; subst hp; rfl)
    (by intro p hp; rw [List.mem_singleton] at hp; subst hp; norm_num [ppTinyFeb])

/-! ## C4: the reduce-emi recomputation and its guards -/

/-- One-time reduce-tenure instruction of 150 in April 2024. -/
def ppRT150Apr : PartPayment :=
  { month := 4, year := 2024, amount := 150, frequency := Frequency.oneTime,
    strategy := Strategy.reduceTenure }

/-- One-time reduce-emi instruction of 1 in April 2024. -/
def ppRE1Apr : PartPayment :=
  { month := 4, year := 2024, amount := 1, frequency := Frequency.oneTime,
    strategy := Strategy.reduceEmi }

/-- Event expanded from `ppRT150Apr`. -/
def evRT150Apr : PPEvent :=
  { month := 4, year := 2024, amount := 150, strategy := Strategy.reduceTenure }

/-- Event expanded from `ppRE1Apr`. -/
def evRE1Apr : PPEvent :=
  { month := 4, year := 2024, amount := 1, strategy := Strategy.reduceEmi }

/-- Loop context of the C4 scenario: 600 at 12 percent over 6 months
from January 2024, both April instructions. -/
def c4ctx : SimCtx :=
  { monthlyRate := 1 / 100, totalMonths := 6, originalEndDate := 24294,
    startYear := 2024, payments := [evRT150Apr, evRE1Apr],
    hasReduceEMIPayments := true }

/-- Initial core state of the C4 scenario. -/
def c4c0 : CoreState := ⟨600, 24288, 0, 2123040301202 / 20506716867, some 24294⟩

/-- Core state after January 2024. -/
def c4c1 : CoreState :=
  ⟨10304030120200 / 20506716867, 24289, 1, 2123040301202 / 20506716867, some 24294⟩

/-- Core state after February 2024. -/
def c4c2 : CoreState :=
  ⟨41214080200 / 102023467, 24290, 2, 2123040301202 / 20506716867, some 24294⟩

/-- Core state after March 2024. -/
def c4c3 : CoreState :=
  ⟨206060200 / 676767, 24291, 3, 2123040301202 / 20506716867, some 24294⟩

/-- Core state after April 2024: the reduce-tenure event pulled the
adjusted end date to May 2024, and the reduce-emi recomputation was
skipped because only one 30-day month remains. -/
def c4c4 : CoreState :=
  ⟨5406536683 / 102023467, 24292, 4, 2123040301202 / 20506716867, some 24292⟩

theorem c4g0 : coreGuard c4ctx c4c0 = true := by norm_num [coreGuard, c4ctx, c4c0]

theorem c4st0 : coreStep c4ctx c4c0 = c4c1 := by
  norm_num [coreStep, c4ctx, evRT150Apr, evRE1Apr, matchesMonth, yearOf, monthOf,
    Int.fdiv, min_def, max_def, c4c0, c4c1, CoreState.mk.injEq]

theorem c4g1 : coreGuard c4ctx c4c1 = true := by norm_num [coreGuard, c4ctx, c4c1]

theorem c4st1 : coreStep c4ctx c4c1 = c4c2 := by
  norm_num [coreStep, c4ctx, evRT150Apr, evRE1Apr, matchesMonth, yearOf, monthOf,
    Int.fdiv, min_def, max_def, c4c1, c4c2, CoreState.mk.injEq]

theorem c4g2 : coreGuard c4ctx c4c2 = true := by norm_num [coreGuard, c4ctx, c4c2]

theorem c4st2 : coreStep c4ctx c4c2 = c4c3 := by
  norm_num [coreStep, c4ctx, evRT150Apr, evRE1Apr, matchesMonth, yearOf, monthOf,
    Int.fdiv, min_def, max_def, c4c2, c4c3, CoreState.mk.injEq]

theorem c4g3 : coreGuard c4ctx c4c3 = true := by norm_num [coreGuard, c4ctx, c4c3]

theorem c4days : ceilDiv30 (daysBetweenMonths 24291 24292) = 1 := by decide

theorem c4st3 : coreStep c4ctx c4c3 = c4c4 := by
  norm_num [coreStep, c4ctx, evRT150Apr, evRE1Apr, matchesMonth, yearOf, monthOf,
    Int.fdiv, min_def, max_def, c4c3, c4c4, CoreState.mk.injEq, strat_ne_ET, strat_ne_TE,
    reduceTenureEnd, ceilLogMonths, searchPow, Int.toNat_zero, reduceEmiRecalc, c4days]

theorem c4chain : coreRun c4ctx 4 c4c0 = c4c4 := by
  rw [coreRun_succ_of_guard c4g0 c4st0, coreRun_succ_of_guard c4g1 c4st1,
    coreRun_succ_of_guard c4g2 c4st2, coreRun_succ_of_guard c4g3 c4st3]
  rfl

/-- C4 counterexample: on the loan of 600 at 12 percent over 6 months
from January 2024, April 2024 carries both a reduce-tenure payment of
150 and a reduce-emi payment of 1.  The reduce-tenure adjustment runs
first and pulls the adjusted end date to May 2024; the reduce-emi
recomputation then reads it, finds only one 30-day month remaining, and
- because of the `remainingMonths > 1` guard the claim omits - keeps the
installment unchanged instead of recomputing the fresh one-month EMI,
which differs. -/
theorem c4_counterexample :
    computeEmi (min 600 1000000000000) (loanMonthlyRate 12) (loanTotalMonths (1 / 2)) =
      Except.ok (2123040301202 / 20506716867) ∧
    loanCtx 12 (1 / 2) 1 2024 [ppRT150Apr, ppRE1Apr] = c4ctx ∧
    coreRun c4ctx 4 (coreOf (loanInitState 600 (1 / 2) 1 2024
      (2123040301202 / 20506716867))) = c4c4 ∧
    ((c4ctx.payments.filter (matchesMonth (yearOf c4c3.currentDate)
      (monthOf c4c3.currentDate))).any
        (fun e => e.strategy == Strategy.reduceEmi)) = true ∧
    c4c4.currentEMI = c4c3.currentEMI ∧
    c4c4.adjustedEndDate = some 24292 ∧
    emiFormulaQ c4c4.remainingBalance c4ctx.monthlyRate
      (ceilDiv30 (daysBetweenMonths c4c3.currentDate 24292)).toNat ≠ c4c4.currentEMI := by
  refine ⟨?_, ?_, ?_, ?_, rfl, rfl, ?_⟩
  · have hlr : loanMonthlyRate 12 = 1 / 100 := by norm_num [loanMonthlyRate, min_def]
    have htm : loanTotalMonths (1 / 2) = 6 := by norm_num [loanTotalMonths, min_def]
    rw [hlr, htm]
    have h6 : Int.toNat 6 = 6 := rfl
    norm_num [computeEmi, Except.bind, h6]
  · have hev : loanEvents (1 / 2) 1 2024 [ppRT150Apr, ppRE1Apr] =
        [evRT150Apr, evRE1Apr] := by
      unfold loanEvents expandAllPayments
      rw [show [ppRT150Apr, ppRE1Apr].flatMap
        (expandPayment (loanExpandEnd (1 / 2) 1 2024)) =
        [evRT150Apr, evRE1Apr] from rfl]
      rw [List.mergeSort_of_sorted (by decide)]
    unfold loanCtx c4ctx
    rw [hev]
    norm_num [loanMonthlyRate, loanTotalMonths, loanOriginalEnd, loanStartDate, dateOf,
      min_def, SimCtx.mk.injEq, evRT150Apr, evRE1Apr, strat_ne_TE]
  · have hs0 : coreOf (loanInitState 600 (1 / 2) 1 2024
        (2123040301202 / 20506716867)) = c4c0 := by
      norm_num [coreOf, loanInitState, loanStartDate, loanOriginalEnd, loanTotalMonths,
        dateOf, min_def, c4c0, CoreState.mk.injEq]
    rw [hs0, c4chain]
  · norm_num [c4ctx, c4c3, matchesMonth, yearOf, monthOf, Int.fdiv, evRT150Apr, evRE1Apr]
  · have hdm : ceilDiv30 (daysBetweenMonths c4c3.currentDate 24292) = 1 := by
      show ceilDiv30 (daysBetweenMonths 24291 24292) = 1
      exact c4days
    rw [hdm]
    have h1 : Int.toNat 1 = 1 := rfl
    norm_num [emiFormulaQ, c4c4, c4ctx, h1]

/-- C4 (amended): in any simulated month with a positive part-payment
sum and a reduce-emi event, the adjusted end date is updated by the
reduce-tenure events first (when one is present and the new balance is
positive), the installment is recomputed by `reduceEmiRecalc` reading
that already-adjusted end date, and the recomputation yields the fresh
EMI over the 30-day-ceiled months to the adjusted end date ONLY under
the guards `remainingMonths > 1` and `newBalance > 0` - otherwise (and
on an invalid adjusted date) the installment is kept unchanged, contrary
to the unconditional recomputation the claim states. -/
theorem c4_amended (ctx : SimCtx) (s : SimState)
    (hpa : 0 < ((ctx.payments.filter (matchesMonth (yearOf s.currentDate)
      (monthOf s.currentDate))).map (fun e => e.amount)).sum)
    (hre : ((ctx.payments.filter (matchesMonth (yearOf s.currentDate)
      (monthOf s.currentDate))).any
        (fun e => e.strategy == Strategy.reduceEmi)) = true) :
    ((simStep ctx s).adjustedEndDate =
      if ((ctx.payments.filter (matchesMonth (yearOf s.currentDate)
          (monthOf s.currentDate))).any
            (fun e => e.strategy == Strategy.reduceTenure)) = true ∧
          0 < (simStep ctx s).remainingBalance then
        reduceTenureEnd ctx.monthlyRate s.currentEMI
          (simStep ctx s).remainingBalance s.currentDate
      else s.adjustedEndDate) ∧
    (simStep ctx s).currentEMI =
      reduceEmiRecalc ctx.monthlyRate s.currentEMI (simStep ctx s).remainingBalance
        s.currentDate (simStep ctx s).adjustedEndDate ∧
    (∀ d : ℤ, (simStep ctx s).adjustedEndDate = some d →
      (1 < ceilDiv30 (daysBetweenMonths s.currentDate d) ∧
          0 < (simStep ctx s).remainingBalance →
        (simStep ctx s).currentEMI = emiFormulaQ (simStep ctx s).remainingBalance
          ctx.monthlyRate (ceilDiv30 (daysBetweenMonths s.currentDate d)).toNat) ∧
      (¬ (1 < ceilDiv30 (daysBetweenMonths s.currentDate d) ∧
          0 < (simStep ctx s).remainingBalance) →
        (simStep ctx s).currentEMI = s.currentEMI)) := by
  have hadj : (simStep ctx s).adjustedEndDate =
      if ((ctx.payments.filter (matchesMonth (yearOf s.currentDate)
          (monthOf s.currentDate))).any
            (fun e => e.strategy == Strategy.reduceTenure)) = true ∧
          0 < (simStep ctx s).remainingBalance then
        reduceTenureEnd ctx.monthlyRate s.currentEMI
          (simStep ctx s).remainingBalance s.currentDate
      else s.adjustedEndDate := by
    show (if 0 < _ ∧ _ ∧ _ then _ else _) = _
    by_cases h : ((ctx.payments.filter (matchesMonth (yearOf s.currentDate)
        (monthOf s.currentDate))).any
          (fun e => e.strategy == Strategy.reduceTenure)) = true ∧
        0 < (simStep ctx s).remainingBalance
    · rw [if_pos ⟨hpa, h.1, h.2⟩, if_pos h]
      rfl
    · rw [if_neg (fun hc => h ⟨hc.2.1, hc.2.2⟩), if_neg h]
  have hemi : (simStep ctx s).currentEMI =
      reduceEmiRecalc ctx.monthlyRate s.currentEMI (simStep ctx s).remainingBalance
        s.currentDate (simStep ctx s).adjustedEndDate := by
    show (if 0 < _ ∧ _ then _ else _) = _
    rw [if_pos ⟨hpa, hre⟩]
    rfl
  refine ⟨hadj, hemi, ?_⟩
  intro d hd
  rw [hemi, hd]
  simp only [reduceEmiRecalc]
  constructor
  · intro hcond
    rw [if_pos hcond]
  · intro hcond
    rw [if_neg hcond]

/-- A concrete April 2024 state used to instantiate the amended C4
theorem. -/
def c4ws : SimState := ⟨100, 0, [], [], 24291, 3, 100, some 24294, 0⟩

/-- C4 amended witness: the amended theorem instantiated at the C4
context in April 2024. -/
theorem c4_amended_witness :
    ((0 : ℚ) < ((c4ctx.payments.filter (matchesMonth (yearOf c4ws.currentDate)
      (monthOf c4ws.currentDate))).map (fun e => e.amount)).sum ∧
    ((c4ctx.payments.filter (matchesMonth (yearOf c4ws.currentDate)
      (monthOf c4ws.currentDate))).any
        (fun e => e.strategy == Strategy.reduceEmi)) = true) ∧
    (((simStep c4ctx c4ws).adjustedEndDate =
      if ((c4ctx.payments.filter (matchesMonth (yearOf c4ws.currentDate)
          (monthOf c4ws.currentDate))).any
            (fun e => e.strategy == Strategy.reduceTenure)) = true ∧
          0 < (simStep c4ctx c4ws).remainingBalance then
        reduceTenureEnd c4ctx.monthlyRate c4ws.currentEMI
          (simStep c4ctx c4ws).remainingBalance c4ws.currentDate
      else c4ws.adjustedEndDate) ∧
    (simStep c4ctx c4ws).currentEMI =
      reduceEmiRecalc c4ctx.monthlyRate c4ws.currentEMI
        (simStep c4ctx c4ws).remainingBalance
        c4ws.currentDate (simStep c4ctx c4ws).adjustedEndDate ∧
    (∀ d : ℤ, (simStep c4ctx c4ws).adjustedEndDate = some d →
      (1 < ceilDiv30 (daysBetweenMonths c4ws.currentDate d) ∧
          0 < (simStep c4ctx c4ws).remainingBalance →
        (simStep c4ctx c4ws).currentEMI = emiFormulaQ
          (simStep c4ctx c4ws).remainingBalance
          c4ctx.monthlyRate (ceilDiv30 (daysBetweenMonths c4ws.currentDate d)).toNat) ∧
      (¬ (1 < ceilDiv30 (daysBetweenMonths c4ws.currentDate d) ∧
          0 < (simStep c4ctx c4ws).remainingBalance) →
        (simStep c4ctx c4ws).currentEMI = c4ws.currentEMI))) := by
  have hpa : (0 : ℚ) < ((c4ctx.payments.filter (matchesMonth (yearOf c4ws.currentDate)
      (monthOf c4ws.currentDate))).map (fun e => e.amount)).sum := by
    norm_num [c4ctx, c4ws, matchesMonth, yearOf, monthOf, Int.fdiv, evRT150Apr, evRE1Apr]
  have hre : ((c4ctx.payments.filter (matchesMonth (yearOf c4ws.currentDate)
      (monthOf c4ws.currentDate))).any
        (fun e => e.strategy == Strategy.reduceEmi)) = true := by
    norm_num [c4ctx, c4ws, matchesMonth, yearOf, monthOf, Int.fdiv, evRT150Apr, evRE1Apr]
  exact ⟨⟨hpa, hre⟩, c4_amended c4ctx c4ws hpa hre⟩
